import Mathlib

/-!
MM.Problem: problem-file reader and scorer.

A shallow embedding of `src/src/is_large.cpp`, `src/include/mm/problem/result.hpp`
and `src/include/mm/problem/private/reader.ipp`.

Modelling conventions.

* `uint32_t` values are naturals below `2^32`; where the source adds two of them the
  model reduces modulo `2^32`.  `isLarge` computes in `size_t`, taken as 64 bits wide,
  and reduces modulo `2^64` after every operation.  Indices into caller buffers and
  byte offsets into the file are exact naturals.
* `Element` is the template parameter of the source (a floating-point type).  A finite
  value is an exact integer multiple of the smallest positive value of the format, so
  `Element.fin n` stands for `n * 2^(-minExp)`; the three non-finite classes are kept.
  The conversion of `lhs_cols`, the cast of `exp2` and the product in `create_result`
  round to nearest, ties to even, at the precision of the format, underflow to zero
  and overflow to infinity.  The subtraction in `score_element` is formed exactly on
  finite values (it is not rounded).
* A caller buffer (`Element*`) is a total map from index to element; an array the
  code allocates itself (`make_unique<Element[]>(n)`) is a list of length `n`, and a
  read outside it is the fault `outOfBounds`.
* The violation callback (`std::function`) is a Boolean, `true` when it holds a
  target; its invocations are recorded in order.
* The two violation counters are naturals: a `Result` starts at zero and gains at most
  one per comparison, so the `size_t` counters do not wrap.
* Several loop counters of `LargeImpl` are declared without an initial value.
  Every such counter starts at the parameter `uninit`; `uninit = 0` is the start the
  loops are written for.
-/

namespace MM.Problem

/-! ## Elements -/

/-- Value of the template parameter `Element`: a finite value in units of the
smallest positive value of the format, or one of the non-finite classes. -/
inductive Element where
  | fin (units : Int)
  | pinf
  | ninf
  | nan
deriving DecidableEq, Repr

namespace Element

instance : Inhabited Element := ⟨fin 0⟩

/-- Value-initialised element, `Element{0}`. -/
def zero : Element := fin 0

/-- Result of `std::isfinite`. -/
def isfinite : Element → Bool
  | fin _ => true
  | _ => false

/-- Floating-point subtraction `a - b`, exact on finite values. -/
def sub : Element → Element → Element
  | nan, _ => nan
  | _, nan => nan
  | fin a, fin b => fin (a - b)
  | fin _, pinf => ninf
  | fin _, ninf => pinf
  | pinf, pinf => nan
  | pinf, _ => pinf
  | ninf, ninf => nan
  | ninf, _ => ninf

/-- Result of `std::abs`. -/
def abs : Element → Element
  | fin a => fin (Int.ofNat a.natAbs)
  | pinf => pinf
  | ninf => pinf
  | nan => nan

/-- Comparison `a < b`; false as soon as one side is a NaN. -/
def lt : Element → Element → Bool
  | nan, _ => false
  | _, nan => false
  | fin a, fin b => decide (a < b)
  | fin _, pinf => true
  | fin _, ninf => false
  | pinf, _ => false
  | ninf, ninf => false
  | ninf, _ => true

/-- Comparison `a > b`, which is `b < a`. -/
def gt (a b : Element) : Bool := lt b a

/-- Function `std::max(a, b)`, which is `(a < b) ? b : a`. -/
def max (a b : Element) : Element := if lt a b then b else a

end Element

/-- Largest multiple `c` of `w` for which `n >>> c` is still non-zero (zero for
`n = 0`); `fuel` bounds the number of steps and `fuel = n` always suffices. -/
def shiftCount (w : Nat) : Nat → Nat → Nat
  | 0, _ => 0
  | fuel + 1, n => if n >>> w = 0 then 0 else w + shiftCount w fuel (n >>> w)

/-- Number of binary digits of `n`, found in steps of 64, 8 and 1 bits. -/
def bitLength (n : Nat) : Nat :=
  if n = 0 then 0
  else
    let c1 := shiftCount 64 n n
    let c2 := shiftCount 8 (n >>> c1) (n >>> c1)
    let c3 := shiftCount 1 (n >>> (c1 + c2)) (n >>> (c1 + c2))
    c1 + c2 + c3 + 1

/-- Layout of the element type: its size in bytes, `numeric_limits<Element>::digits`,
the exponent `minExp` with `2^(-minExp)` its smallest positive value, the exponent
`maxExp` (`numeric_limits<Element>::max_exponent`) with `2^maxExp` the first power of
two above every finite value, and the decoding of `size` consecutive file bytes. -/
structure ElemFormat where
  size : Nat
  digits : Nat
  minExp : Nat
  maxExp : Nat
  decode : List Nat → Element

/-- Little-endian value of a byte sequence. -/
def leValue : List Nat → Nat
  | [] => 0
  | b :: bs => b % 256 + 256 * leValue bs

/-- Decoding of an IEEE-754 binary32 value stored little-endian, in units of
`2^(-149)`. -/
def float32Decode (bs : List Nat) : Element :=
  let bits := leValue (bs.take 4)
  let sign := bits / 2 ^ 31
  let e := (bits / 2 ^ 23) % 256
  let m := bits % 2 ^ 23
  if e = 255 then
    if m = 0 then (if sign = 0 then Element.pinf else Element.ninf) else Element.nan
  else
    let mag : Nat := if e = 0 then m else (2 ^ 23 + m) * 2 ^ (e - 1)
    Element.fin (if sign = 0 then Int.ofNat mag else -Int.ofNat mag)

/-- Format for `Element = float`. -/
def float32 : ElemFormat :=
  { size := 4, digits := 24, minExp := 149, maxExp := 128, decode := float32Decode }

/-- Value of `static_cast<Element>(exp2(x))` for an integer `x`: zero when `2^x` lies
below the smallest positive value (a power of two below it is at most half of it and
rounds to zero), `+inf` from `x = maxExp`, and otherwise the power of two in units of
`2^(-minExp)`. -/
def ElemFormat.exp2 (fmt : ElemFormat) (x : Int) : Element :=
  if x + fmt.minExp < 0 then Element.fin 0
  else if (fmt.maxExp : Int) ≤ x then Element.pinf
  else Element.fin (Int.ofNat (2 ^ (x + fmt.minExp).toNat))

/-- Rounding to nearest, ties to even: the magnitude, in units, of the element nearest
to `n / 2^k` units, or `none` when the rounded magnitude reaches `2^maxExp`.  The
spacing of the elements around the value is `2^e` units, `m` is the value in that
spacing rounded down and `r` the remainder. -/
def ElemFormat.roundMag (fmt : ElemFormat) (n k : Nat) : Option Nat :=
  let e := bitLength (n >>> k) - fmt.digits
  let s := k + e
  let m := n >>> s
  let r := n - (m <<< s)
  let m' := if 1 <<< s < 2 * r ∨ (2 * r = 1 <<< s ∧ m % 2 = 1) then m + 1 else m
  if (m' <<< e) >>> (fmt.maxExp + fmt.minExp) = 0 then some (m' <<< e) else none

/-- The element that the exact value `n / 2^k` units rounds to; a magnitude beyond the
largest finite value becomes an infinity. -/
def ElemFormat.round (fmt : ElemFormat) (n : Int) (k : Nat) : Element :=
  match fmt.roundMag n.natAbs k with
  | some m => Element.fin (if n < 0 then -Int.ofNat m else Int.ofNat m)
  | none => if n < 0 then Element.ninf else Element.pinf

/-- Conversion `static_cast<Element>(k)` of an unsigned integer. -/
def ElemFormat.ofNat (fmt : ElemFormat) (k : Nat) : Element :=
  fmt.round (Int.ofNat (k * 2 ^ fmt.minExp)) 0

/-- Floating-point product `a * b`: the exact product of two finite values, rounded;
zero times an infinity is a NaN. -/
def ElemFormat.mul (fmt : ElemFormat) : Element → Element → Element
  | Element.nan, _ => Element.nan
  | _, Element.nan => Element.nan
  | Element.fin a, Element.fin b => fmt.round (a * b) fmt.minExp
  | Element.fin a, Element.pinf =>
    if a = 0 then Element.nan else if 0 < a then Element.pinf else Element.ninf
  | Element.fin a, Element.ninf =>
    if a = 0 then Element.nan else if 0 < a then Element.ninf else Element.pinf
  | Element.pinf, Element.fin b =>
    if b = 0 then Element.nan else if 0 < b then Element.pinf else Element.ninf
  | Element.ninf, Element.fin b =>
    if b = 0 then Element.nan else if 0 < b then Element.ninf else Element.pinf
  | Element.pinf, Element.pinf => Element.pinf
  | Element.pinf, Element.ninf => Element.ninf
  | Element.ninf, Element.pinf => Element.ninf
  | Element.ninf, Element.ninf => Element.pinf

/-! ## Size classifier (`is_large.cpp`) -/

/-- Number of values of `size_t`. -/
def sizeMod : Nat := 2 ^ 64

/-- Number of values of `uint32_t`. -/
def u32Mod : Nat := 2 ^ 32

/-- Function `isLarge` of `is_large.cpp`: the three products and the two sums are
formed in `size_t`. -/
def isLarge (lhs_rows lhs_cols rhs_cols : Nat) : Bool :=
  decide (3 * ((1 <<< 22) % sizeMod) % sizeMod
    ≤ (((lhs_rows * lhs_cols) % sizeMod + (lhs_cols * rhs_cols) % sizeMod) % sizeMod
        + (lhs_rows * rhs_cols) % sizeMod) % sizeMod)

/-! ## Result and tolerance model -/

/-- Structure `Result<Element>` of `result.hpp`. -/
structure Result where
  loose_standard : Element
  strict_standard : Element
  loose_violations : Nat
  strict_violations : Nat
  max_difference : Element
deriving DecidableEq, Repr

/-- Constants used by `create_result` that are declared outside the given sources:
`ELEMENT_DIGIT_2` of `definition.hpp` and the two static members of `Result`. -/
structure Config where
  ELEMENT_DIGIT_2 : Int
  loose_standard_digits : Int
  strict_standard_digits : Int

/-- Function `ImplBase::create_result`. -/
def create_result (fmt : ElemFormat) (cfg : Config) (lhs_cols : Nat) : Result :=
  { strict_standard :=
      fmt.mul (fmt.ofNat lhs_cols)
        (fmt.exp2 (cfg.ELEMENT_DIGIT_2 * 2 - fmt.digits - cfg.strict_standard_digits))
    loose_standard :=
      fmt.mul (fmt.ofNat lhs_cols)
        (fmt.exp2 (cfg.ELEMENT_DIGIT_2 * 2 - fmt.digits - cfg.loose_standard_digits))
    loose_violations := 0
    strict_violations := 0
    max_difference := Element.zero }

/-- Function `ImplBase::score_element`: the returned flag `is_correct` and the
updated `Result`. -/
def score_element (result : Result) (calced answer : Element) : Bool × Result :=
  let diff := Element.abs (Element.sub calced answer)
  let step : Bool × Result :=
    if !diff.isfinite || Element.gt diff result.strict_standard then
      (false, { result with
                  strict_violations := result.strict_violations + 1
                  loose_violations := result.loose_violations + 1 })
    else if Element.gt diff result.loose_standard then
      (true, { result with loose_violations := result.loose_violations + 1 })
    else
      (true, result)
  (step.1, { step.2 with max_difference := Element.max diff step.2.max_difference })

/-! ## Faults, streams and arrays -/

/-- Ways in which an operation ends without returning. -/
inductive Fault where
  | assertion
  | divisionByZero
  | outOfBounds
  | badFunctionCall
  | indeterminate
  | diverges
deriving DecidableEq, Repr

deriving instance DecidableEq for Except

/-- Input stream `std::ifstream` over the file bytes: the read position and one
sticky failure flag; once the flag is set, reads deliver nothing and seeks are ignored. -/
structure Stream where
  bytes : List Nat
  pos : Nat
  failed : Bool
deriving DecidableEq, Repr

namespace Stream

/-- Stream of a freshly opened file. -/
def ofBytes (bytes : List Nat) : Stream := { bytes := bytes, pos := 0, failed := false }

/-- Call `seekg(p)`. -/
def seekg (s : Stream) (p : Nat) : Stream :=
  if s.failed then s else { s with pos := p }

/-- Call `seekg(off, std::ios_base::cur)`. -/
def seekgCur (s : Stream) (off : Nat) : Stream :=
  if s.failed then s else { s with pos := s.pos + off }

/-- Call `ignore(n)`. -/
def ignore (s : Stream) (n : Nat) : Stream :=
  if s.failed then s else { s with pos := min (s.pos + n) (Nat.max s.pos s.bytes.length) }

/-- Call `read(ptr, n)`: the bytes delivered and the stream afterwards; a short read
sets the failure flag. -/
def read (s : Stream) (n : Nat) : List Nat × Stream :=
  if s.failed then ([], s)
  else
    let got := (s.bytes.drop s.pos).take n
    (got, { s with pos := s.pos + got.length, failed := decide (got.length < n) })

/-- Read of one `uint32_t` into a local without initial value: `none` when the
read is short and the local stays indeterminate. -/
def readU32 (s : Stream) : Option Nat × Stream :=
  let r := s.read 4
  (if r.1.length = 4 then some (leValue r.1) else none, r.2)

end Stream

/-- Caller-owned element buffer addressed through a pointer. -/
abbrev Buffer := Nat → Element

/-- Array `std::unique_ptr<Element[]>` allocated by the code: its element count and
its contents by index. -/
structure Block where
  size : Nat
  elems : Nat → Element

/-- Element access `block[i]`; `none` outside the allocation. -/
def Block.get? (b : Block) (i : Nat) : Option Element :=
  if i < b.size then some (b.elems i) else none

/-- Statement pair `make_unique<Element[]>(count)` and `m_stream.read(ptr, nbytes)`:
the array starts as zero bytes, the bytes delivered overwrite its front, and each
element is decoded from its `size` bytes. -/
def readArray (fmt : ElemFormat) (s : Stream) (count nbytes : Nat) : Block × Stream :=
  let r := s.read nbytes
  ({ size := count
     elems := fun i =>
       fmt.decode (((r.1 ++ List.replicate (count * fmt.size - r.1.length) 0).drop
         (i * fmt.size)).take fmt.size) }, r.2)

/-! ## Scoring state -/

/-- Arguments of one invocation of the violation callback; also the record of one
comparison: position, candidate element, reference element. -/
structure Violation where
  row : Nat
  col : Nat
  calced : Element
  answer : Element
deriving DecidableEq, Repr

/-- State of a scoring scan: the accumulated `Result`, the callback invocations made
so far, the comparisons made so far (`scored`, a trace kept beside the program state),
and the fault that stopped the scan, if any. -/
structure Scan where
  result : Result
  calls : List Violation
  scored : List Violation
  fault : Option Fault
deriving DecidableEq, Repr

/-- Invocation `violation_callback(...)`: an empty `std::function` throws
`std::bad_function_call`. -/
def Scan.call (violation_callback : Bool) (sc : Scan) (v : Violation) : Scan :=
  if violation_callback then { sc with calls := sc.calls ++ [v] }
  else { sc with fault := some Fault.badFunctionCall }

/-- Call `score_element(result, calced_elem, answer_elem)` inside a scan: the flag
returned, and the scan with the updated `Result` and the comparison recorded. -/
def Scan.compare (sc : Scan) (row col : Nat) (calced_elem answer_elem : Element) :
    Bool × Scan :=
  let r := score_element sc.result calced_elem answer_elem
  (r.1, { sc with result := r.2, scored := sc.scored ++ [⟨row, col, calced_elem, answer_elem⟩] })

/-- What a call of `score` leaves behind: the scan state and the stream.  The call
returns `scan.result` when `scan.fault` is `none` and ends in the fault otherwise. -/
structure ScoreOutcome where
  scan : Scan
  stream : Stream
deriving DecidableEq, Repr

/-- Value returned by a call of `score`, or the fault that ended it. -/
def ScoreOutcome.returned (o : ScoreOutcome) : Except Fault Result :=
  match o.scan.fault with
  | some f => Except.error f
  | none => Except.ok o.scan.result

/-- What a call of `get` leaves behind: the two caller buffers, the stream, and the
fault that ended the call, if any. -/
structure GetOutcome where
  lhs : Buffer
  rhs : Buffer
  stream : Stream
  fault : Option Fault

/-! ## Dense codec (`RegularImpl`) -/

/-- Body of the scan loop of `RegularImpl::score`: the callback is invoked whenever
`score_element` returns false, without a test that it holds a target. -/
def RegularImpl.scoreBody (violation_callback : Bool) (sc : Scan) (row col : Nat)
    (calced_elem : Element) (answer_elem : Option Element) : Scan :=
  match sc.fault, answer_elem with
  | some _, _ => sc
  | none, none => { sc with fault := some Fault.outOfBounds }
  | none, some a =>
    let r := sc.compare row col calced_elem a
    if !r.1 then Scan.call violation_callback r.2 ⟨row, col, calced_elem, a⟩
    else r.2

/-- Function `RegularImpl::score`. -/
def RegularImpl.score (fmt : ElemFormat) (cfg : Config) (m_stream : Stream) (calced : Buffer)
    (lhs_rows lhs_cols rhs_cols pitch : Nat) (violation_callback : Bool) : ScoreOutcome :=
  let rows := lhs_rows
  let s0 := m_stream.seekg (4 * 3 + fmt.size * lhs_rows * lhs_cols
              + fmt.size * lhs_cols * rhs_cols)
  let a := readArray fmt s0 (lhs_rows * rhs_cols) (fmt.size * lhs_rows * rhs_cols)
  let answer := a.1
  let result := create_result fmt cfg lhs_cols
  let scan := (List.range lhs_rows).foldl (fun sc row =>
    (List.range rhs_cols).foldl (fun sc col =>
      RegularImpl.scoreBody violation_callback sc row col
        (calced (row * pitch + col)) (answer.get? (row * rows + col))) sc)
    { result := result, calls := [], scored := [], fault := none }
  { scan := scan, stream := a.2 }

/-- One row read of `RegularImpl::get`, `m_stream.read(&dist[at], sizeof(Element) * cols)`:
every element whose bytes are all delivered is stored, the others keep their content. -/
def RegularImpl.readRow (fmt : ElemFormat) (s : Stream) (dist : Buffer) (start cols : Nat) :
    Buffer × Stream :=
  let r := s.read (fmt.size * cols)
  (fun i => if start ≤ i ∧ (i - start + 1) * fmt.size ≤ r.1.length
      then fmt.decode ((r.1.drop ((i - start) * fmt.size)).take fmt.size) else dist i, r.2)

/-- Function `RegularImpl::get`. -/
def RegularImpl.get (fmt : ElemFormat) (m_stream : Stream) (lhs rhs : Buffer)
    (lhs_rows lhs_cols rhs_cols lhs_pitch rhs_pitch : Nat) : GetOutcome :=
  let s0 := m_stream.seekg (4 * 3)
  let l := (List.range lhs_rows).foldl (fun (st : Buffer × Stream) row =>
    RegularImpl.readRow fmt st.2 st.1 (row * lhs_pitch) lhs_cols) (lhs, s0)
  let rhs_rows := lhs_cols
  let r := (List.range rhs_rows).foldl (fun (st : Buffer × Stream) row =>
    RegularImpl.readRow fmt st.2 st.1 (row * rhs_pitch) rhs_cols) (rhs, l.2)
  { lhs := l.1, rhs := r.1, stream := r.2, fault := none }

/-! ## Tiled codec (`LargeImpl`) -/

/-- Iterations after which a loop over a `uint32_t` counter has revisited a counter
value and so never ends. -/
def loopFuel : Nat := 2 ^ 32 + 1

/-- Loop `for (; i + stride <= limit; i += stride) body`, all in `uint32_t`: the
counter value and the state at exit, or `none` when the loop does not end within
`fuel` iterations.  A state that `halted` recognises ends the loop at once. -/
def strideLoop {σ : Type} (halted : σ → Bool) (stride limit : Nat) (body : Nat → σ → σ) :
    Nat → Nat → σ → Option (Nat × σ)
  | 0, _, _ => none
  | fuel + 1, i, st =>
    if halted st then some (i, st)
    else if (i + stride) % u32Mod ≤ limit then
      strideLoop halted stride limit body fuel ((i + stride) % u32Mod) (body i st)
    else some (i, st)

/-- Counter values of `for (uint32_t i /* = start */; i < n; i++)`. -/
def countFrom (start n : Nat) : List Nat := (List.range (n - start)).map (fun j => start + j)

/-- State of the reader lambda of `LargeImpl::get`: the destination buffer and the
fault that stopped it, if any. -/
structure Copy where
  dist : Buffer
  fault : Option Fault

/-- Call `std::copy_n(&src[first], count, &dist[result])`. -/
def copy_n (src : Block) (first count : Nat) (st : Copy) (result : Nat) : Copy :=
  match st.fault with
  | some _ => st
  | none =>
    if first + count ≤ src.size then
      { st with dist := fun i =>
          if result ≤ i ∧ i < result + count then src.elems (first + (i - result))
          else st.dist i }
    else { st with fault := some Fault.outOfBounds }

/-- Inner part of a row of the reader lambda: the column loop copying `count`-wide
rows of `block` from offset `first`, then the copy of `pad_cols` elements of
`pad_right` to index `line + col` (the source omits `* pitch` there). -/
def LargeImpl.readerRow (block pad_right : Block) (first line cols pitch
    repeat_cols pad_cols : Nat) (st : Copy) : Copy :=
  match strideLoop (fun (c : Copy) => c.fault.isSome) repeat_cols cols
      (fun col c => copy_n block first repeat_cols c (line * pitch + col)) loopFuel 0 st with
  | none => { st with fault := some Fault.diverges }
  | some (col, c) => copy_n pad_right 0 pad_cols c (line + col)

/-- Reader lambda of `LargeImpl::get`. -/
def LargeImpl.reader (fmt : ElemFormat) (uninit : Nat) (m_stream : Stream) (dist : Buffer)
    (rows cols pitch repeat_rows repeat_cols pad_rows pad_cols : Nat) : Copy × Stream :=
  if repeat_rows = 0 then ({ dist := dist, fault := some Fault.divisionByZero }, m_stream)
  else if rows % repeat_rows ≠ pad_rows then
    ({ dist := dist, fault := some Fault.assertion }, m_stream)
  else if repeat_cols = 0 then ({ dist := dist, fault := some Fault.divisionByZero }, m_stream)
  else if cols % repeat_cols ≠ pad_cols then
    ({ dist := dist, fault := some Fault.assertion }, m_stream)
  else
    let r1 := readArray fmt m_stream (repeat_rows * repeat_cols)
      (fmt.size * repeat_rows * repeat_cols)
    let r2 := readArray fmt r1.2 (pad_rows * repeat_cols) (pad_rows * repeat_cols)
    let r3 := readArray fmt r2.2 (repeat_rows * pad_cols) (repeat_rows * pad_cols)
    let r4 := readArray fmt r3.2 (pad_rows * pad_cols) (pad_rows * pad_cols)
    let «repeat» := r1.1
    let pad_bottom := r2.1
    let pad_right := r3.1
    match strideLoop (fun (c : Copy) => c.fault.isSome) repeat_rows rows
        (fun row c =>
          (countFrom uninit repeat_rows).foldl (fun c row_in_repetition =>
            LargeImpl.readerRow «repeat» pad_right (row_in_repetition * repeat_cols)
              ((row + row_in_repetition) % u32Mod) cols pitch repeat_cols pad_cols c) c)
        loopFuel 0 { dist := dist, fault := none } with
    | none => ({ dist := dist, fault := some Fault.diverges }, r4.2)
    | some (row, c) =>
      ((countFrom uninit pad_rows).foldl (fun c row_in_padding =>
        LargeImpl.readerRow pad_bottom pad_right (row_in_padding * repeat_cols)
          ((row + row_in_padding) % u32Mod) cols pitch repeat_cols pad_cols c) c, r4.2)

/-- The six descriptor fields that `LargeImpl::get` reads into locals. -/
structure TileFields where
  lhs_repeat_rows : Nat
  rhs_repeat_cols : Nat
  lhs_repeat_cols : Nat
  lhs_pad_rows : Nat
  lhs_pad_cols : Nat
  rhs_pad_cols : Nat
deriving DecidableEq, Repr

/-- Descriptor reads of `LargeImpl::get`: `seekg(12)`, three fields, four bytes
ignored, three fields.  No fields are returned when one of the reads is short. -/
def LargeImpl.readFields (m_stream : Stream) : Option TileFields × Stream :=
  let s0 := m_stream.seekg (4 * 3)
  let a1 := s0.readU32
  let a2 := a1.2.readU32
  let a3 := a2.2.readU32
  let s4 := a3.2.ignore 4
  let a5 := s4.readU32
  let a6 := a5.2.readU32
  let a7 := a6.2.readU32
  match a1.1, a2.1, a3.1, a5.1, a6.1, a7.1 with
  | some lhs_repeat_rows, some rhs_repeat_cols, some lhs_repeat_cols,
    some lhs_pad_rows, some lhs_pad_cols, some rhs_pad_cols =>
    (some { lhs_repeat_rows := lhs_repeat_rows, rhs_repeat_cols := rhs_repeat_cols
            lhs_repeat_cols := lhs_repeat_cols, lhs_pad_rows := lhs_pad_rows
            lhs_pad_cols := lhs_pad_cols, rhs_pad_cols := rhs_pad_cols }, a7.2)
  | _, _, _, _, _, _ => (none, a7.2)

/-- Function `LargeImpl::get`.  The locals `rhs_repeat_rows` and `rhs_pad_rows` are
references to `lhs_repeat_cols` and `lhs_pad_cols`. -/
def LargeImpl.get (fmt : ElemFormat) (uninit : Nat) (m_stream : Stream) (lhs rhs : Buffer)
    (lhs_rows lhs_cols rhs_cols lhs_pitch rhs_pitch : Nat) : GetOutcome :=
  let rhs_rows := lhs_cols
  match LargeImpl.readFields m_stream with
  | (some d, s) =>
    let rhs_repeat_rows := d.lhs_repeat_cols
    let rhs_pad_rows := d.lhs_pad_cols
    let l := LargeImpl.reader fmt uninit s lhs lhs_rows lhs_cols lhs_pitch
      d.lhs_repeat_rows d.lhs_repeat_cols d.lhs_pad_rows d.lhs_pad_cols
    match l.1.fault with
    | some f => { lhs := l.1.dist, rhs := rhs, stream := l.2, fault := some f }
    | none =>
      let r := LargeImpl.reader fmt uninit l.2 rhs rhs_rows rhs_cols rhs_pitch
        rhs_repeat_rows d.rhs_repeat_cols rhs_pad_rows d.rhs_pad_cols
      { lhs := l.1.dist, rhs := r.1.dist, stream := r.2, fault := r.1.fault }
  | (none, s) => { lhs := lhs, rhs := rhs, stream := s, fault := some Fault.indeterminate }

/-- Body of the four innermost loops of `LargeImpl::score`: the callback is invoked
when `score_element` returns false and the callback holds a target. -/
def LargeImpl.scoreBody (violation_callback : Bool) (sc : Scan) (row col : Nat)
    (calced_elem : Element) (answer_elem : Option Element) : Scan :=
  match sc.fault, answer_elem with
  | some _, _ => sc
  | none, none => { sc with fault := some Fault.outOfBounds }
  | none, some a =>
    let r := sc.compare row col calced_elem a
    if !r.1 && violation_callback then
      Scan.call violation_callback r.2 ⟨row, col, calced_elem, a⟩
    else r.2

/-- One destination row of the walk of `LargeImpl::score`: the column loop over whole
tiles comparing against `block[k * rows + col_in_repetition]`, then the loop over
`col_in_padding < repeat_cols` comparing against `pad_right[k * rows + col_in_padding]`.
Here `k` is the row inside the block and `line` the destination row `row + k`. -/
def LargeImpl.scoreRow (uninit : Nat) (violation_callback : Bool) (calced : Buffer)
    (block pad_right : Block) (k line rows cols pitch repeat_cols : Nat)
    (sc : Scan) : Scan :=
  match strideLoop (fun (c : Scan) => c.fault.isSome) repeat_cols cols
      (fun col c =>
        (countFrom uninit repeat_cols).foldl (fun c col_in_repetition =>
          LargeImpl.scoreBody violation_callback c line ((col + col_in_repetition) % u32Mod)
            (calced (line * pitch + (col + col_in_repetition) % u32Mod))
            (block.get? (k * rows + col_in_repetition))) c)
      loopFuel 0 sc with
  | none => { sc with fault := some Fault.diverges }
  | some (col, c) =>
    (countFrom uninit repeat_cols).foldl (fun c col_in_padding =>
      LargeImpl.scoreBody violation_callback c line ((col + col_in_padding) % u32Mod)
        (calced (line * pitch + (col + col_in_padding) % u32Mod))
        (pad_right.get? (k * rows + col_in_padding))) c

/-- Tiling walk of `LargeImpl::score` over the four blocks already read. -/
def LargeImpl.scoreWalk (uninit : Nat) (violation_callback : Bool) (calced : Buffer)
    («repeat» pad_bottom pad_right : Block)
    (rows cols pitch repeat_rows repeat_cols pad_rows : Nat) (sc : Scan) : Scan :=
  match strideLoop (fun (c : Scan) => c.fault.isSome) repeat_rows rows
      (fun row c =>
        (countFrom uninit repeat_rows).foldl (fun c row_in_repetition =>
          LargeImpl.scoreRow uninit violation_callback calced «repeat» pad_right
            row_in_repetition ((row + row_in_repetition) % u32Mod) rows cols pitch
            repeat_cols c) c)
      loopFuel 0 sc with
  | none => { sc with fault := some Fault.diverges }
  | some (row, c) =>
    (countFrom uninit pad_rows).foldl (fun c row_in_padding =>
      LargeImpl.scoreRow uninit violation_callback calced pad_bottom pad_right
        row_in_padding ((row + row_in_padding) % u32Mod) rows cols pitch repeat_cols c) c

/-- Scan state in which no `Result` has been created yet and `f` ends the call. -/
def Scan.faulted (f : Fault) : Scan :=
  { result := { loose_standard := Element.zero, strict_standard := Element.zero,
                loose_violations := 0, strict_violations := 0,
                max_difference := Element.zero }
    calls := [], scored := [], fault := some f }

/-- The four descriptor fields that `LargeImpl::score` reads into locals. -/
structure AnswerFields where
  repeat_rows : Nat
  repeat_cols : Nat
  pad_rows : Nat
  pad_cols : Nat
deriving DecidableEq, Repr

/-- Descriptor reads of `LargeImpl::score`: `seekg(12)`, two fields, eight bytes
ignored, one field, four bytes ignored, one field. -/
def LargeImpl.readAnswerFields (m_stream : Stream) : Option AnswerFields × Stream :=
  let s0 := m_stream.seekg (4 * 3)
  let a1 := s0.readU32
  let a2 := a1.2.readU32
  let s3 := a2.2.ignore (4 * 2)
  let a4 := s3.readU32
  let s5 := a4.2.ignore 4
  let a6 := s5.readU32
  match a1.1, a2.1, a4.1, a6.1 with
  | some repeat_rows, some repeat_cols, some pad_rows, some pad_cols =>
    (some { repeat_rows := repeat_rows, repeat_cols := repeat_cols
            pad_rows := pad_rows, pad_cols := pad_cols }, a6.2)
  | _, _, _, _ => (none, a6.2)

/-- Function `LargeImpl::score`. -/
def LargeImpl.score (fmt : ElemFormat) (cfg : Config) (uninit : Nat) (m_stream : Stream)
    (calced : Buffer) (lhs_rows lhs_cols rhs_cols pitch : Nat) (violation_callback : Bool) :
    ScoreOutcome :=
  let rows := lhs_rows
  let cols := rhs_cols
  match LargeImpl.readAnswerFields m_stream with
  | (some d, s) =>
    if d.repeat_rows = 0 then { scan := Scan.faulted Fault.divisionByZero, stream := s }
    else if rows % d.repeat_rows ≠ d.pad_rows then
      { scan := Scan.faulted Fault.assertion, stream := s }
    else if d.repeat_cols = 0 then { scan := Scan.faulted Fault.divisionByZero, stream := s }
    else if cols % d.repeat_cols ≠ d.pad_cols then
      { scan := Scan.faulted Fault.assertion, stream := s }
    else
      let s7 := s.seekgCur (fmt.size * lhs_rows * lhs_cols + fmt.size * lhs_cols * rhs_cols)
      let r1 := readArray fmt s7 (d.repeat_rows * d.repeat_cols)
        (fmt.size * d.repeat_rows * d.repeat_cols)
      let r2 := readArray fmt r1.2 (d.pad_rows * d.repeat_cols) (d.pad_rows * d.repeat_cols)
      let r3 := readArray fmt r2.2 (d.repeat_rows * d.pad_cols) (d.repeat_rows * d.pad_cols)
      let r4 := readArray fmt r3.2 (d.pad_rows * d.pad_cols) (d.pad_rows * d.pad_cols)
      let result := create_result fmt cfg lhs_cols
      { scan := LargeImpl.scoreWalk uninit violation_callback calced r1.1 r2.1 r3.1
          rows cols pitch d.repeat_rows d.repeat_cols d.pad_rows
          { result := result, calls := [], scored := [], fault := none }
        stream := r4.2 }
  | (none, s) => { scan := Scan.faulted Fault.indeterminate, stream := s }

/-! ## Reader facade -/

/-- The two implementations behind `pimpl`. -/
inductive Impl where
  | RegularImpl
  | LargeImpl
deriving DecidableEq, Repr

/-- Class `Reader<Element>`: the three header fields, the implementation chosen at
construction and the stream it owns. -/
structure Reader where
  m_lhs_rows : Nat
  m_lhs_cols : Nat
  m_rhs_cols : Nat
  pimpl : Impl
  m_stream : Stream
deriving DecidableEq, Repr

/-- Lambda `construct_from_file` of the constructor, on the bytes of the file; `none`
when a header field cannot be read. -/
def Reader.construct_from_file (bytes : List Nat) : Option Reader :=
  let a1 := (Stream.ofBytes bytes).readU32
  let a2 := a1.2.readU32
  let a3 := a2.2.readU32
  match a1.1, a2.1, a3.1 with
  | some m_lhs_rows, some m_lhs_cols, some m_rhs_cols =>
    some { m_lhs_rows := m_lhs_rows, m_lhs_cols := m_lhs_cols, m_rhs_cols := m_rhs_cols
           pimpl := if isLarge m_lhs_rows m_lhs_cols m_rhs_cols then Impl.LargeImpl
                    else Impl.RegularImpl
           m_stream := a3.2 }
  | _, _, _ => none

/-- Function `Reader::get`. -/
def Reader.get (fmt : ElemFormat) (uninit : Nat) (rd : Reader) (lhs rhs : Buffer)
    (lhs_pitch rhs_pitch : Nat) : GetOutcome :=
  match rd.pimpl with
  | Impl.RegularImpl =>
    RegularImpl.get fmt rd.m_stream lhs rhs rd.m_lhs_rows rd.m_lhs_cols rd.m_rhs_cols
      lhs_pitch rhs_pitch
  | Impl.LargeImpl =>
    LargeImpl.get fmt uninit rd.m_stream lhs rhs rd.m_lhs_rows rd.m_lhs_cols rd.m_rhs_cols
      lhs_pitch rhs_pitch

/-- Function `Reader::score`. -/
def Reader.score (fmt : ElemFormat) (cfg : Config) (uninit : Nat) (rd : Reader)
    (calced : Buffer) (pitch : Nat) (violation_callback : Bool) : ScoreOutcome :=
  match rd.pimpl with
  | Impl.RegularImpl =>
    RegularImpl.score fmt cfg rd.m_stream calced rd.m_lhs_rows rd.m_lhs_cols rd.m_rhs_cols
      pitch violation_callback
  | Impl.LargeImpl =>
    LargeImpl.score fmt cfg uninit rd.m_stream calced rd.m_lhs_rows rd.m_lhs_cols
      rd.m_rhs_cols pitch violation_callback

/-! ## Quantities and predicates used in the statements -/

/-- The exact element count `lhs_rows*lhs_cols + lhs_cols*rhs_cols + lhs_rows*rhs_cols`
over the naturals. -/
def exactCount (lhs_rows lhs_cols rhs_cols : Nat) : Nat :=
  lhs_rows * lhs_cols + lhs_cols * rhs_cols + lhs_rows * rhs_cols

/-- The difference `abs(calced - answer)` that `score_element` evaluates. -/
def diffOf (calced answer : Element) : Element := Element.abs (Element.sub calced answer)

/-- The condition of the first branch of `score_element`: the difference is not finite
or exceeds the strict threshold. -/
def strictViolated (strict_standard : Element) (calced answer : Element) : Bool :=
  !(diffOf calced answer).isfinite || Element.gt (diffOf calced answer) strict_standard

/-- Invariant of a scan with strict threshold `T` over the candidate `calced`: the
threshold is `T`; the invocations are the comparisons made that violate `T`, in order;
their number is `strict_violations`; and every comparison recorded at `(row, col)` used
the candidate element at `row * pitch + col`. -/
def Scan.Consistent (T : Element) (calced : Buffer) (pitch : Nat) (sc : Scan) : Prop :=
  sc.result.strict_standard = T
  ∧ sc.calls = sc.scored.filter (fun v => strictViolated T v.calced v.answer)
  ∧ sc.calls.length = sc.result.strict_violations
  ∧ ∀ v ∈ sc.scored, v.calced = calced (v.row * pitch + v.col)

/-- The part of `Scan.Consistent` that speaks of the callback only. -/
def Scan.CallsExact (T : Element) (calced : Buffer) (pitch : Nat) (sc : Scan) : Prop :=
  sc.calls = sc.scored.filter (fun v => strictViolated T v.calced v.answer)
  ∧ sc.calls.length = sc.result.strict_violations
  ∧ ∀ v ∈ sc.calls, v.calced = calced (v.row * pitch + v.col)

/-- The condition under which `score_element` counts a loose violation: the strict
condition, or a difference above the loose threshold. -/
def looseViolated (loose_standard strict_standard : Element) (calced answer : Element) :
    Bool :=
  strictViolated strict_standard calced answer
    || Element.gt (diffOf calced answer) loose_standard

/-- The dense loop body applied to a list of comparisons whose reference elements
are all inside the answer array. -/
def scanPairs (violation_callback : Bool) (sc : Scan) (vs : List Violation) : Scan :=
  vs.foldl (fun sc v =>
    RegularImpl.scoreBody violation_callback sc v.row v.col v.calced (some v.answer)) sc

/-- Running maximum of the differences of a list of comparisons. -/
def maxOver (m : Element) (vs : List Violation) : Element :=
  vs.foldl (fun m v => Element.max (diffOf v.calced v.answer) m) m

/-- Two scan states that agree on everything except the callback invocations. -/
def Scan.SameResult (sc sc' : Scan) : Prop :=
  sc.result = sc'.result ∧ sc.fault = sc'.fault ∧ sc.scored = sc'.scored

/-! ## Example files -/

/-- Four bytes of a `uint32_t`, least significant first. -/
def le32 (n : Nat) : List Nat :=
  [n % 256, n / 256 % 256, n / 65536 % 256, n / 16777216 % 256]

/-- Bytes of the `float` value 0.0. -/
def f32_0 : List Nat := [0, 0, 0, 0]

/-- Bytes of the `float` value 1.0. -/
def f32_1 : List Nat := [0, 0, 128, 63]

/-- Bytes of the `float` value 2.0. -/
def f32_2 : List Nat := [0, 0, 0, 64]

/-- Bytes of the `float` value 3.0. -/
def f32_3 : List Nat := [0, 0, 64, 64]

/-- Bytes of the `float` value 4.0. -/
def f32_4 : List Nat := [0, 0, 128, 64]

/-- Bytes of the `float` value 7.0. -/
def f32_7 : List Nat := [0, 0, 224, 64]

/-- The `float` value `n`, for a small natural `n`, in units of `2^(-149)`. -/
def f32 (n : Nat) : Element := Element.fin (Int.ofNat (n * 2 ^ 149))

/-- Element `(row, col)` of the answer matrix of a dense file, by the layout of the
format: 12 header bytes, the LHS (`lhs_rows * lhs_cols` elements), the RHS
(`lhs_cols * rhs_cols` elements), then the answer, row-major with rows of `rhs_cols`
elements. -/
def specDenseAnswer (fmt : ElemFormat) (bytes : List Nat) (lhs_rows lhs_cols rhs_cols
    row col : Nat) : Element :=
  fmt.decode ((bytes.drop (12 + fmt.size * (lhs_rows * lhs_cols)
    + fmt.size * (lhs_cols * rhs_cols) + fmt.size * (row * rhs_cols + col))).take fmt.size)

/-- A dense file with header `(2, 1, 3)`: LHS `[[1],[0]]`, RHS `[[0,0,1]]` and their
product `[[0,0,1],[0,0,0]]` as the answer. -/
def fileC1 : List Nat :=
  le32 2 ++ le32 1 ++ le32 3
    ++ (f32_1 ++ f32_0)
    ++ (f32_0 ++ f32_0 ++ f32_1)
    ++ (f32_0 ++ f32_0 ++ f32_1 ++ f32_0 ++ f32_0 ++ f32_0)

/-- The reader that the constructor builds from `fileC1`. -/
def readerC1 : Reader :=
  { m_lhs_rows := 2, m_lhs_cols := 1, m_rhs_cols := 3, pimpl := Impl.RegularImpl
    m_stream := { bytes := fileC1, pos := 12, failed := false } }

/-- The candidate `[[0,0,1],[0,0,0]]` with pitch 3. -/
def candC1 : Buffer := fun i => if i = 2 then f32 1 else f32 0

/-- The comparisons `RegularImpl::score` makes on `fileC1` and `candC1`: at `(1, col)`
the reference is read at index `1 * 2 + col` of the answer array. -/
def visitsC1 : List Violation :=
  [⟨0, 0, f32 0, f32 0⟩, ⟨0, 1, f32 0, f32 0⟩, ⟨0, 2, f32 1, f32 1⟩,
   ⟨1, 0, f32 0, f32 1⟩, ⟨1, 1, f32 0, f32 0⟩, ⟨1, 2, f32 0, f32 0⟩]

/-- The dense file of the scenario: header `(2, 2, 2)`, LHS `[[1,2],[3,4]]`, RHS the
identity, answer `[[1,2],[3,4]]`. -/
def fileC7 : List Nat :=
  le32 2 ++ le32 2 ++ le32 2
    ++ (f32_1 ++ f32_2 ++ f32_3 ++ f32_4)
    ++ (f32_1 ++ f32_0 ++ f32_0 ++ f32_1)
    ++ (f32_1 ++ f32_2 ++ f32_3 ++ f32_4)

/-- The reader that the constructor builds from `fileC7`. -/
def readerC7 : Reader :=
  { m_lhs_rows := 2, m_lhs_cols := 2, m_rhs_cols := 2, pimpl := Impl.RegularImpl
    m_stream := { bytes := fileC7, pos := 12, failed := false } }

/-- Answer element `(row, col)` of the scenario. -/
def answerC7 (row col : Nat) : Element := f32 (2 * row + col + 1)

/-- The four comparisons of the scenario for a candidate `calced` with pitch `pitch`. -/
def visitsC7 (calced : Buffer) (pitch : Nat) : List Violation :=
  [⟨0, 0, calced (0 * pitch + 0), answerC7 0 0⟩, ⟨0, 1, calced (0 * pitch + 1), answerC7 0 1⟩,
   ⟨1, 0, calced (1 * pitch + 0), answerC7 1 0⟩, ⟨1, 1, calced (1 * pitch + 1), answerC7 1 1⟩]

/-- A candidate for the scenario with pitch 2: the answer, except 100.0 at `(1, 0)`. -/
def candC7 : Buffer := fun i => if i = 2 then f32 100 else f32 (i + 1)

/-- A reader state is free of every fault other than a loop that does not end. -/
def Copy.Sound (c : Copy) : Prop := c.fault = none ∨ c.fault = some Fault.diverges

/-- The invariant the reader lambda asserts for the LHS. -/
def lhsInvariant (d : TileFields) (lhs_rows lhs_cols : Nat) : Prop :=
  lhs_rows % d.lhs_repeat_rows = d.lhs_pad_rows ∧ lhs_cols % d.lhs_repeat_cols = d.lhs_pad_cols

/-- The invariant the reader lambda asserts for the RHS, whose row fields are the
column fields of the LHS. -/
def rhsInvariant (d : TileFields) (lhs_cols rhs_cols : Nat) : Prop :=
  lhs_cols % d.lhs_repeat_cols = d.lhs_pad_cols ∧ rhs_cols % d.rhs_repeat_cols = d.rhs_pad_cols

/-- The invariant `LargeImpl::score` asserts for the answer. -/
def answerInvariant (a : AnswerFields) (lhs_rows rhs_cols : Nat) : Prop :=
  lhs_rows % a.repeat_rows = a.pad_rows ∧ rhs_cols % a.repeat_cols = a.pad_cols

/-- Bytes of the `float` value 28.0. -/
def f32_28 : List Nat := [0, 0, 224, 65]

/-- Header, descriptor fields and LHS blocks shared by the tiled example files, for a
problem of `1 x 1` times `1 x 6291456`: `lhs_repeat_rows = 2`, `rhs_repeat_cols = 1`,
`lhs_repeat_cols = 2`, one ignored field, `lhs_pad_rows = 1`, `lhs_pad_cols = 1`, then
`rhs_pad_cols`; the LHS blocks are `repeat` (2 x 2, all 1.0), `pad_bottom` (1 x 2,
all 2.0), `pad_right` (2 x 1, all 3.0) and `pad_bottom_right` (1 x 1, 7.0); the RHS and
answer blocks are `repeat` (2 x 1) and `pad_bottom` (1 x 1) each. -/
def tiledFile (rhs_pad_cols : Nat) : List Nat :=
  le32 1 ++ le32 1 ++ le32 6291456
    ++ le32 2 ++ le32 1 ++ le32 2 ++ le32 1 ++ le32 1 ++ le32 1 ++ le32 rhs_pad_cols
    ++ (f32_1 ++ f32_1 ++ f32_1 ++ f32_1) ++ (f32_2 ++ f32_2) ++ (f32_3 ++ f32_3) ++ f32_7
    ++ (f32_1 ++ f32_1) ++ f32_4
    ++ (f32_0 ++ f32_0) ++ f32_28

/-- A valid tiled file: the LHS is the single element 7.0 (the corner block), the RHS
is a row of 6291456 elements 4.0, the answer a row of elements 28.0. -/
def fileC2 : List Nat := tiledFile 0

/-- The reader that the constructor builds from `fileC2`. -/
def readerC2 : Reader :=
  { m_lhs_rows := 1, m_lhs_cols := 1, m_rhs_cols := 6291456, pimpl := Impl.LargeImpl
    m_stream := { bytes := fileC2, pos := 12, failed := false } }

/-- The descriptor fields of `fileC2`. -/
def fieldsC2 : TileFields :=
  { lhs_repeat_rows := 2, rhs_repeat_cols := 1, lhs_repeat_cols := 2
    lhs_pad_rows := 1, lhs_pad_cols := 1, rhs_pad_cols := 0 }

/-- A tiled file whose RHS violates the tiling invariant: `rhs_pad_cols` is 5 although
`6291456 mod 1 = 0`. -/
def fileC10 : List Nat := tiledFile 5

/-- The descriptor fields of `fileC10`. -/
def fieldsC10 : TileFields :=
  { lhs_repeat_rows := 2, rhs_repeat_cols := 1, lhs_repeat_cols := 2
    lhs_pad_rows := 1, lhs_pad_cols := 1, rhs_pad_cols := 5 }

/-- A caller buffer filled with zeros. -/
def zeros : Buffer := fun _ => Element.zero

/-- Element `(r, c)` of a tiled operand as the format defines it: the four blocks lie
one after the other from byte `start`, each row-major with full-size elements, and
the element comes from `repeat` in the interior, `pad_right` in the trailing column
strip, `pad_bottom` in the trailing row strip and `pad_bottom_right` in the corner. -/
def specTiled (fmt : ElemFormat) (bytes : List Nat) (start rows cols repeat_rows repeat_cols
    pad_rows pad_cols r c : Nat) : Element :=
  let at_ := fun (off width i j : Nat) =>
    fmt.decode ((bytes.drop (off + fmt.size * (i * width + j))).take fmt.size)
  let o1 := start
  let o2 := o1 + fmt.size * (repeat_rows * repeat_cols)
  let o3 := o2 + fmt.size * (pad_rows * repeat_cols)
  let o4 := o3 + fmt.size * (repeat_rows * pad_cols)
  if r < rows - pad_rows then
    if c < cols - pad_cols then at_ o1 repeat_cols (r % repeat_rows) (c % repeat_cols)
    else at_ o3 pad_cols (r % repeat_rows) (c - (cols - pad_cols))
  else
    if c < cols - pad_cols then at_ o2 repeat_cols (r - (rows - pad_rows)) (c % repeat_cols)
    else at_ o4 pad_cols (r - (rows - pad_rows)) (c - (cols - pad_cols))

/-- The reader that the constructor builds from `fileC10`. -/
def readerC10 : Reader :=
  { m_lhs_rows := 1, m_lhs_cols := 1, m_rhs_cols := 6291456, pimpl := Impl.LargeImpl
    m_stream := { bytes := fileC10, pos := 12, failed := false } }

/-- The descriptor fields of `fileC10` as `LargeImpl::score` reads them. -/
def answerFieldsC10 : AnswerFields :=
  { repeat_rows := 2, repeat_cols := 1, pad_rows := 1, pad_cols := 5 }

/-! ## Sequences of `score_element` calls -/

/-- A `Result` as `result.hpp` initialises it, before any comparison: both counters
zero and `max_difference` zero; the two thresholds are whatever the caller stores. -/
def Result.fresh (loose_standard strict_standard : Element) : Result :=
  { loose_standard := loose_standard, strict_standard := strict_standard
    loose_violations := 0, strict_violations := 0, max_difference := Element.zero }

/-- The `Result` after a sequence of calls `score_element(result, calced, answer)`,
one for each pair of the list, in order. -/
def scoreAll (result : Result) (pairs : List (Element × Element)) : Result :=
  pairs.foldl (fun r p => (score_element r p.1 p.2).2) result

/-- Counter invariant of a scan: `strict_violations` is at most `loose_violations`,
which is at most the number of comparisons made. -/
def Scan.Counted (sc : Scan) : Prop :=
  sc.result.strict_violations ≤ sc.result.loose_violations
  ∧ sc.result.loose_violations ≤ sc.scored.length

/-- The two thresholds of a scan are `L` and `T`. -/
def Scan.Standards (L T : Element) (sc : Scan) : Prop :=
  sc.result.loose_standard = L ∧ sc.result.strict_standard = T

/-- Rational value of an element of format `fmt`; `none` for a non-finite one. -/
def ElemFormat.value (fmt : ElemFormat) : Element → Option ℚ
  | Element.fin u => some ((u : ℚ) * (2 : ℚ) ^ (-(fmt.minExp : Int)))
  | _ => none

/-- The exponent `ELEMENT_DIGIT_2 * 2 - digits - relaxation` that `create_result`
passes to `exp2`. -/
def thresholdExponent (fmt : ElemFormat) (cfg : Config) (relaxation : Int) : Int :=
  cfg.ELEMENT_DIGIT_2 * 2 - fmt.digits - relaxation

/-- Conditions under which `static_cast<Element>(k) * static_cast<Element>(exp2(x))`
involves no rounding, underflow or overflow: `k` has at most `digits` binary digits
(and the format holds every such integer), `2^x` is a finite positive value of the
format, and `k * 2^x` is below `2^maxExp`. -/
def ElemFormat.ExactProduct (fmt : ElemFormat) (k : Nat) (x : Int) : Prop :=
  k < 2 ^ fmt.digits ∧ fmt.digits ≤ fmt.maxExp ∧ 0 ≤ x + fmt.minExp ∧ x < fmt.maxExp
    ∧ k * 2 ^ (x + fmt.minExp).toNat < 2 ^ (fmt.maxExp + fmt.minExp)

instance (fmt : ElemFormat) (k : Nat) (x : Int) : Decidable (fmt.ExactProduct k x) := by
  unfold ElemFormat.ExactProduct
  infer_instance

/-- Accessor `Reader::lhs_rows()`. -/
def Reader.lhs_rows (rd : Reader) : Nat := rd.m_lhs_rows

/-- Accessor `Reader::lhs_cols()`. -/
def Reader.lhs_cols (rd : Reader) : Nat := rd.m_lhs_cols

/-- Accessor `Reader::rhs_rows()`: the member `m_rhs_rows` is a reference to
`m_lhs_cols`. -/
def Reader.rhs_rows (rd : Reader) : Nat := rd.m_lhs_cols

/-- Accessor `Reader::rhs_cols()`. -/
def Reader.rhs_cols (rd : Reader) : Nat := rd.m_rhs_cols

/-! ## Construction from a path -/

/-- One entry that `std::filesystem::directory_iterator` yields: the answer of
`is_regular_file()` and the bytes of the file when it is opened. -/
structure DirEntry where
  is_regular_file : Bool
  bytes : List Nat
deriving DecidableEq, Repr

/-- What the path given to the constructor names: a directory with its entries, or
anything else, opened as a file with the given bytes. -/
inductive FsPath where
  | directory (entries : List DirEntry)
  | file (bytes : List Nat)

/-- Exceptions that leave the constructor. -/
inductive Thrown where
  | EmptyDirectory
  | out_of_range
deriving DecidableEq, Repr

/-- The random source: `draw hi` is the value that
`std::uniform_int_distribution<size_t>{0, hi}(device)` returns. -/
structure RandomDevice where
  draw : Nat → Nat

/-- Constructor `Reader::Reader(path)`: for a directory, the regular files among its
entries are collected, `EmptyDirectory` is thrown when there is none, and otherwise
the file at the drawn index (`entries.at(...)`) is opened; any other path is opened
itself. -/
def Reader.new (path : FsPath) (device : RandomDevice) : Except Thrown (Option Reader) :=
  match path with
  | FsPath.directory es =>
    let entries := es.filter (fun entry => entry.is_regular_file)
    if entries.isEmpty then Except.error Thrown.EmptyDirectory
    else
      match entries.get? (device.draw (entries.length - 1)) with
      | some entry => Except.ok (Reader.construct_from_file entry.bytes)
      | none => Except.error Thrown.out_of_range
  | FsPath.file bytes => Except.ok (Reader.construct_from_file bytes)

/-- Two scan states with the same fault, if any, and the same comparisons made. -/
def Scan.SameTrace (sc sc' : Scan) : Prop :=
  sc.fault = sc'.fault ∧ sc.scored = sc'.scored

/-! ## Example files for the dense bounds and the tiled scoring walk -/

/-- Bytes of the `float` value 6.0. -/
def f32_6 : List Nat := [0, 0, 192, 64]

/-- A dense file with header `(2, 1, 1)`: LHS `[[1],[2]]`, RHS `[[3]]`, answer
`[[3],[6]]`. -/
def fileC20 : List Nat :=
  le32 2 ++ le32 1 ++ le32 1 ++ (f32_1 ++ f32_2) ++ f32_3 ++ (f32_3 ++ f32_6)

/-- The reader that the constructor builds from `fileC20`. -/
def readerC20 : Reader :=
  { m_lhs_rows := 2, m_lhs_cols := 1, m_rhs_cols := 1, pimpl := Impl.RegularImpl
    m_stream := { bytes := fileC20, pos := 12, failed := false } }

/-- The candidate `[[3],[6]]` with pitch 1. -/
def candC20 : Buffer := fun i => if i = 0 then f32 3 else f32 6

/-- A valid tiled file with the large header `(6291456, 1, 1)`: descriptor fields
`lhs_repeat_rows = 2`, `rhs_repeat_cols = 1`, `lhs_repeat_cols = 1`, one ignored field,
and all three pad counts 0.  The LHS is the column `1, 2, 1, 2, ...` (`repeat` block
`[[1],[2]]`), the RHS is `[[3]]`, the answer is the column `3, 6, 3, 6, ...` (`repeat`
block `[[3],[6]]`, stored from byte 52). -/
def fileC11 : List Nat :=
  le32 6291456 ++ le32 1 ++ le32 1
    ++ le32 2 ++ le32 1 ++ le32 1 ++ le32 1 ++ le32 0 ++ le32 0 ++ le32 0
    ++ (f32_1 ++ f32_2) ++ f32_3 ++ (f32_3 ++ f32_6)

/-- The reader that the constructor builds from `fileC11`. -/
def readerC11 : Reader :=
  { m_lhs_rows := 6291456, m_lhs_cols := 1, m_rhs_cols := 1, pimpl := Impl.LargeImpl
    m_stream := { bytes := fileC11, pos := 12, failed := false } }

/-- The descriptor fields of `fileC11` as `LargeImpl::score` reads them. -/
def answerFieldsC11 : AnswerFields :=
  { repeat_rows := 2, repeat_cols := 1, pad_rows := 0, pad_cols := 0 }

/-- The candidate column `3, 6, 3, 6, ...` with pitch 1: the answer of `fileC11`. -/
def candC11 : Buffer := fun i => if i % 2 = 0 then f32 3 else f32 6

/-- Element `(r, c)` of the LHS of a dense file, by the layout of the format: the
element `r * lhs_cols + c` after the 12 header bytes. -/
def specDenseLhs (fmt : ElemFormat) (bytes : List Nat) (lhs_cols r c : Nat) : Element :=
  fmt.decode ((bytes.drop (12 + fmt.size * (r * lhs_cols + c))).take fmt.size)

/-- Element `(r, c)` of the RHS of a dense file, by the layout of the format: the
element `r * rhs_cols + c` after the header and the `lhs_rows * lhs_cols` elements of
the LHS. -/
def specDenseRhs (fmt : ElemFormat) (bytes : List Nat) (lhs_rows lhs_cols rhs_cols r c : Nat) :
    Element :=
  fmt.decode ((bytes.drop (12 + fmt.size * (lhs_rows * lhs_cols)
    + fmt.size * (r * rhs_cols + c))).take fmt.size)

/-- The row loop of `RegularImpl::get` for one operand: `rows` reads of `cols` elements,
row `row` into `dist` from index `row * pitch`. -/
def RegularImpl.readRows (fmt : ElemFormat) (s : Stream) (dist : Buffer) (rows cols pitch : Nat) :
    Buffer × Stream :=
  (List.range rows).foldl (fun (st : Buffer × Stream) row =>
    RegularImpl.readRow fmt st.2 st.1 (row * pitch) cols) (dist, s)

/-- Bytes of a file with header `(1, 1, 3)` in which the descriptor fields that
`LargeImpl::score` reads are `repeat_rows = 2`, `repeat_cols = 2`, `pad_rows = 1` and
`pad_cols = 1`. -/
def fileC15 : List Nat :=
  le32 1 ++ le32 1 ++ le32 3
    ++ le32 2 ++ le32 2 ++ le32 0 ++ le32 0 ++ le32 1 ++ le32 0 ++ le32 1

/-! ## Theorems: size classifier -/

theorem isLarge_of_count_lt (r k c : Nat) (h : exactCount r k c < sizeMod) :
    isLarge r k c = decide (3 * 2 ^ 22 ≤ exactCount r k c) := by
  unfold isLarge
  unfold exactCount sizeMod at *
  have e : (1 <<< 22 : Nat) = 2 ^ 22 := by decide
  rw [e]
  generalize r * k = a at *
  generalize k * c = b at *
  generalize r * c = d at *
  have h1 : a % 2 ^ 64 = a := Nat.mod_eq_of_lt (by omega)
  have h2 : b % 2 ^ 64 = b := Nat.mod_eq_of_lt (by omega)
  have h3 : d % 2 ^ 64 = d := Nat.mod_eq_of_lt (by omega)
  have h4 : (a + b) % 2 ^ 64 = a + b := Nat.mod_eq_of_lt (by omega)
  have h5 : (a + b + d) % 2 ^ 64 = a + b + d := Nat.mod_eq_of_lt (by omega)
  rw [h1, h2, h3, h4, h5]
  norm_num

/-- C3 (defect): at `lhs_rows = 2^31`, `lhs_cols = 3 * 2^30`, `rhs_cols = 2^31`, all of
them 32-bit values, the exact count is `2^64`, far above `3 * 2^22`, yet the sum formed
in 64-bit `size_t` wraps to `0` and `isLarge` returns false. -/
theorem isLarge_wraps_at_two_pow_64 :
    2 ^ 31 < u32Mod ∧ 3 * 2 ^ 30 < u32Mod
      ∧ exactCount (2 ^ 31) (3 * 2 ^ 30) (2 ^ 31) = 2 ^ 64
      ∧ 3 * 2 ^ 22 ≤ exactCount (2 ^ 31) (3 * 2 ^ 30) (2 ^ 31)
      ∧ isLarge (2 ^ 31) (3 * 2 ^ 30) (2 ^ 31) = false := by
  decide

/-- C4 (defect): `(2048, 2048, 2048)` is componentwise below
`(2^31, 3 * 2^30, 2^31)`, all values 32-bit; `isLarge` is true at the former and false
at the latter, so it is not monotone. -/
theorem isLarge_not_monotone :
    2048 ≤ 2 ^ 31 ∧ 2048 ≤ 3 * 2 ^ 30 ∧ 2 ^ 31 < u32Mod ∧ 3 * 2 ^ 30 < u32Mod
      ∧ isLarge 2048 2048 2048 = true
      ∧ isLarge (2 ^ 31) (3 * 2 ^ 30) (2 ^ 31) = false := by
  decide

/-- C5: when the exact count equals `3 * 2^22` the classifier returns true, when it is
`3 * 2^22 - 1` or less it returns false; in particular `isLarge 2048 2048 2048` is true
and `isLarge 0 0 0` is false. -/
theorem isLarge_boundary (r k c : Nat) :
    (r * k + k * c + r * c = 3 * 2 ^ 22 → isLarge r k c = true)
      ∧ (r * k + k * c + r * c ≤ 3 * 2 ^ 22 - 1 → isLarge r k c = false)
      ∧ isLarge 2048 2048 2048 = true ∧ isLarge 0 0 0 = false := by
  refine ⟨fun h => ?_, fun h => ?_, by decide, by decide⟩
  · rw [isLarge_of_count_lt r k c (by unfold exactCount sizeMod; omega)]
    unfold exactCount
    simp [h]
  · rw [isLarge_of_count_lt r k c (by unfold exactCount sizeMod; omega)]
    unfold exactCount
    simp only [decide_eq_false_iff_not]
    omega

theorem isLarge_boundary_witness :
    isLarge 2048 2048 2048 = true ∧ isLarge 1 1 1 = false :=
  ⟨(isLarge_boundary 2048 2048 2048).1 (by decide),
   (isLarge_boundary 1 1 1).2.1 (by decide)⟩

/-! ## Tolerance model -/

theorem score_element_eq (result : Result) (calced answer : Element) :
    score_element result calced answer
      = if strictViolated result.strict_standard calced answer then
          (false, { result with
                      strict_violations := result.strict_violations + 1
                      loose_violations := result.loose_violations + 1
                      max_difference :=
                        Element.max (diffOf calced answer) result.max_difference })
        else if Element.gt (diffOf calced answer) result.loose_standard then
          (true, { result with
                     loose_violations := result.loose_violations + 1
                     max_difference :=
                       Element.max (diffOf calced answer) result.max_difference })
        else
          (true, { result with
                     max_difference :=
                       Element.max (diffOf calced answer) result.max_difference }) := by
  unfold score_element strictViolated diffOf
  dsimp only
  cases h : (!(calced.sub answer).abs.isfinite
      || (calced.sub answer).abs.gt result.strict_standard)
  · cases g : (calced.sub answer).abs.gt result.loose_standard <;> simp
  · simp

theorem score_element_fst (result : Result) (calced answer : Element) :
    (score_element result calced answer).1
      = !strictViolated result.strict_standard calced answer := by
  rw [score_element_eq]
  cases strictViolated result.strict_standard calced answer
  · cases Element.gt (diffOf calced answer) result.loose_standard <;> simp
  · simp

theorem score_element_strict_standard (result : Result) (calced answer : Element) :
    (score_element result calced answer).2.strict_standard = result.strict_standard := by
  rw [score_element_eq]
  cases strictViolated result.strict_standard calced answer
  · cases Element.gt (diffOf calced answer) result.loose_standard <;> simp
  · simp

theorem score_element_loose_standard (result : Result) (calced answer : Element) :
    (score_element result calced answer).2.loose_standard = result.loose_standard := by
  rw [score_element_eq]
  cases strictViolated result.strict_standard calced answer
  · cases Element.gt (diffOf calced answer) result.loose_standard <;> simp
  · simp

theorem score_element_strict_violations (result : Result) (calced answer : Element) :
    (score_element result calced answer).2.strict_violations
      = result.strict_violations
          + (if strictViolated result.strict_standard calced answer then 1 else 0) := by
  rw [score_element_eq]
  cases strictViolated result.strict_standard calced answer
  · cases Element.gt (diffOf calced answer) result.loose_standard <;> simp
  · simp

theorem score_element_max_difference (result : Result) (calced answer : Element) :
    (score_element result calced answer).2.max_difference
      = Element.max (diffOf calced answer) result.max_difference := by
  rw [score_element_eq]
  cases strictViolated result.strict_standard calced answer
  · cases Element.gt (diffOf calced answer) result.loose_standard <;> simp
  · simp

/-- C6: the three cases of `score_element`, with `diff = abs(calced - answer)`: the
strict case adds one to both counters and returns false; otherwise a difference above
the loose threshold adds one to `loose_violations` only and returns true; otherwise
both counters are unchanged and true is returned.  The flag is false exactly in the
strict case and the two thresholds are never changed. -/
theorem score_element_cases (result : Result) (calced answer : Element) :
    (strictViolated result.strict_standard calced answer = true →
        (score_element result calced answer).1 = false
        ∧ (score_element result calced answer).2.strict_violations
            = result.strict_violations + 1
        ∧ (score_element result calced answer).2.loose_violations
            = result.loose_violations + 1)
    ∧ (strictViolated result.strict_standard calced answer = false →
        Element.gt (diffOf calced answer) result.loose_standard = true →
        (score_element result calced answer).1 = true
        ∧ (score_element result calced answer).2.strict_violations
            = result.strict_violations
        ∧ (score_element result calced answer).2.loose_violations
            = result.loose_violations + 1)
    ∧ (strictViolated result.strict_standard calced answer = false →
        Element.gt (diffOf calced answer) result.loose_standard = false →
        (score_element result calced answer).1 = true
        ∧ (score_element result calced answer).2.strict_violations
            = result.strict_violations
        ∧ (score_element result calced answer).2.loose_violations
            = result.loose_violations)
    ∧ ((score_element result calced answer).1 = false
        ↔ strictViolated result.strict_standard calced answer = true)
    ∧ (score_element result calced answer).2.loose_standard = result.loose_standard
    ∧ (score_element result calced answer).2.strict_standard = result.strict_standard := by
  refine ⟨fun h => ?_, fun h g => ?_, fun h g => ?_, ?_,
    score_element_loose_standard _ _ _, score_element_strict_standard _ _ _⟩
  · rw [score_element_eq]
    simp [h]
  · rw [score_element_eq]
    simp [h, g]
  · rw [score_element_eq]
    simp [h, g]
  · rw [score_element_fst]
    simp

theorem score_element_cases_witness :
    strictViolated (Element.fin 4) (Element.fin 10) (Element.fin 0) = true
      ∧ (score_element ⟨Element.fin 2, Element.fin 4, 0, 0, Element.zero⟩
            (Element.fin 10) (Element.fin 0)).1 = false :=
  ⟨by decide,
   ((score_element_cases ⟨Element.fin 2, Element.fin 4, 0, 0, Element.zero⟩
      (Element.fin 10) (Element.fin 0)).1 (by decide)).1⟩

/-! ## Loops: invariants -/

theorem foldl_inv {σ α : Type} (P : σ → Prop) (f : σ → α → σ)
    (hf : ∀ st x, P st → P (f st x)) : ∀ (l : List α) (st : σ), P st → P (l.foldl f st) := by
  intro l
  induction l with
  | nil => intro st h; exact h
  | cons x xs ih => intro st h; exact ih _ (hf st x h)

theorem strideLoop_inv {σ : Type} (P : σ → Prop) (halted : σ → Bool) (stride limit : Nat)
    (body : Nat → σ → σ) (hb : ∀ i st, P st → P (body i st)) :
    ∀ (fuel i : Nat) (st : σ), P st →
      ∀ c st', strideLoop halted stride limit body fuel i st = some (c, st') → P st' := by
  intro fuel
  induction fuel with
  | zero => intro i st _ c st' h; simp [strideLoop] at h
  | succ n ih =>
    intro i st hP c st' h
    unfold strideLoop at h
    split at h
    · simp only [Option.some.injEq, Prod.mk.injEq] at h
      exact h.2 ▸ hP
    · split at h
      · exact ih _ _ (hb i st hP) c st' h
      · simp only [Option.some.injEq, Prod.mk.injEq] at h
        exact h.2 ▸ hP

theorem Scan.Consistent.with_fault {T : Element} {calced : Buffer} {pitch : Nat} {sc : Scan}
    (h : sc.Consistent T calced pitch) (f : Option Fault) :
    Scan.Consistent T calced pitch { sc with fault := f } := h

/-! ## Callback invocations: invariant of a scan -/

theorem RegularImpl.scoreBody_consistent (T : Element) (calced : Buffer) (pitch : Nat)
    (sc : Scan) (row col i : Nat) (answer_elem : Option Element)
    (hi : i = row * pitch + col) (h : sc.Consistent T calced pitch) :
    (RegularImpl.scoreBody true sc row col (calced i) answer_elem).Consistent
      T calced pitch := by
  obtain ⟨h1, h2, h3, h4⟩ := h
  unfold RegularImpl.scoreBody
  rcases hf : sc.fault with _ | f
  · rcases answer_elem with _ | a
    · exact ⟨h1, h2, h3, h4⟩
    · dsimp only [Scan.compare, Scan.call]
      rw [score_element_fst, h1]
      cases hv : strictViolated T (calced i) a
      · refine ⟨?_, ?_, ?_, ?_⟩
        · simp [score_element_strict_standard, h1]
        · simp [List.filter_append, hv, h2]
        · simp [score_element_strict_violations, h1, hv, h3]
        · intro v hvm
          simp only [Bool.not_false, Bool.not_true, Bool.false_eq_true, ↓reduceIte,
            List.mem_append, List.mem_singleton] at hvm
          rcases hvm with hvm | hvm
          · exact h4 v hvm
          · subst hvm; exact congrArg calced hi
      · refine ⟨?_, ?_, ?_, ?_⟩
        · simp [score_element_strict_standard, h1]
        · simp [List.filter_append, hv, ← h2]
        · simp [score_element_strict_violations, h1, hv, h3]
        · intro v hvm
          simp only [Bool.not_true, Bool.not_false, ↓reduceIte,
            List.mem_append, List.mem_singleton] at hvm
          rcases hvm with hvm | hvm
          · exact h4 v hvm
          · subst hvm; exact congrArg calced hi
  · exact ⟨h1, h2, h3, h4⟩

theorem LargeImpl.scoreBody_true (sc : Scan) (row col : Nat) (calced_elem : Element)
    (answer_elem : Option Element) :
    LargeImpl.scoreBody true sc row col calced_elem answer_elem
      = RegularImpl.scoreBody true sc row col calced_elem answer_elem := by
  unfold LargeImpl.scoreBody RegularImpl.scoreBody
  simp

theorem LargeImpl.scoreRow_consistent (T : Element) (uninit : Nat) (calced : Buffer)
    (block pad_right : Block) (k line rows cols pitch repeat_cols : Nat) (sc : Scan)
    (h : sc.Consistent T calced pitch) :
    (LargeImpl.scoreRow uninit true calced block pad_right k line rows cols pitch
      repeat_cols sc).Consistent T calced pitch := by
  unfold LargeImpl.scoreRow
  split
  · exact h.with_fault _
  · next col c hc =>
    have hcP : c.Consistent T calced pitch := by
      refine strideLoop_inv (Scan.Consistent T calced pitch) _ _ _ _ ?_ _ _ _ h _ _ hc
      intro i st hst
      refine foldl_inv (Scan.Consistent T calced pitch) _ ?_ _ _ hst
      intro st x hx
      rw [LargeImpl.scoreBody_true]
      exact RegularImpl.scoreBody_consistent T calced pitch st _ _ _ _ rfl hx
    refine foldl_inv (Scan.Consistent T calced pitch) _ ?_ _ _ hcP
    intro st x hx
    rw [LargeImpl.scoreBody_true]
    exact RegularImpl.scoreBody_consistent T calced pitch st _ _ _ _ rfl hx

theorem LargeImpl.scoreWalk_consistent (T : Element) (uninit : Nat) (calced : Buffer)
    (rep pad_bottom pad_right : Block) (rows cols pitch repeat_rows repeat_cols pad_rows : Nat)
    (sc : Scan) (h : sc.Consistent T calced pitch) :
    (LargeImpl.scoreWalk uninit true calced rep pad_bottom pad_right rows cols pitch
      repeat_rows repeat_cols pad_rows sc).Consistent T calced pitch := by
  unfold LargeImpl.scoreWalk
  split
  · exact h.with_fault _
  · next row c hc =>
    have hcP : c.Consistent T calced pitch := by
      refine strideLoop_inv (Scan.Consistent T calced pitch) _ _ _ _ ?_ _ _ _ h _ _ hc
      intro i st hst
      refine foldl_inv (Scan.Consistent T calced pitch) _ ?_ _ _ hst
      intro st x hx
      exact LargeImpl.scoreRow_consistent T uninit calced _ _ _ _ _ _ _ _ st hx
    refine foldl_inv (Scan.Consistent T calced pitch) _ ?_ _ _ hcP
    intro st x hx
    exact LargeImpl.scoreRow_consistent T uninit calced _ _ _ _ _ _ _ _ st hx

theorem Scan.consistent_init (r : Result) (calced : Buffer) (pitch : Nat)
    (h : r.strict_violations = 0) :
    Scan.Consistent r.strict_standard calced pitch
      { result := r, calls := [], scored := [], fault := none } := by
  refine ⟨rfl, rfl, ?_, ?_⟩
  · simp [h]
  · intro v hv; simp at hv

theorem RegularImpl.score_consistent (fmt : ElemFormat) (cfg : Config) (m_stream : Stream)
    (calced : Buffer) (lhs_rows lhs_cols rhs_cols pitch : Nat) :
    (RegularImpl.score fmt cfg m_stream calced lhs_rows lhs_cols rhs_cols pitch true).scan.Consistent
      (create_result fmt cfg lhs_cols).strict_standard calced pitch := by
  unfold RegularImpl.score
  dsimp only
  refine foldl_inv (Scan.Consistent _ calced pitch) _ ?_ _ _
    (Scan.consistent_init (create_result fmt cfg lhs_cols) calced pitch rfl)
  intro st row hst
  refine foldl_inv (Scan.Consistent _ calced pitch) _ ?_ _ _ hst
  intro st col hx
  exact RegularImpl.scoreBody_consistent _ calced pitch st _ _ _ _ rfl hx

theorem Scan.Consistent.callsExact {T : Element} {calced : Buffer} {pitch : Nat} {sc : Scan}
    (h : sc.Consistent T calced pitch) : sc.CallsExact T calced pitch := by
  obtain ⟨_, h2, h3, h4⟩ := h
  refine ⟨h2, h3, ?_⟩
  intro v hv
  rw [h2] at hv
  exact h4 v (List.mem_filter.mp hv).1

theorem Scan.callsExact_faulted (T : Element) (calced : Buffer) (pitch : Nat) (f : Fault) :
    (Scan.faulted f).CallsExact T calced pitch := by
  refine ⟨rfl, rfl, ?_⟩
  intro v hv
  simp [Scan.faulted] at hv

theorem LargeImpl.score_callsExact (fmt : ElemFormat) (cfg : Config) (uninit : Nat)
    (m_stream : Stream) (calced : Buffer) (lhs_rows lhs_cols rhs_cols pitch : Nat) :
    (LargeImpl.score fmt cfg uninit m_stream calced lhs_rows lhs_cols rhs_cols pitch
      true).scan.CallsExact (create_result fmt cfg lhs_cols).strict_standard calced pitch := by
  unfold LargeImpl.score
  dsimp only
  split
  · split
    · exact Scan.callsExact_faulted _ _ _ _
    · split
      · exact Scan.callsExact_faulted _ _ _ _
      · split
        · exact Scan.callsExact_faulted _ _ _ _
        · split
          · exact Scan.callsExact_faulted _ _ _ _
          · exact (LargeImpl.scoreWalk_consistent _ uninit calced _ _ _ _ _ _ _ _ _ _
              (Scan.consistent_init (create_result fmt cfg lhs_cols) calced pitch
                rfl)).callsExact
  · exact Scan.callsExact_faulted _ _ _ _

/-- C8: with a callback that holds a target, in both codecs the invocations are
exactly the comparisons made whose difference is not finite or exceeds the strict
threshold, once each and in scan order (so none for a comparison within the strict
threshold); their number is the `strict_violations` of the `Result`; and every
invocation carries the position `(row, col)` and the two values compared, the
candidate value being the element at `row * pitch + col` of the candidate buffer. -/
theorem callback_once_per_strict_violation (fmt : ElemFormat) (cfg : Config) (uninit : Nat)
    (m_stream : Stream) (calced : Buffer) (lhs_rows lhs_cols rhs_cols pitch : Nat) :
    (RegularImpl.score fmt cfg m_stream calced lhs_rows lhs_cols rhs_cols pitch
        true).scan.CallsExact (create_result fmt cfg lhs_cols).strict_standard calced pitch
    ∧ (LargeImpl.score fmt cfg uninit m_stream calced lhs_rows lhs_cols rhs_cols pitch
        true).scan.CallsExact (create_result fmt cfg lhs_cols).strict_standard calced pitch :=
  ⟨(RegularImpl.score_consistent fmt cfg m_stream calced lhs_rows lhs_cols rhs_cols
      pitch).callsExact,
   LargeImpl.score_callsExact fmt cfg uninit m_stream calced lhs_rows lhs_cols rhs_cols pitch⟩

theorem callback_once_per_strict_violation_witness :
    (RegularImpl.score float32 ⟨0, 0, 0⟩ readerC7.m_stream candC7 2 2 2 2 true).scan.calls.length
        = (RegularImpl.score float32 ⟨0, 0, 0⟩ readerC7.m_stream candC7 2 2 2 2
            true).scan.result.strict_violations
    ∧ (RegularImpl.score float32 ⟨0, 0, 0⟩ readerC7.m_stream candC7 2 2 2 2 true).scan.calls
        = [⟨1, 0, f32 100, f32 3⟩] :=
  ⟨(callback_once_per_strict_violation float32 ⟨0, 0, 0⟩ 0 readerC7.m_stream candC7
      2 2 2 2).1.2.1, by decide⟩

/-! ## Scans over a list of comparisons -/

theorem score_element_loose_violations (result : Result) (calced answer : Element) :
    (score_element result calced answer).2.loose_violations
      = result.loose_violations
          + (if looseViolated result.loose_standard result.strict_standard calced answer
              then 1 else 0) := by
  rw [score_element_eq]
  unfold looseViolated
  cases strictViolated result.strict_standard calced answer
  · cases Element.gt (diffOf calced answer) result.loose_standard <;> simp
  · simp

theorem RegularImpl.scoreBody_some (sc : Scan) (row col : Nat) (c a : Element)
    (hf : sc.fault = none) :
    RegularImpl.scoreBody true sc row col c (some a)
      = { result := (score_element sc.result c a).2
          calls := sc.calls
            ++ (if strictViolated sc.result.strict_standard c a then [⟨row, col, c, a⟩]
                else [])
          scored := sc.scored ++ [⟨row, col, c, a⟩]
          fault := none } := by
  unfold RegularImpl.scoreBody
  rw [hf]
  dsimp only [Scan.compare, Scan.call]
  rw [score_element_fst]
  cases strictViolated sc.result.strict_standard c a <;> simp [hf]

theorem scanPairs_spec (vs : List Violation) :
    ∀ sc : Scan, sc.fault = none →
      (scanPairs true sc vs).fault = none
      ∧ (scanPairs true sc vs).result.strict_standard = sc.result.strict_standard
      ∧ (scanPairs true sc vs).result.loose_standard = sc.result.loose_standard
      ∧ (scanPairs true sc vs).result.strict_violations = sc.result.strict_violations
          + (vs.filter (fun v =>
              strictViolated sc.result.strict_standard v.calced v.answer)).length
      ∧ (scanPairs true sc vs).result.loose_violations = sc.result.loose_violations
          + (vs.filter (fun v => looseViolated sc.result.loose_standard
              sc.result.strict_standard v.calced v.answer)).length
      ∧ (scanPairs true sc vs).calls = sc.calls
          ++ vs.filter (fun v => strictViolated sc.result.strict_standard v.calced v.answer)
      ∧ (scanPairs true sc vs).scored = sc.scored ++ vs
      ∧ (scanPairs true sc vs).result.max_difference
          = maxOver sc.result.max_difference vs := by
  induction vs with
  | nil => intro sc hf; simp [scanPairs, maxOver, hf]
  | cons v vs ih =>
    intro sc hf
    have e : scanPairs true sc (v :: vs)
        = scanPairs true (RegularImpl.scoreBody true sc v.row v.col v.calced
            (some v.answer)) vs := rfl
    rw [e, RegularImpl.scoreBody_some sc _ _ _ _ hf]
    obtain ⟨i1, i2, i3, i4, i5, i6, i7, i8⟩ := ih
      { result := (score_element sc.result v.calced v.answer).2
        calls := sc.calls
          ++ (if strictViolated sc.result.strict_standard v.calced v.answer
                then [⟨v.row, v.col, v.calced, v.answer⟩] else [])
        scored := sc.scored ++ [⟨v.row, v.col, v.calced, v.answer⟩]
        fault := none } rfl
    simp only [score_element_strict_standard, score_element_loose_standard,
      score_element_strict_violations, score_element_loose_violations,
      score_element_max_difference] at i2 i3 i4 i5 i6 i8
    refine ⟨i1, i2, i3, ?_, ?_, ?_, ?_, ?_⟩
    · rw [i4, List.filter_cons]
      cases strictViolated sc.result.strict_standard v.calced v.answer <;> simp; omega
    · rw [i5, List.filter_cons]
      cases looseViolated sc.result.loose_standard sc.result.strict_standard
        v.calced v.answer <;> simp; omega
    · rw [i6, List.filter_cons]
      cases strictViolated sc.result.strict_standard v.calced v.answer <;> simp
    · rw [i7]; simp
    · rw [i8]; rfl

/-! ## Dense scoring of a perfect candidate -/

theorem score_fileC1_scan (cfg : Config) :
    (Reader.score float32 cfg 0 readerC1 candC1 3 true).scan
      = scanPairs true
          { result := create_result float32 cfg 1, calls := [], scored := [], fault := none }
          visitsC1 := by
  rfl

/-- C1 (defect): on the dense file `fileC1` with header `(2, 1, 3)`, which is not
large, the candidate `candC1` equals the stored answer at every `(row, col)`, yet for
every choice of the threshold constants the call of `score` returns a `Result` whose
`max_difference` is 1.0 and not 0: at `(1, 0)` the candidate is compared with the
answer element `(0, 2)`. -/
theorem dense_perfect_candidate_max_difference (cfg : Config) :
    Reader.construct_from_file fileC1 = some readerC1
    ∧ readerC1.pimpl = Impl.RegularImpl
    ∧ (∀ row < 2, ∀ col < 3,
        candC1 (row * 3 + col) = specDenseAnswer float32 fileC1 2 1 3 row col)
    ∧ (Reader.score float32 cfg 0 readerC1 candC1 3 true).returned
        = Except.ok (Reader.score float32 cfg 0 readerC1 candC1 3 true).scan.result
    ∧ (Reader.score float32 cfg 0 readerC1 candC1 3 true).scan.result.max_difference = f32 1
    ∧ f32 1 ≠ Element.zero
    ∧ (Reader.score float32 cfg 0 readerC1 candC1 3 true).scan.scored = visitsC1 := by
  have h := scanPairs_spec visitsC1
    { result := create_result float32 cfg 1, calls := [], scored := [], fault := none } rfl
  have hf : (Reader.score float32 cfg 0 readerC1 candC1 3 true).scan.fault = none := by
    rw [score_fileC1_scan]; exact h.1
  refine ⟨by decide, rfl, by decide, ?_, ?_, by decide, ?_⟩
  · unfold ScoreOutcome.returned
    rw [hf]
  · rw [score_fileC1_scan, h.2.2.2.2.2.2.2]
    show maxOver Element.zero visitsC1 = f32 1
    decide
  · rw [score_fileC1_scan, h.2.2.2.2.2.2.1]
    rfl

/-! ## Rounding, and thresholds are never negative -/

theorem shiftCount_spec (w : Nat) (hw : 0 < w) :
    ∀ fuel n, n ≤ fuel → n ≠ 0 →
      n >>> shiftCount w fuel n ≠ 0 ∧ (n >>> shiftCount w fuel n) >>> w = 0 := by
  intro fuel
  induction fuel with
  | zero =>
    intro n h h0
    omega
  | succ fuel ih =>
    intro n h h0
    unfold shiftCount
    split
    · rename_i hz
      exact ⟨by simpa using h0, by simpa using hz⟩
    · rename_i hz
      have hlt : n >>> w < n := by
        rw [Nat.shiftRight_eq_div_pow]
        exact Nat.div_lt_self (Nat.pos_of_ne_zero h0) (Nat.one_lt_two_pow (by omega))
      have := ih (n >>> w) (by omega) hz
      rw [Nat.shiftRight_add]
      exact this

theorem bits_of_shift (n c : Nat) (h1 : n >>> c ≠ 0) (h2 : (n >>> c) >>> 1 = 0) :
    2 ^ c ≤ n ∧ n < 2 ^ (c + 1) := by
  rw [← Nat.shiftRight_add, Nat.shiftRight_eq_div_pow] at h2
  rw [Nat.shiftRight_eq_div_pow] at h1
  have hp : 0 < 2 ^ c := Nat.two_pow_pos c
  have hp1 : 0 < 2 ^ (c + 1) := Nat.two_pow_pos _
  constructor
  · by_contra hlt
    exact h1 (Nat.div_eq_of_lt (by omega))
  · exact (Nat.div_eq_zero_iff hp1).mp h2

theorem bitLength_spec (n : Nat) (h0 : n ≠ 0) :
    2 ^ (bitLength n - 1) ≤ n ∧ n < 2 ^ bitLength n := by
  unfold bitLength
  rw [if_neg h0]
  dsimp only
  obtain ⟨a1, _⟩ := shiftCount_spec 64 (by decide) n n (Nat.le_refl _) h0
  obtain ⟨a2, _⟩ := shiftCount_spec 8 (by decide) _ _ (Nat.le_refl _) a1
  rw [← Nat.shiftRight_add] at a2
  obtain ⟨a3, a4⟩ := shiftCount_spec 1 (by decide) _ _ (Nat.le_refl _) a2
  rw [← Nat.shiftRight_add n] at a3 a4
  rw [Nat.add_sub_cancel]
  exact bits_of_shift n _ a3 a4

theorem bitLength_le (n b : Nat) (h : n < 2 ^ b) : bitLength n ≤ b := by
  by_cases h0 : n = 0
  · subst h0
    simp [bitLength]
  · have h1 := (bitLength_spec n h0).1
    have h2 : 2 ^ (bitLength n - 1) < 2 ^ b := Nat.lt_of_le_of_lt h1 h
    have h3 := (Nat.pow_lt_pow_iff_right (by decide : 1 < 2)).mp h2
    omega

theorem ElemFormat.roundMag_exact (fmt : ElemFormat) (K j k : Nat) (hK : K < 2 ^ fmt.digits)
    (hhi : K * 2 ^ j < 2 ^ (fmt.maxExp + fmt.minExp)) :
    fmt.roundMag (K * 2 ^ j * 2 ^ k) k = some (K * 2 ^ j) := by
  have hq : (K * 2 ^ j * 2 ^ k) >>> k = K * 2 ^ j := by
    rw [Nat.shiftRight_eq_div_pow, Nat.mul_div_cancel _ (Nat.two_pow_pos k)]
  have hL : bitLength (K * 2 ^ j) ≤ fmt.digits + j := by
    apply bitLength_le
    rw [Nat.pow_add]
    exact Nat.mul_lt_mul_of_pos_right hK (Nat.two_pow_pos j)
  unfold ElemFormat.roundMag
  rw [hq]
  generalize he : bitLength (K * 2 ^ j) - fmt.digits = e
  have hej : e ≤ j := by omega
  obtain ⟨d, rfl⟩ := Nat.exists_eq_add_of_le hej
  have hn : K * 2 ^ (e + d) * 2 ^ k = (K * 2 ^ d) * 2 ^ (k + e) := by
    rw [Nat.pow_add, Nat.pow_add]
    ring
  have hm : (K * 2 ^ (e + d) * 2 ^ k) >>> (k + e) = K * 2 ^ d := by
    rw [hn, Nat.shiftRight_eq_div_pow, Nat.mul_div_cancel _ (Nat.two_pow_pos _)]
  dsimp only
  rw [hm]
  have hr : K * 2 ^ (e + d) * 2 ^ k - (K * 2 ^ d) <<< (k + e) = 0 := by
    rw [Nat.shiftLeft_eq, hn, Nat.sub_self]
  rw [hr]
  have hs : (1 : Nat) <<< (k + e) = 2 ^ (k + e) := by
    rw [Nat.shiftLeft_eq, Nat.one_mul]
  have hpos : 0 < 2 ^ (k + e) := Nat.two_pow_pos _
  have hcond : ¬ ((1 : Nat) <<< (k + e) < 2 * 0 ∨ (2 * 0 = (1 : Nat) <<< (k + e)
      ∧ K * 2 ^ d % 2 = 1)) := by
    rw [hs]
    omega
  rw [if_neg hcond]
  have hv : (K * 2 ^ d) <<< e = K * 2 ^ (e + d) := by
    rw [Nat.shiftLeft_eq, Nat.pow_add]
    ring
  rw [hv, if_pos]
  rw [Nat.shiftRight_eq_div_pow]
  exact Nat.div_eq_of_lt hhi

theorem round_not_negative (fmt : ElemFormat) (n : Int) (k : Nat) (h : 0 ≤ n) :
    Element.lt (fmt.round n k) (Element.fin 0) = false := by
  unfold ElemFormat.round
  have hn : ¬ n < 0 := by omega
  split
  · rw [if_neg hn]
    simp [Element.lt]
  · rw [if_neg hn]
    rfl

theorem exp2_not_negative (fmt : ElemFormat) (x : Int) :
    Element.lt (fmt.exp2 x) (Element.fin 0) = false := by
  unfold ElemFormat.exp2
  split
  · rfl
  · split
    · rfl
    · simp [Element.lt]

theorem mul_not_negative (fmt : ElemFormat) (a b : Element)
    (ha : Element.lt a (Element.fin 0) = false) (hb : Element.lt b (Element.fin 0) = false) :
    Element.lt (fmt.mul a b) (Element.fin 0) = false := by
  cases a with
  | nan => cases b <;> rfl
  | ninf => simp [Element.lt] at ha
  | pinf =>
    cases b with
    | nan => rfl
    | ninf => simp [Element.lt] at hb
    | pinf => rfl
    | fin v =>
      have hv : 0 ≤ v := by simpa [Element.lt] using hb
      simp only [ElemFormat.mul]
      split_ifs <;> first | rfl | omega
  | fin u =>
    have hu : 0 ≤ u := by simpa [Element.lt] using ha
    cases b with
    | nan => rfl
    | ninf => simp [Element.lt] at hb
    | pinf =>
      simp only [ElemFormat.mul]
      split_ifs <;> first | rfl | omega
    | fin v =>
      have hv : 0 ≤ v := by simpa [Element.lt] using hb
      exact round_not_negative fmt _ _ (Int.mul_nonneg hu hv)

theorem create_result_strict_nonneg (fmt : ElemFormat) (cfg : Config) (lhs_cols : Nat) :
    Element.lt (create_result fmt cfg lhs_cols).strict_standard (Element.fin 0) = false :=
  mul_not_negative fmt _ _ (round_not_negative fmt _ _ (Int.ofNat_nonneg _))
    (exp2_not_negative fmt _)

theorem create_result_loose_nonneg (fmt : ElemFormat) (cfg : Config) (lhs_cols : Nat) :
    Element.lt (create_result fmt cfg lhs_cols).loose_standard (Element.fin 0) = false :=
  mul_not_negative fmt _ _ (round_not_negative fmt _ _ (Int.ofNat_nonneg _))
    (exp2_not_negative fmt _)

theorem diffOf_self (x : Int) : diffOf (Element.fin x) (Element.fin x) = Element.fin 0 := by
  simp [diffOf, Element.sub, Element.abs]

theorem strictViolated_self (T : Element) (x : Int)
    (hT : Element.lt T (Element.fin 0) = false) :
    strictViolated T (Element.fin x) (Element.fin x) = false := by
  unfold strictViolated
  rw [diffOf_self]
  simp [Element.isfinite, Element.gt, hT]

theorem looseViolated_self (L T : Element) (x : Int)
    (hL : Element.lt L (Element.fin 0) = false) (hT : Element.lt T (Element.fin 0) = false) :
    looseViolated L T (Element.fin x) (Element.fin x) = false := by
  unfold looseViolated
  rw [strictViolated_self T x hT, diffOf_self]
  simp [Element.gt, hL]

theorem strictViolated_of_gt (T c a : Element) (h : Element.gt (diffOf c a) T = true) :
    strictViolated T c a = true := by
  unfold strictViolated
  simp [h]

theorem score_fileC7_scan (cfg : Config) (calced : Buffer) (pitch : Nat) :
    (Reader.score float32 cfg 0 readerC7 calced pitch true).scan
      = scanPairs true
          { result := create_result float32 cfg 2, calls := [], scored := [], fault := none }
          (visitsC7 calced pitch) := by
  rfl

theorem answerC7_fin (row col : Nat) : ∃ x : Int, answerC7 row col = Element.fin x :=
  ⟨_, rfl⟩

/-! ## The 2 x 2 scenario -/

theorem strictViolated_answerC7 (cfg : Config) (row col : Nat) :
    strictViolated (create_result float32 cfg 2).strict_standard
      (answerC7 row col) (answerC7 row col) = false := by
  obtain ⟨x, hx⟩ := answerC7_fin row col
  rw [hx]
  exact strictViolated_self _ x (create_result_strict_nonneg float32 cfg 2)

theorem looseViolated_answerC7 (cfg : Config) (row col : Nat) :
    looseViolated (create_result float32 cfg 2).loose_standard
      (create_result float32 cfg 2).strict_standard
      (answerC7 row col) (answerC7 row col) = false := by
  obtain ⟨x, hx⟩ := answerC7_fin row col
  rw [hx]
  exact looseViolated_self _ _ x (create_result_loose_nonneg float32 cfg 2)
    (create_result_strict_nonneg float32 cfg 2)

/-- C7: the header `(2, 2, 2)` is not large and the reader binds the dense codec; on
the scenario file, for every choice of the threshold constants and every pitch, a
candidate equal to the answer scores zero strict and zero loose violations without any
callback invocation, and a candidate equal to the answer except at one position
`(row0, col0)`, where its difference exceeds the strict threshold, scores exactly one
strict violation with exactly one callback invocation, whose arguments are `row0`,
`col0`, the candidate value and the stored answer value. -/
theorem scenario_two_by_two (cfg : Config) (calced : Buffer) (pitch : Nat) :
    isLarge 2 2 2 = false
    ∧ (∀ row < 2, ∀ col < 2,
        specDenseAnswer float32 fileC7 2 2 2 row col = answerC7 row col)
    ∧ Reader.construct_from_file fileC7 = some readerC7
    ∧ readerC7.pimpl = Impl.RegularImpl
    ∧ ((∀ row < 2, ∀ col < 2, calced (row * pitch + col) = answerC7 row col) →
          (Reader.score float32 cfg 0 readerC7 calced pitch true).scan.fault = none
          ∧ (Reader.score float32 cfg 0 readerC7 calced pitch true).scan.result.strict_violations = 0
          ∧ (Reader.score float32 cfg 0 readerC7 calced pitch true).scan.result.loose_violations = 0
          ∧ (Reader.score float32 cfg 0 readerC7 calced pitch true).scan.calls = [])
      ∧ (∀ row0 < 2, ∀ col0 < 2,
          (∀ row < 2, ∀ col < 2, (row, col) ≠ (row0, col0) →
            calced (row * pitch + col) = answerC7 row col) →
          Element.gt (diffOf (calced (row0 * pitch + col0)) (answerC7 row0 col0))
            (create_result float32 cfg 2).strict_standard = true →
          (Reader.score float32 cfg 0 readerC7 calced pitch true).scan.fault = none
          ∧ (Reader.score float32 cfg 0 readerC7 calced pitch true).scan.result.strict_violations = 1
          ∧ (Reader.score float32 cfg 0 readerC7 calced pitch true).scan.calls
              = [⟨row0, col0, calced (row0 * pitch + col0), answerC7 row0 col0⟩]) := by
  refine ⟨by decide, by decide, by decide, rfl, ?_, ?_⟩
  · intro hc
    have e := score_fileC7_scan cfg calced pitch
    obtain ⟨i1, -, -, i4, i5, i6, -, -⟩ := scanPairs_spec (visitsC7 calced pitch)
      { result := create_result float32 cfg 2, calls := [], scored := [], fault := none } rfl
    have c00 : calced 0 = answerC7 0 0 := by
      simpa using hc 0 (by omega) 0 (by omega)
    have c01 : calced 1 = answerC7 0 1 := by
      simpa using hc 0 (by omega) 1 (by omega)
    have c10 : calced pitch = answerC7 1 0 := by
      simpa using hc 1 (by omega) 0 (by omega)
    have c11 : calced (pitch + 1) = answerC7 1 1 := by
      simpa using hc 1 (by omega) 1 (by omega)
    have hs : (visitsC7 calced pitch).filter (fun v =>
        strictViolated (create_result float32 cfg 2).strict_standard v.calced v.answer)
          = [] := by
      simp [visitsC7, List.filter, c00, c01, c10, c11, strictViolated_answerC7]
    have hl : (visitsC7 calced pitch).filter (fun v =>
        looseViolated (create_result float32 cfg 2).loose_standard
          (create_result float32 cfg 2).strict_standard v.calced v.answer) = [] := by
      simp [visitsC7, List.filter, c00, c01, c10, c11, looseViolated_answerC7]
    rw [e]
    refine ⟨i1, ?_, ?_, ?_⟩
    · rw [i4]; dsimp only; rw [hs]; rfl
    · rw [i5]; dsimp only; rw [hl]; rfl
    · rw [i6]; dsimp only; rw [hs]; rfl
  · intro row0 hr col0 hcol hc hgt
    have e := score_fileC7_scan cfg calced pitch
    obtain ⟨i1, -, -, i4, -, i6, -, -⟩ := scanPairs_spec (visitsC7 calced pitch)
      { result := create_result float32 cfg 2, calls := [], scored := [], fault := none } rfl
    have hv := strictViolated_of_gt _ _ _ hgt
    have hs : (visitsC7 calced pitch).filter (fun v =>
        strictViolated (create_result float32 cfg 2).strict_standard v.calced v.answer)
          = [⟨row0, col0, calced (row0 * pitch + col0), answerC7 row0 col0⟩] := by
      interval_cases row0 <;> interval_cases col0
      · simp only [Nat.zero_mul, Nat.zero_add, Nat.one_mul, Nat.add_zero] at hv ⊢
        have c01 : calced 1 = answerC7 0 1 := by
          simpa using hc 0 (by omega) 1 (by omega) (by decide)
        have c10 : calced pitch = answerC7 1 0 := by
          simpa using hc 1 (by omega) 0 (by omega) (by decide)
        have c11 : calced (pitch + 1) = answerC7 1 1 := by
          simpa using hc 1 (by omega) 1 (by omega) (by decide)
        simp [visitsC7, List.filter, c01, c10, c11, strictViolated_answerC7, hv]
      · simp only [Nat.zero_mul, Nat.zero_add, Nat.one_mul, Nat.add_zero] at hv ⊢
        have c00 : calced 0 = answerC7 0 0 := by
          simpa using hc 0 (by omega) 0 (by omega) (by decide)
        have c10 : calced pitch = answerC7 1 0 := by
          simpa using hc 1 (by omega) 0 (by omega) (by decide)
        have c11 : calced (pitch + 1) = answerC7 1 1 := by
          simpa using hc 1 (by omega) 1 (by omega) (by decide)
        simp [visitsC7, List.filter, c00, c10, c11, strictViolated_answerC7, hv]
      · simp only [Nat.zero_mul, Nat.zero_add, Nat.one_mul, Nat.add_zero] at hv ⊢
        have c00 : calced 0 = answerC7 0 0 := by
          simpa using hc 0 (by omega) 0 (by omega) (by decide)
        have c01 : calced 1 = answerC7 0 1 := by
          simpa using hc 0 (by omega) 1 (by omega) (by decide)
        have c11 : calced (pitch + 1) = answerC7 1 1 := by
          simpa using hc 1 (by omega) 1 (by omega) (by decide)
        simp [visitsC7, List.filter, c00, c01, c11, strictViolated_answerC7, hv]
      · simp only [Nat.zero_mul, Nat.zero_add, Nat.one_mul, Nat.add_zero] at hv ⊢
        have c00 : calced 0 = answerC7 0 0 := by
          simpa using hc 0 (by omega) 0 (by omega) (by decide)
        have c01 : calced 1 = answerC7 0 1 := by
          simpa using hc 0 (by omega) 1 (by omega) (by decide)
        have c10 : calced pitch = answerC7 1 0 := by
          simpa using hc 1 (by omega) 0 (by omega) (by decide)
        simp [visitsC7, List.filter, c00, c01, c10, strictViolated_answerC7, hv]
    rw [e]
    refine ⟨i1, ?_, ?_⟩
    · rw [i4]; dsimp only; rw [hs]; rfl
    · rw [i6]; dsimp only; rw [hs]; rfl

theorem scenario_two_by_two_witness :
    (Reader.score float32 ⟨0, 0, 0⟩ 0 readerC7 (fun i => f32 (i + 1)) 2 true).scan.calls = []
    ∧ (Reader.score float32 ⟨0, 0, 0⟩ 0 readerC7 candC7 2 true).scan.calls
        = [⟨1, 0, f32 100, f32 3⟩] :=
  ⟨((scenario_two_by_two ⟨0, 0, 0⟩ (fun i => f32 (i + 1)) 2).2.2.2.2.1 (by decide)).2.2.2,
   ((scenario_two_by_two ⟨0, 0, 0⟩ candC7 2).2.2.2.2.2 1 (by decide) 0 (by decide)
      (by decide) (by decide)).2.2⟩

/-! ## Scoring without a callback (C9) -/

/-- C9 (defect): on the scenario file, a candidate whose elements are all NaN is a
strict violation at `(0, 0)` for every choice of the threshold constants.  With a
callback the dense `score` returns a `Result`; with an empty callback the same call
ends in `std::bad_function_call` and returns nothing. -/
theorem dense_score_empty_callback_throws (cfg : Config) :
    Reader.construct_from_file fileC7 = some readerC7
    ∧ readerC7.pimpl = Impl.RegularImpl
    ∧ (Reader.score float32 cfg 0 readerC7 (fun _ => Element.nan) 2 true).returned
        = Except.ok
            (Reader.score float32 cfg 0 readerC7 (fun _ => Element.nan) 2 true).scan.result
    ∧ (Reader.score float32 cfg 0 readerC7 (fun _ => Element.nan) 2 false).returned
        = Except.error Fault.badFunctionCall := by
  refine ⟨by decide, rfl, ?_, rfl⟩
  have h := scanPairs_spec (visitsC7 (fun _ => Element.nan) 2)
    { result := create_result float32 cfg 2, calls := [], scored := [], fault := none } rfl
  unfold ScoreOutcome.returned
  rw [score_fileC7_scan, h.1]

/-! ## The tiled scan does not depend on the callback -/

theorem foldl_rel {σ α : Type} (R : σ → σ → Prop) (f g : σ → α → σ)
    (h : ∀ s s' x, R s s' → R (f s x) (g s' x)) :
    ∀ (l : List α) (s s' : σ), R s s' → R (l.foldl f s) (l.foldl g s') := by
  intro l
  induction l with
  | nil => intro s s' hR; exact hR
  | cons x xs ih => intro s s' hR; exact ih _ _ (h s s' x hR)

theorem strideLoop_rel {σ : Type} (R : σ → σ → Prop) (halted : σ → Bool)
    (stride limit : Nat) (body body' : Nat → σ → σ)
    (hh : ∀ s s', R s s' → halted s = halted s')
    (hb : ∀ i s s', R s s' → R (body i s) (body' i s')) :
    ∀ (fuel i : Nat) (s s' : σ), R s s' →
      (strideLoop halted stride limit body fuel i s = none
        ∧ strideLoop halted stride limit body' fuel i s' = none)
      ∨ ∃ c t t', strideLoop halted stride limit body fuel i s = some (c, t)
        ∧ strideLoop halted stride limit body' fuel i s' = some (c, t') ∧ R t t' := by
  intro fuel
  induction fuel with
  | zero => intro i s s' _; exact Or.inl ⟨rfl, rfl⟩
  | succ n ih =>
    intro i s s' hR
    unfold strideLoop
    rw [← hh s s' hR]
    split
    · exact Or.inr ⟨i, s, s', rfl, rfl, hR⟩
    · split
      · exact ih _ _ _ (hb i s s' hR)
      · exact Or.inr ⟨i, s, s', rfl, rfl, hR⟩

theorem LargeImpl.scoreBody_sameResult (sc sc' : Scan) (row col : Nat) (calced_elem : Element)
    (answer_elem : Option Element) (h : sc.SameResult sc') :
    (LargeImpl.scoreBody false sc row col calced_elem answer_elem).SameResult
      (LargeImpl.scoreBody true sc' row col calced_elem answer_elem) := by
  obtain ⟨h1, h2, h3⟩ := h
  unfold LargeImpl.scoreBody
  rcases hf : sc.fault with _ | f
  · have hf' : sc'.fault = none := by rw [← h2, hf]
    rw [hf']
    rcases answer_elem with _ | a
    · exact ⟨h1, rfl, h3⟩
    · dsimp only [Scan.compare, Scan.call]
      rw [h1, h3]
      unfold Scan.SameResult
      cases (score_element sc'.result calced_elem a).1 <;> simp [hf, hf']
  · have hf' : sc'.fault = some f := by rw [← h2, hf]
    rw [hf']
    exact ⟨h1, by rw [hf, hf'], h3⟩

theorem Scan.SameResult.halted {sc sc' : Scan} (h : sc.SameResult sc') :
    sc.fault.isSome = sc'.fault.isSome := by
  rw [h.2.1]

theorem LargeImpl.scoreRow_sameResult (uninit : Nat) (calced : Buffer)
    (block pad_right : Block) (k line rows cols pitch repeat_cols : Nat) (sc sc' : Scan)
    (h : sc.SameResult sc') :
    (LargeImpl.scoreRow uninit false calced block pad_right k line rows cols pitch
      repeat_cols sc).SameResult
    (LargeImpl.scoreRow uninit true calced block pad_right k line rows cols pitch
      repeat_cols sc') := by
  unfold LargeImpl.scoreRow
  rcases strideLoop_rel Scan.SameResult (fun (c : Scan) => c.fault.isSome) repeat_cols cols
    (fun col c =>
      (countFrom uninit repeat_cols).foldl (fun c col_in_repetition =>
        LargeImpl.scoreBody false c line ((col + col_in_repetition) % u32Mod)
          (calced (line * pitch + (col + col_in_repetition) % u32Mod))
          (block.get? (k * rows + col_in_repetition))) c)
    (fun col c =>
      (countFrom uninit repeat_cols).foldl (fun c col_in_repetition =>
        LargeImpl.scoreBody true c line ((col + col_in_repetition) % u32Mod)
          (calced (line * pitch + (col + col_in_repetition) % u32Mod))
          (block.get? (k * rows + col_in_repetition))) c)
    (fun s s' hR => hR.halted)
    (fun i s s' hR => by
      dsimp only
      refine foldl_rel Scan.SameResult _ _ ?_ _ s s' hR
      intro s s' x hx
      exact LargeImpl.scoreBody_sameResult s s' _ _ _ _ hx)
    loopFuel 0 sc sc' h with ⟨e1, e2⟩ | ⟨c, t, t', e1, e2, hR⟩
  · rw [e1, e2]
    exact ⟨h.1, rfl, h.2.2⟩
  · rw [e1, e2]
    dsimp only
    refine foldl_rel Scan.SameResult _ _ ?_ _ t t' hR
    intro s s' x hx
    exact LargeImpl.scoreBody_sameResult s s' _ _ _ _ hx

theorem LargeImpl.scoreWalk_sameResult (uninit : Nat) (calced : Buffer)
    (rep pad_bottom pad_right : Block) (rows cols pitch repeat_rows repeat_cols pad_rows : Nat)
    (sc sc' : Scan) (h : sc.SameResult sc') :
    (LargeImpl.scoreWalk uninit false calced rep pad_bottom pad_right rows cols pitch
      repeat_rows repeat_cols pad_rows sc).SameResult
    (LargeImpl.scoreWalk uninit true calced rep pad_bottom pad_right rows cols pitch
      repeat_rows repeat_cols pad_rows sc') := by
  unfold LargeImpl.scoreWalk
  rcases strideLoop_rel Scan.SameResult (fun (c : Scan) => c.fault.isSome) repeat_rows rows
    (fun row c =>
      (countFrom uninit repeat_rows).foldl (fun c row_in_repetition =>
        LargeImpl.scoreRow uninit false calced rep pad_right
          row_in_repetition ((row + row_in_repetition) % u32Mod) rows cols pitch
          repeat_cols c) c)
    (fun row c =>
      (countFrom uninit repeat_rows).foldl (fun c row_in_repetition =>
        LargeImpl.scoreRow uninit true calced rep pad_right
          row_in_repetition ((row + row_in_repetition) % u32Mod) rows cols pitch
          repeat_cols c) c)
    (fun s s' hR => hR.halted)
    (fun i s s' hR => by
      dsimp only
      refine foldl_rel Scan.SameResult _ _ ?_ _ s s' hR
      intro s s' x hx
      exact LargeImpl.scoreRow_sameResult uninit calced _ _ _ _ _ _ _ _ s s' hx)
    loopFuel 0 sc sc' h with ⟨e1, e2⟩ | ⟨c, t, t', e1, e2, hR⟩
  · rw [e1, e2]
    exact ⟨h.1, rfl, h.2.2⟩
  · rw [e1, e2]
    dsimp only
    refine foldl_rel Scan.SameResult _ _ ?_ _ t t' hR
    intro s s' x hx
    exact LargeImpl.scoreRow_sameResult uninit calced _ _ _ _ _ _ _ _ s s' hx

/-- The tiled `score` tests the callback before it invokes it: for every input the
call with an empty callback ends as the call with a callback does, with the same
`Result`, the same fault if any, and the same comparisons made. -/
theorem LargeImpl.score_callback_optional (fmt : ElemFormat) (cfg : Config) (uninit : Nat)
    (m_stream : Stream) (calced : Buffer) (lhs_rows lhs_cols rhs_cols pitch : Nat) :
    (LargeImpl.score fmt cfg uninit m_stream calced lhs_rows lhs_cols rhs_cols pitch
        false).scan.SameResult
      (LargeImpl.score fmt cfg uninit m_stream calced lhs_rows lhs_cols rhs_cols pitch
        true).scan := by
  unfold LargeImpl.score
  dsimp only
  split
  · split
    · exact ⟨rfl, rfl, rfl⟩
    · split
      · exact ⟨rfl, rfl, rfl⟩
      · split
        · exact ⟨rfl, rfl, rfl⟩
        · split
          · exact ⟨rfl, rfl, rfl⟩
          · exact LargeImpl.scoreWalk_sameResult uninit calced _ _ _ _ _ _ _ _ _ _ _
              ⟨rfl, rfl, rfl⟩
  · exact ⟨rfl, rfl, rfl⟩

/-! ## The reader lambda of `LargeImpl::get`: faults -/

theorem foldl_inv_mem {σ α : Type} (P : σ → Prop) (f : σ → α → σ) :
    ∀ (l : List α) (st : σ), (∀ st, ∀ x ∈ l, P st → P (f st x)) → P st → P (l.foldl f st) := by
  intro l
  induction l with
  | nil => intro st _ h; exact h
  | cons x xs ih =>
    intro st hf h
    refine ih _ (fun st y hy hP => hf st y (List.mem_cons_of_mem _ hy) hP) ?_
    exact hf st x (List.mem_cons_self _ _) h

theorem mem_countFrom {start n x : Nat} (h : x ∈ countFrom start n) : start ≤ x ∧ x < n := by
  unfold countFrom at h
  simp only [List.mem_map, List.mem_range] at h
  obtain ⟨j, hj, rfl⟩ := h
  omega

theorem strideLoop_terminates {σ : Type} (P : σ → Prop) (halted : σ → Bool)
    (stride limit : Nat) (body : Nat → σ → σ) (hs : 0 < stride)
    (hl : limit + stride < u32Mod) (hb : ∀ i st, P st → P (body i st)) :
    ∀ (fuel i : Nat) (st : σ), i ≤ limit → limit < fuel + i → P st →
      ∃ c st', strideLoop halted stride limit body fuel i st = some (c, st') ∧ P st' := by
  intro fuel
  induction fuel with
  | zero => intro i st h1 h2; omega
  | succ n ih =>
    intro i st h1 h2 hP
    unfold strideLoop
    split
    · exact ⟨i, st, rfl, hP⟩
    · have e : (i + stride) % u32Mod = i + stride := Nat.mod_eq_of_lt (by omega)
      rw [e]
      split
      · next hle => exact ih (i + stride) (body i st) hle (by omega) (hb i st hP)
      · exact ⟨i, st, rfl, hP⟩

theorem copy_n_sound (src : Block) (first count result : Nat) (st : Copy)
    (hb : first + count ≤ src.size) (h : st.Sound) :
    (copy_n src first count st result).Sound := by
  unfold copy_n
  split
  · exact h
  · rw [if_pos hb]
    exact Or.inl (by assumption)

theorem copy_n_fault_none (src : Block) (first count result : Nat) (st : Copy)
    (hb : first + count ≤ src.size) (h : st.fault = none) :
    (copy_n src first count st result).fault = none := by
  unfold copy_n
  rw [h]
  dsimp only
  rw [if_pos hb]

theorem LargeImpl.readerRow_sound (block pad_right : Block)
    (first line cols pitch repeat_cols pad_cols : Nat) (st : Copy)
    (hb : first + repeat_cols ≤ block.size) (hp : pad_cols ≤ pad_right.size)
    (h : st.Sound) :
    (LargeImpl.readerRow block pad_right first line cols pitch repeat_cols pad_cols st).Sound := by
  unfold LargeImpl.readerRow
  split
  · exact Or.inr rfl
  · next col c hc =>
    have hcS : c.Sound :=
      strideLoop_inv Copy.Sound _ _ _ _
        (fun i st hst => copy_n_sound block first repeat_cols _ st hb hst) _ _ _ h _ _ hc
    exact copy_n_sound pad_right 0 pad_cols _ c (by omega) hcS

theorem LargeImpl.readerRow_fault_none (block pad_right : Block)
    (first line cols pitch repeat_cols pad_cols : Nat) (st : Copy)
    (hb : first + repeat_cols ≤ block.size) (hp : pad_cols ≤ pad_right.size)
    (hC : 0 < repeat_cols) (hw : cols + repeat_cols < u32Mod) (h : st.fault = none) :
    (LargeImpl.readerRow block pad_right first line cols pitch repeat_cols pad_cols st).fault
      = none := by
  unfold LargeImpl.readerRow
  obtain ⟨c, st', e, hP⟩ := strideLoop_terminates (fun (c : Copy) => c.fault = none)
    (fun (c : Copy) => c.fault.isSome) repeat_cols cols
    (fun col c => copy_n block first repeat_cols c (line * pitch + col)) hC hw
    (fun i st hst => copy_n_fault_none block first repeat_cols _ st hb hst)
    loopFuel 0 st (Nat.zero_le _) (by unfold loopFuel u32Mod at *; omega) h
  rw [e]
  exact copy_n_fault_none pad_right 0 pad_cols _ st' (by omega) hP

theorem readArray_size (fmt : ElemFormat) (s : Stream) (count nbytes : Nat) :
    (readArray fmt s count nbytes).1.size = count := rfl

theorem row_in_block {k n w : Nat} (h : k < n) : k * w + w ≤ n * w := by
  have : (k + 1) * w ≤ n * w := Nat.mul_le_mul_right w h
  rw [Nat.add_mul, Nat.one_mul] at this
  exact this

theorem LargeImpl.reader_bad_rows (fmt : ElemFormat) (uninit : Nat) (m_stream : Stream)
    (dist : Buffer) (rows cols pitch repeat_rows repeat_cols pad_rows pad_cols : Nat)
    (hR : repeat_rows ≠ 0) (h : rows % repeat_rows ≠ pad_rows) :
    LargeImpl.reader fmt uninit m_stream dist rows cols pitch repeat_rows repeat_cols
        pad_rows pad_cols
      = ({ dist := dist, fault := some Fault.assertion }, m_stream) := by
  unfold LargeImpl.reader
  rw [if_neg hR, if_pos h]

theorem LargeImpl.reader_bad_cols (fmt : ElemFormat) (uninit : Nat) (m_stream : Stream)
    (dist : Buffer) (rows cols pitch repeat_rows repeat_cols pad_rows pad_cols : Nat)
    (hR : repeat_rows ≠ 0) (hr : rows % repeat_rows = pad_rows)
    (hC : repeat_cols ≠ 0) (h : cols % repeat_cols ≠ pad_cols) :
    LargeImpl.reader fmt uninit m_stream dist rows cols pitch repeat_rows repeat_cols
        pad_rows pad_cols
      = ({ dist := dist, fault := some Fault.assertion }, m_stream) := by
  unfold LargeImpl.reader
  rw [if_neg hR, if_neg (not_not.mpr hr), if_neg hC, if_pos h]

theorem LargeImpl.reader_fault_none (fmt : ElemFormat) (uninit : Nat) (m_stream : Stream)
    (dist : Buffer) (rows cols pitch repeat_rows repeat_cols pad_rows pad_cols : Nat)
    (h : (LargeImpl.reader fmt uninit m_stream dist rows cols pitch repeat_rows repeat_cols
        pad_rows pad_cols).1.fault = none) :
    rows % repeat_rows = pad_rows ∧ cols % repeat_cols = pad_cols := by
  unfold LargeImpl.reader at h
  split at h
  · simp at h
  · split at h
    · simp at h
    · next hr =>
      split at h
      · simp at h
      · split at h
        · simp at h
        · next hc => exact ⟨not_not.mp hr, not_not.mp hc⟩

theorem LargeImpl.reader_sound (fmt : ElemFormat) (uninit : Nat) (m_stream : Stream)
    (dist : Buffer) (rows cols pitch repeat_rows repeat_cols pad_rows pad_cols : Nat)
    (hR : repeat_rows ≠ 0) (hr : rows % repeat_rows = pad_rows)
    (hC : repeat_cols ≠ 0) (hc : cols % repeat_cols = pad_cols) :
    (LargeImpl.reader fmt uninit m_stream dist rows cols pitch repeat_rows repeat_cols
        pad_rows pad_cols).1.Sound := by
  unfold LargeImpl.reader
  rw [if_neg hR, if_neg (not_not.mpr hr), if_neg hC, if_neg (not_not.mpr hc)]
  dsimp only
  have hpr : pad_cols ≤ repeat_rows * pad_cols :=
    Nat.le_mul_of_pos_left _ (Nat.pos_of_ne_zero hR)
  split
  · exact Or.inr rfl
  · next row c hloop =>
    have hcS : c.Sound := by
      refine strideLoop_inv Copy.Sound _ _ _ _ ?_ _ _ _ (Or.inl rfl) _ _ hloop
      intro i st hst
      refine foldl_inv_mem Copy.Sound _ _ _ ?_ hst
      intro st k hk hS
      exact LargeImpl.readerRow_sound _ _ _ _ _ _ _ _ st
        (by rw [readArray_size]; exact row_in_block (mem_countFrom hk).2)
        (by rw [readArray_size]; exact hpr) hS
    refine foldl_inv_mem Copy.Sound _ _ _ ?_ hcS
    intro st k hk hS
    exact LargeImpl.readerRow_sound _ _ _ _ _ _ _ _ st
      (by rw [readArray_size]; exact row_in_block (mem_countFrom hk).2)
      (by rw [readArray_size]; exact hpr) hS

theorem LargeImpl.reader_completes (fmt : ElemFormat) (uninit : Nat) (m_stream : Stream)
    (dist : Buffer) (rows cols pitch repeat_rows repeat_cols pad_rows pad_cols : Nat)
    (hR : repeat_rows ≠ 0) (hr : rows % repeat_rows = pad_rows)
    (hC : repeat_cols ≠ 0) (hc : cols % repeat_cols = pad_cols)
    (hwr : rows + repeat_rows < u32Mod) (hwc : cols + repeat_cols < u32Mod) :
    (LargeImpl.reader fmt uninit m_stream dist rows cols pitch repeat_rows repeat_cols
        pad_rows pad_cols).1.fault = none := by
  unfold LargeImpl.reader
  rw [if_neg hR, if_neg (not_not.mpr hr), if_neg hC, if_neg (not_not.mpr hc)]
  dsimp only
  have hpr : pad_cols ≤ repeat_rows * pad_cols :=
    Nat.le_mul_of_pos_left _ (Nat.pos_of_ne_zero hR)
  obtain ⟨row, c, e, hP⟩ := strideLoop_terminates (fun (c : Copy) => c.fault = none)
    (fun (c : Copy) => c.fault.isSome) repeat_rows rows
    (fun row c =>
      (countFrom uninit repeat_rows).foldl (fun c row_in_repetition =>
        LargeImpl.readerRow
          (readArray fmt m_stream (repeat_rows * repeat_cols)
            (fmt.size * repeat_rows * repeat_cols)).1
          (readArray fmt
            (readArray fmt
              (readArray fmt m_stream (repeat_rows * repeat_cols)
                (fmt.size * repeat_rows * repeat_cols)).2
              (pad_rows * repeat_cols) (pad_rows * repeat_cols)).2
            (repeat_rows * pad_cols) (repeat_rows * pad_cols)).1
          (row_in_repetition * repeat_cols)
          ((row + row_in_repetition) % u32Mod) cols pitch repeat_cols pad_cols c) c)
    (Nat.pos_of_ne_zero hR) hwr
    (fun i st hst => by
      refine foldl_inv_mem (fun (c : Copy) => c.fault = none) _ _ _ ?_ hst
      intro st k hk hS
      exact LargeImpl.readerRow_fault_none _ _ _ _ _ _ _ _ st
        (by rw [readArray_size]; exact row_in_block (mem_countFrom hk).2)
        (by rw [readArray_size]; exact hpr) (Nat.pos_of_ne_zero hC) hwc hS)
    loopFuel 0 { dist := dist, fault := none } (Nat.zero_le _)
    (by unfold loopFuel u32Mod at *; omega) rfl
  rw [e]
  dsimp only
  refine foldl_inv_mem (fun (c : Copy) => c.fault = none) _ _ _ ?_ hP
  intro st k hk hS
  exact LargeImpl.readerRow_fault_none _ _ _ _ _ _ _ _ st
    (by rw [readArray_size]; exact row_in_block (mem_countFrom hk).2)
    (by rw [readArray_size]; exact hpr) (Nat.pos_of_ne_zero hC) hwc hS

/-! ## The tiling invariant is asserted -/

theorem LargeImpl.get_of_fields (fmt : ElemFormat) (uninit : Nat) (m_stream : Stream)
    (lhs rhs : Buffer) (lhs_rows lhs_cols rhs_cols lhs_pitch rhs_pitch : Nat)
    (d : TileFields) (s : Stream) (hd : LargeImpl.readFields m_stream = (some d, s)) :
    LargeImpl.get fmt uninit m_stream lhs rhs lhs_rows lhs_cols rhs_cols lhs_pitch rhs_pitch
      = match (LargeImpl.reader fmt uninit s lhs lhs_rows lhs_cols lhs_pitch
          d.lhs_repeat_rows d.lhs_repeat_cols d.lhs_pad_rows d.lhs_pad_cols).1.fault with
        | some f =>
          { lhs := (LargeImpl.reader fmt uninit s lhs lhs_rows lhs_cols lhs_pitch
              d.lhs_repeat_rows d.lhs_repeat_cols d.lhs_pad_rows d.lhs_pad_cols).1.dist
            rhs := rhs
            stream := (LargeImpl.reader fmt uninit s lhs lhs_rows lhs_cols lhs_pitch
              d.lhs_repeat_rows d.lhs_repeat_cols d.lhs_pad_rows d.lhs_pad_cols).2
            fault := some f }
        | none =>
          { lhs := (LargeImpl.reader fmt uninit s lhs lhs_rows lhs_cols lhs_pitch
              d.lhs_repeat_rows d.lhs_repeat_cols d.lhs_pad_rows d.lhs_pad_cols).1.dist
            rhs := (LargeImpl.reader fmt uninit
              (LargeImpl.reader fmt uninit s lhs lhs_rows lhs_cols lhs_pitch
                d.lhs_repeat_rows d.lhs_repeat_cols d.lhs_pad_rows d.lhs_pad_cols).2
              rhs lhs_cols rhs_cols rhs_pitch
              d.lhs_repeat_cols d.rhs_repeat_cols d.lhs_pad_cols d.rhs_pad_cols).1.dist
            stream := (LargeImpl.reader fmt uninit
              (LargeImpl.reader fmt uninit s lhs lhs_rows lhs_cols lhs_pitch
                d.lhs_repeat_rows d.lhs_repeat_cols d.lhs_pad_rows d.lhs_pad_cols).2
              rhs lhs_cols rhs_cols rhs_pitch
              d.lhs_repeat_cols d.rhs_repeat_cols d.lhs_pad_cols d.rhs_pad_cols).2
            fault := (LargeImpl.reader fmt uninit
              (LargeImpl.reader fmt uninit s lhs lhs_rows lhs_cols lhs_pitch
                d.lhs_repeat_rows d.lhs_repeat_cols d.lhs_pad_rows d.lhs_pad_cols).2
              rhs lhs_cols rhs_cols rhs_pitch
              d.lhs_repeat_cols d.rhs_repeat_cols d.lhs_pad_cols d.rhs_pad_cols).1.fault } := by
  unfold LargeImpl.get
  rw [hd]

theorem LargeImpl.get_fault_none (fmt : ElemFormat) (uninit : Nat) (m_stream : Stream)
    (lhs rhs : Buffer) (lhs_rows lhs_cols rhs_cols lhs_pitch rhs_pitch : Nat)
    (d : TileFields) (s : Stream) (hd : LargeImpl.readFields m_stream = (some d, s))
    (h : (LargeImpl.get fmt uninit m_stream lhs rhs lhs_rows lhs_cols rhs_cols lhs_pitch
      rhs_pitch).fault = none) :
    lhsInvariant d lhs_rows lhs_cols ∧ rhsInvariant d lhs_cols rhs_cols := by
  rw [LargeImpl.get_of_fields fmt uninit m_stream lhs rhs lhs_rows lhs_cols rhs_cols lhs_pitch
    rhs_pitch d s hd] at h
  split at h
  · simp at h
  · next hl =>
    exact ⟨LargeImpl.reader_fault_none _ _ _ _ _ _ _ _ _ _ _ hl,
      LargeImpl.reader_fault_none _ _ _ _ _ _ _ _ _ _ _ h⟩

theorem LargeImpl.get_lhs_violated (fmt : ElemFormat) (uninit : Nat) (m_stream : Stream)
    (lhs rhs : Buffer) (lhs_rows lhs_cols rhs_cols lhs_pitch rhs_pitch : Nat)
    (d : TileFields) (s : Stream) (hd : LargeImpl.readFields m_stream = (some d, s))
    (h1 : 1 ≤ d.lhs_repeat_rows) (h2 : 1 ≤ d.lhs_repeat_cols)
    (h : ¬ lhsInvariant d lhs_rows lhs_cols) :
    (LargeImpl.get fmt uninit m_stream lhs rhs lhs_rows lhs_cols rhs_cols lhs_pitch
        rhs_pitch).fault = some Fault.assertion
    ∧ (LargeImpl.get fmt uninit m_stream lhs rhs lhs_rows lhs_cols rhs_cols lhs_pitch
        rhs_pitch).lhs = lhs
    ∧ (LargeImpl.get fmt uninit m_stream lhs rhs lhs_rows lhs_cols rhs_cols lhs_pitch
        rhs_pitch).rhs = rhs := by
  rw [LargeImpl.get_of_fields fmt uninit m_stream lhs rhs lhs_rows lhs_cols rhs_cols lhs_pitch
    rhs_pitch d s hd]
  have e : LargeImpl.reader fmt uninit s lhs lhs_rows lhs_cols lhs_pitch
      d.lhs_repeat_rows d.lhs_repeat_cols d.lhs_pad_rows d.lhs_pad_cols
        = ({ dist := lhs, fault := some Fault.assertion }, s) := by
    by_cases hr : lhs_rows % d.lhs_repeat_rows = d.lhs_pad_rows
    · exact LargeImpl.reader_bad_cols _ _ _ _ _ _ _ _ _ _ _ (by omega) hr (by omega)
        (fun hc => h ⟨hr, hc⟩)
    · exact LargeImpl.reader_bad_rows _ _ _ _ _ _ _ _ _ _ _ (by omega) hr
  rw [e]
  exact ⟨rfl, rfl, rfl⟩

theorem LargeImpl.get_rhs_violated (fmt : ElemFormat) (uninit : Nat) (m_stream : Stream)
    (lhs rhs : Buffer) (lhs_rows lhs_cols rhs_cols lhs_pitch rhs_pitch : Nat)
    (d : TileFields) (s : Stream) (hd : LargeImpl.readFields m_stream = (some d, s))
    (h1 : 1 ≤ d.lhs_repeat_rows) (h2 : 1 ≤ d.lhs_repeat_cols) (h3 : 1 ≤ d.rhs_repeat_cols)
    (hl : lhsInvariant d lhs_rows lhs_cols) (h : ¬ rhsInvariant d lhs_cols rhs_cols) :
    ((LargeImpl.get fmt uninit m_stream lhs rhs lhs_rows lhs_cols rhs_cols lhs_pitch
        rhs_pitch).fault = some Fault.assertion
      ∨ (LargeImpl.get fmt uninit m_stream lhs rhs lhs_rows lhs_cols rhs_cols lhs_pitch
        rhs_pitch).fault = some Fault.diverges)
    ∧ (LargeImpl.get fmt uninit m_stream lhs rhs lhs_rows lhs_cols rhs_cols lhs_pitch
        rhs_pitch).rhs = rhs := by
  rw [LargeImpl.get_of_fields fmt uninit m_stream lhs rhs lhs_rows lhs_cols rhs_cols lhs_pitch
    rhs_pitch d s hd]
  have hS := LargeImpl.reader_sound fmt uninit s lhs lhs_rows lhs_cols lhs_pitch
    d.lhs_repeat_rows d.lhs_repeat_cols d.lhs_pad_rows d.lhs_pad_cols (by omega) hl.1
    (by omega) hl.2
  split
  · next f hf =>
    rcases hS with hS | hS
    · rw [hS] at hf; simp at hf
    · rw [hS] at hf
      simp only [Option.some.injEq] at hf
      subst hf
      exact ⟨Or.inr rfl, rfl⟩
  · have e := LargeImpl.reader_bad_cols fmt uninit
      (LargeImpl.reader fmt uninit s lhs lhs_rows lhs_cols lhs_pitch
        d.lhs_repeat_rows d.lhs_repeat_cols d.lhs_pad_rows d.lhs_pad_cols).2
      rhs lhs_cols rhs_cols rhs_pitch d.lhs_repeat_cols d.rhs_repeat_cols d.lhs_pad_cols
      d.rhs_pad_cols (by omega) hl.2 (by omega) (fun hc => h ⟨hl.2, hc⟩)
    rw [e]
    exact ⟨Or.inl rfl, rfl⟩

theorem LargeImpl.score_of_fields (fmt : ElemFormat) (cfg : Config) (uninit : Nat)
    (m_stream : Stream) (calced : Buffer) (lhs_rows lhs_cols rhs_cols pitch : Nat)
    (violation_callback : Bool) (a : AnswerFields) (t : Stream)
    (ha : LargeImpl.readAnswerFields m_stream = (some a, t)) (h4 : 1 ≤ a.repeat_rows)
    (h5 : 1 ≤ a.repeat_cols) :
    ((LargeImpl.score fmt cfg uninit m_stream calced lhs_rows lhs_cols rhs_cols pitch
        violation_callback).scan.fault = none → answerInvariant a lhs_rows rhs_cols)
    ∧ (¬ answerInvariant a lhs_rows rhs_cols →
        (LargeImpl.score fmt cfg uninit m_stream calced lhs_rows lhs_cols rhs_cols pitch
          violation_callback).scan = Scan.faulted Fault.assertion) := by
  unfold LargeImpl.score
  rw [ha]
  dsimp only
  rw [if_neg (by omega : ¬ a.repeat_rows = 0)]
  by_cases hr : lhs_rows % a.repeat_rows = a.pad_rows
  · rw [if_neg (not_not.mpr hr), if_neg (by omega : ¬ a.repeat_cols = 0)]
    by_cases hc : rhs_cols % a.repeat_cols = a.pad_cols
    · exact ⟨fun _ => ⟨hr, hc⟩, fun h => absurd ⟨hr, hc⟩ h⟩
    · rw [if_pos hc]
      exact ⟨fun h => by simp [Scan.faulted] at h, fun _ => rfl⟩
  · rw [if_pos hr]
    exact ⟨fun h => by simp [Scan.faulted] at h, fun _ => rfl⟩

theorem LargeImpl.get_completes (fmt : ElemFormat) (uninit : Nat) (m_stream : Stream)
    (lhs rhs : Buffer) (lhs_rows lhs_cols rhs_cols lhs_pitch rhs_pitch : Nat)
    (d : TileFields) (s : Stream) (hd : LargeImpl.readFields m_stream = (some d, s))
    (h1 : 1 ≤ d.lhs_repeat_rows) (h2 : 1 ≤ d.lhs_repeat_cols) (h3 : 1 ≤ d.rhs_repeat_cols)
    (hl : lhsInvariant d lhs_rows lhs_cols) (hr : rhsInvariant d lhs_cols rhs_cols)
    (w1 : lhs_rows + d.lhs_repeat_rows < u32Mod) (w2 : lhs_cols + d.lhs_repeat_cols < u32Mod)
    (w3 : rhs_cols + d.rhs_repeat_cols < u32Mod) :
    (LargeImpl.get fmt uninit m_stream lhs rhs lhs_rows lhs_cols rhs_cols lhs_pitch
      rhs_pitch).fault = none := by
  rw [LargeImpl.get_of_fields fmt uninit m_stream lhs rhs lhs_rows lhs_cols rhs_cols lhs_pitch
    rhs_pitch d s hd]
  have e := LargeImpl.reader_completes fmt uninit s lhs lhs_rows lhs_cols lhs_pitch
    d.lhs_repeat_rows d.lhs_repeat_cols d.lhs_pad_rows d.lhs_pad_cols (by omega) hl.1
    (by omega) hl.2 w1 w2
  rw [e]
  exact LargeImpl.reader_completes fmt uninit _ rhs lhs_cols rhs_cols rhs_pitch
    d.lhs_repeat_cols d.rhs_repeat_cols d.lhs_pad_cols d.rhs_pad_cols (by omega) hr.1
    (by omega) hr.2 w2 w3

/-- C10 as amended: for a tiled file whose descriptor fields can be read and whose
repeat counts are at least 1, `get` completes only if both operands satisfy the tiling
invariant and `score` completes only if the answer does.  A violated LHS invariant ends
`get` in an assertion failure with both caller buffers untouched.  A violated RHS
invariant (with the LHS one holding) is detected only after the LHS walk: `get` then
ends in the assertion failure, or never gets there because the LHS walk does not end,
and the RHS buffer is untouched.  A violated answer invariant ends `score` in an
assertion failure before any element is compared and without any callback invocation. -/
theorem tiling_invariant_checked (fmt : ElemFormat) (cfg : Config) (uninit : Nat)
    (m_stream : Stream) (lhs rhs calced : Buffer)
    (lhs_rows lhs_cols rhs_cols lhs_pitch rhs_pitch pitch : Nat) (violation_callback : Bool)
    (d : TileFields) (s : Stream) (a : AnswerFields) (t : Stream)
    (hd : LargeImpl.readFields m_stream = (some d, s))
    (ha : LargeImpl.readAnswerFields m_stream = (some a, t))
    (h1 : 1 ≤ d.lhs_repeat_rows) (h2 : 1 ≤ d.lhs_repeat_cols) (h3 : 1 ≤ d.rhs_repeat_cols)
    (h4 : 1 ≤ a.repeat_rows) (h5 : 1 ≤ a.repeat_cols) :
    ((LargeImpl.get fmt uninit m_stream lhs rhs lhs_rows lhs_cols rhs_cols lhs_pitch
        rhs_pitch).fault = none →
      lhsInvariant d lhs_rows lhs_cols ∧ rhsInvariant d lhs_cols rhs_cols)
    ∧ (¬ lhsInvariant d lhs_rows lhs_cols →
      (LargeImpl.get fmt uninit m_stream lhs rhs lhs_rows lhs_cols rhs_cols lhs_pitch
          rhs_pitch).fault = some Fault.assertion
      ∧ (LargeImpl.get fmt uninit m_stream lhs rhs lhs_rows lhs_cols rhs_cols lhs_pitch
          rhs_pitch).lhs = lhs
      ∧ (LargeImpl.get fmt uninit m_stream lhs rhs lhs_rows lhs_cols rhs_cols lhs_pitch
          rhs_pitch).rhs = rhs)
    ∧ (lhsInvariant d lhs_rows lhs_cols → ¬ rhsInvariant d lhs_cols rhs_cols →
      ((LargeImpl.get fmt uninit m_stream lhs rhs lhs_rows lhs_cols rhs_cols lhs_pitch
          rhs_pitch).fault = some Fault.assertion
        ∨ (LargeImpl.get fmt uninit m_stream lhs rhs lhs_rows lhs_cols rhs_cols lhs_pitch
          rhs_pitch).fault = some Fault.diverges)
      ∧ (LargeImpl.get fmt uninit m_stream lhs rhs lhs_rows lhs_cols rhs_cols lhs_pitch
          rhs_pitch).rhs = rhs)
    ∧ ((LargeImpl.score fmt cfg uninit m_stream calced lhs_rows lhs_cols rhs_cols pitch
        violation_callback).scan.fault = none → answerInvariant a lhs_rows rhs_cols)
    ∧ (¬ answerInvariant a lhs_rows rhs_cols →
      (LargeImpl.score fmt cfg uninit m_stream calced lhs_rows lhs_cols rhs_cols pitch
          violation_callback).scan.fault = some Fault.assertion
      ∧ (LargeImpl.score fmt cfg uninit m_stream calced lhs_rows lhs_cols rhs_cols pitch
          violation_callback).scan.scored = []
      ∧ (LargeImpl.score fmt cfg uninit m_stream calced lhs_rows lhs_cols rhs_cols pitch
          violation_callback).scan.calls = []) := by
  have hs := LargeImpl.score_of_fields fmt cfg uninit m_stream calced lhs_rows lhs_cols
    rhs_cols pitch violation_callback a t ha h4 h5
  refine ⟨LargeImpl.get_fault_none fmt uninit m_stream lhs rhs lhs_rows lhs_cols rhs_cols
      lhs_pitch rhs_pitch d s hd,
    LargeImpl.get_lhs_violated fmt uninit m_stream lhs rhs lhs_rows lhs_cols rhs_cols
      lhs_pitch rhs_pitch d s hd h1 h2,
    LargeImpl.get_rhs_violated fmt uninit m_stream lhs rhs lhs_rows lhs_cols rhs_cols
      lhs_pitch rhs_pitch d s hd h1 h2 h3,
    hs.1, fun h => ?_⟩
  rw [hs.2 h]
  exact ⟨rfl, rfl, rfl⟩

/-! ## Tiled `get` on the example files -/

theorem strideLoop_skip {σ : Type} (halted : σ → Bool) (stride limit : Nat)
    (body : Nat → σ → σ) (fuel i : Nat) (st : σ)
    (h : ¬ (i + stride) % u32Mod ≤ limit) :
    strideLoop halted stride limit body (fuel + 1) i st = some (i, st) := by
  unfold strideLoop
  split
  · rfl
  · simp [h]

theorem countFrom_nil {start n : Nat} (h : n ≤ start) : countFrom start n = [] := by
  unfold countFrom
  rw [Nat.sub_eq_zero_of_le h]
  rfl

theorem LargeImpl.reader_no_rows (fmt : ElemFormat) (uninit : Nat) (m_stream : Stream)
    (dist : Buffer) (rows cols pitch repeat_rows repeat_cols pad_rows pad_cols : Nat)
    (hr : rows % repeat_rows = pad_rows) (hC : repeat_cols ≠ 0)
    (hc : cols % repeat_cols = pad_cols) (hlt : rows < repeat_rows)
    (hw : rows + repeat_rows < u32Mod) (hu : pad_rows ≤ uninit) :
    (LargeImpl.reader fmt uninit m_stream dist rows cols pitch repeat_rows repeat_cols
        pad_rows pad_cols).1.dist = dist := by
  unfold LargeImpl.reader
  rw [if_neg (by omega), if_neg (not_not.mpr hr), if_neg hC, if_neg (not_not.mpr hc)]
  dsimp only
  have e : (0 + repeat_rows) % u32Mod = repeat_rows := by
    rw [Nat.zero_add]; exact Nat.mod_eq_of_lt (by omega)
  have hfuel : loopFuel = 4294967296 + 1 := by decide
  rw [hfuel, strideLoop_skip _ _ _ _ _ _ _ (by rw [e]; omega), countFrom_nil hu]
  rfl

/-- C2 (defect): `fileC2` is a valid tiled file with the large header
`(1, 1, 6291456)` whose descriptor satisfies the tiling invariant for both operands.
Its LHS is the single corner element `pad_bottom_right[0][0] = 7.0`.  The call of
`get` completes, and element 0 of the LHS buffer is then the value decoded from two
bytes of the stored `pad_bottom` block (`16384` units of `2^(-149)`) when the counter
`row_in_padding` starts at 0, and the untouched initial buffer content otherwise;
never 7.0. -/
theorem tiled_get_corner_mismatch (uninit : Nat) :
    isLarge 1 1 6291456 = true
    ∧ Reader.construct_from_file fileC2 = some readerC2
    ∧ LargeImpl.readFields readerC2.m_stream = (some fieldsC2, ⟨fileC2, 40, false⟩)
    ∧ lhsInvariant fieldsC2 1 1 ∧ rhsInvariant fieldsC2 1 6291456
    ∧ specTiled float32 fileC2 40 1 1 2 2 1 1 0 0 = f32 7
    ∧ (Reader.get float32 uninit readerC2 zeros zeros 1 6291456).fault = none
    ∧ (Reader.get float32 uninit readerC2 zeros zeros 1 6291456).lhs 0
        = (if uninit = 0 then Element.fin 16384 else Element.zero)
    ∧ Element.fin 16384 ≠ f32 7 ∧ Element.zero ≠ f32 7 := by
  have hd : LargeImpl.readFields readerC2.m_stream = (some fieldsC2, ⟨fileC2, 40, false⟩) := by
    decide
  have hl : lhsInvariant fieldsC2 1 1 := by unfold lhsInvariant; decide
  have hr : rhsInvariant fieldsC2 1 6291456 := by unfold rhsInvariant; decide
  refine ⟨by decide, by decide, hd, hl, hr, by decide, ?_, ?_, by decide, by decide⟩
  · exact LargeImpl.get_completes float32 uninit readerC2.m_stream zeros zeros 1 1 6291456
      1 6291456 fieldsC2 _ hd (by decide) (by decide) (by decide) hl hr (by decide)
      (by decide) (by decide)
  · rcases uninit with _ | n
    · decide
    · have e : (Reader.get float32 (n + 1) readerC2 zeros zeros 1 6291456).lhs
          = (LargeImpl.reader float32 (n + 1) ⟨fileC2, 40, false⟩ zeros 1 1 1 2 2 1 1).1.dist := by
        show (LargeImpl.get float32 (n + 1) readerC2.m_stream zeros zeros 1 1 6291456
          1 6291456).lhs = _
        rw [LargeImpl.get_of_fields float32 (n + 1) readerC2.m_stream zeros zeros 1 1 6291456
          1 6291456 fieldsC2 _ hd]
        split <;> rfl
      rw [e, LargeImpl.reader_no_rows float32 (n + 1) _ zeros 1 1 1 2 2 1 1 (by decide)
        (by decide) (by decide) (by decide) (by decide) (by omega)]
      rfl

/-- C10 (counterexample): in `fileC10` the LHS fields satisfy the tiling invariant
and the RHS fields violate it (`6291456 mod 1 = 0`, stored `rhs_pad_cols = 5`).  The
call of `get` ends in the assertion failure, yet element 0 of the LHS buffer, 0.0
before the call, has been overwritten by then: the RHS check comes after the LHS has
been written. -/
theorem get_rhs_check_after_lhs_written :
    Reader.construct_from_file fileC10 = some readerC10
    ∧ LargeImpl.readFields readerC10.m_stream = (some fieldsC10, ⟨fileC10, 40, false⟩)
    ∧ (1 % fieldsC10.lhs_repeat_rows = fieldsC10.lhs_pad_rows
        ∧ 1 % fieldsC10.lhs_repeat_cols = fieldsC10.lhs_pad_cols)
    ∧ 6291456 % fieldsC10.rhs_repeat_cols ≠ fieldsC10.rhs_pad_cols
    ∧ (Reader.get float32 0 readerC10 zeros zeros 1 6291456).fault = some Fault.assertion
    ∧ zeros 0 = Element.fin 0
    ∧ (Reader.get float32 0 readerC10 zeros zeros 1 6291456).lhs 0 = Element.fin 16384 := by
  decide

theorem tiling_invariant_checked_witness :
    ((LargeImpl.get float32 0 readerC10.m_stream zeros zeros 1 1 6291456 1 6291456).fault
        = some Fault.assertion
      ∨ (LargeImpl.get float32 0 readerC10.m_stream zeros zeros 1 1 6291456 1 6291456).fault
        = some Fault.diverges)
    ∧ (LargeImpl.score float32 ⟨0, 0, 0⟩ 0 readerC10.m_stream zeros 1 1 6291456 6291456
        true).scan.fault = some Fault.assertion
    ∧ lhsInvariant fieldsC2 1 1 :=
  ⟨((tiling_invariant_checked float32 ⟨0, 0, 0⟩ 0 readerC10.m_stream zeros zeros zeros
      1 1 6291456 1 6291456 6291456 true fieldsC10 ⟨fileC10, 40, false⟩ answerFieldsC10
      ⟨fileC10, 40, false⟩ (by decide) (by decide) (by decide) (by decide) (by decide)
      (by decide) (by decide)).2.2.1
      (by unfold lhsInvariant; decide) (by unfold rhsInvariant; decide)).1,
   ((tiling_invariant_checked float32 ⟨0, 0, 0⟩ 0 readerC10.m_stream zeros zeros zeros
      1 1 6291456 1 6291456 6291456 true fieldsC10 ⟨fileC10, 40, false⟩ answerFieldsC10
      ⟨fileC10, 40, false⟩ (by decide) (by decide) (by decide) (by decide) (by decide)
      (by decide) (by decide)).2.2.2.2
      (by unfold answerInvariant; decide)).1,
   ((tiling_invariant_checked float32 ⟨0, 0, 0⟩ 0 readerC2.m_stream zeros zeros zeros
      1 1 6291456 1 6291456 6291456 true fieldsC2 ⟨fileC2, 40, false⟩ ⟨2, 1, 1, 0⟩
      ⟨fileC2, 40, false⟩ (by decide) (by decide) (by decide) (by decide) (by decide)
      (by decide) (by decide)).1
      (LargeImpl.get_completes float32 0 readerC2.m_stream zeros zeros 1 1 6291456
        1 6291456 fieldsC2 ⟨fileC2, 40, false⟩ (by decide) (by decide) (by decide) (by decide)
        (by unfold lhsInvariant; decide) (by unfold rhsInvariant; decide) (by decide)
        (by decide) (by decide))).1⟩

/-! ## Invariants of both scans, for any callback -/

theorem RegularImpl.scoreBody_inv_dense (P : Scan → Prop) (violation_callback : Bool)
    (hfault : ∀ sc f, P sc → P { sc with fault := f })
    (hcalls : ∀ sc l, P sc → P { sc with calls := l })
    (hcmp : ∀ sc row col c a, P sc → P (sc.compare row col c a).2)
    (sc : Scan) (row col : Nat) (calced_elem : Element) (answer_elem : Option Element)
    (h : P sc) :
    P (RegularImpl.scoreBody violation_callback sc row col calced_elem answer_elem) := by
  unfold RegularImpl.scoreBody
  split
  · exact h
  · exact hfault _ _ h
  · dsimp only
    split
    · unfold Scan.call
      split
      · exact hcalls _ _ (hcmp sc row col calced_elem _ h)
      · exact hfault _ _ (hcmp sc row col calced_elem _ h)
    · exact hcmp sc row col calced_elem _ h

theorem LargeImpl.scoreBody_inv (P : Scan → Prop) (violation_callback : Bool)
    (hfault : ∀ sc f, P sc → P { sc with fault := f })
    (hcalls : ∀ sc l, P sc → P { sc with calls := l })
    (hcmp : ∀ sc row col c a, P sc → P (sc.compare row col c a).2)
    (sc : Scan) (row col : Nat) (calced_elem : Element) (answer_elem : Option Element)
    (h : P sc) :
    P (LargeImpl.scoreBody violation_callback sc row col calced_elem answer_elem) := by
  unfold LargeImpl.scoreBody
  split
  · exact h
  · exact hfault _ _ h
  · dsimp only
    split
    · unfold Scan.call
      split
      · exact hcalls _ _ (hcmp sc row col calced_elem _ h)
      · exact hfault _ _ (hcmp sc row col calced_elem _ h)
    · exact hcmp sc row col calced_elem _ h

theorem LargeImpl.scoreRow_inv (P : Scan → Prop) (violation_callback : Bool)
    (hfault : ∀ sc f, P sc → P { sc with fault := f })
    (hcalls : ∀ sc l, P sc → P { sc with calls := l })
    (hcmp : ∀ sc row col c a, P sc → P (sc.compare row col c a).2)
    (uninit : Nat) (calced : Buffer) (block pad_right : Block)
    (k line rows cols pitch repeat_cols : Nat) (sc : Scan) (h : P sc) :
    P (LargeImpl.scoreRow uninit violation_callback calced block pad_right k line rows cols
      pitch repeat_cols sc) := by
  unfold LargeImpl.scoreRow
  split
  · exact hfault _ _ h
  · next col c hc =>
    have hcP : P c := by
      refine strideLoop_inv P _ _ _ _ ?_ _ _ _ h _ _ hc
      intro i st hst
      refine foldl_inv P _ ?_ _ _ hst
      intro st x hx
      exact LargeImpl.scoreBody_inv P violation_callback hfault hcalls hcmp st _ _ _ _ hx
    refine foldl_inv P _ ?_ _ _ hcP
    intro st x hx
    exact LargeImpl.scoreBody_inv P violation_callback hfault hcalls hcmp st _ _ _ _ hx

theorem LargeImpl.scoreWalk_inv (P : Scan → Prop) (violation_callback : Bool)
    (hfault : ∀ sc f, P sc → P { sc with fault := f })
    (hcalls : ∀ sc l, P sc → P { sc with calls := l })
    (hcmp : ∀ sc row col c a, P sc → P (sc.compare row col c a).2)
    (uninit : Nat) (calced : Buffer) (rep pad_bottom pad_right : Block)
    (rows cols pitch repeat_rows repeat_cols pad_rows : Nat) (sc : Scan) (h : P sc) :
    P (LargeImpl.scoreWalk uninit violation_callback calced rep pad_bottom pad_right rows cols
      pitch repeat_rows repeat_cols pad_rows sc) := by
  unfold LargeImpl.scoreWalk
  split
  · exact hfault _ _ h
  · next row c hc =>
    have hcP : P c := by
      refine strideLoop_inv P _ _ _ _ ?_ _ _ _ h _ _ hc
      intro i st hst
      refine foldl_inv P _ ?_ _ _ hst
      intro st x hx
      exact LargeImpl.scoreRow_inv P violation_callback hfault hcalls hcmp uninit calced
        _ _ _ _ _ _ _ _ st hx
    refine foldl_inv P _ ?_ _ _ hcP
    intro st x hx
    exact LargeImpl.scoreRow_inv P violation_callback hfault hcalls hcmp uninit calced
      _ _ _ _ _ _ _ _ st hx

theorem RegularImpl.score_inv_dense (P : Scan → Prop)
    (hfault : ∀ sc f, P sc → P { sc with fault := f })
    (hcalls : ∀ sc l, P sc → P { sc with calls := l })
    (hcmp : ∀ sc row col c a, P sc → P (sc.compare row col c a).2)
    (fmt : ElemFormat) (cfg : Config) (m_stream : Stream) (calced : Buffer)
    (lhs_rows lhs_cols rhs_cols pitch : Nat) (violation_callback : Bool)
    (h : P { result := create_result fmt cfg lhs_cols, calls := [], scored := [],
             fault := none }) :
    P (RegularImpl.score fmt cfg m_stream calced lhs_rows lhs_cols rhs_cols pitch
      violation_callback).scan := by
  unfold RegularImpl.score
  dsimp only
  refine foldl_inv P _ ?_ _ _ h
  intro st row hst
  refine foldl_inv P _ ?_ _ _ hst
  intro st col hx
  exact RegularImpl.scoreBody_inv_dense P violation_callback hfault hcalls hcmp st _ _ _ _ hx

theorem LargeImpl.score_inv (P : Scan → Prop)
    (hfault : ∀ sc f, P sc → P { sc with fault := f })
    (hcalls : ∀ sc l, P sc → P { sc with calls := l })
    (hcmp : ∀ sc row col c a, P sc → P (sc.compare row col c a).2)
    (fmt : ElemFormat) (cfg : Config) (uninit : Nat) (m_stream : Stream) (calced : Buffer)
    (lhs_rows lhs_cols rhs_cols pitch : Nat) (violation_callback : Bool)
    (h : P { result := create_result fmt cfg lhs_cols, calls := [], scored := [],
             fault := none })
    (hd : ∀ f, P (Scan.faulted f)) :
    P (LargeImpl.score fmt cfg uninit m_stream calced lhs_rows lhs_cols rhs_cols pitch
      violation_callback).scan := by
  unfold LargeImpl.score
  dsimp only
  split
  · split
    · exact hd _
    · split
      · exact hd _
      · split
        · exact hd _
        · split
          · exact hd _
          · exact LargeImpl.scoreWalk_inv P violation_callback hfault hcalls hcmp uninit calced
              _ _ _ _ _ _ _ _ _ _ h
  · exact hd _

/-! ## Counters and running maximum over a sequence of comparisons -/

theorem looseViolated_of_strict (L T c a : Element) (h : strictViolated T c a = true) :
    looseViolated L T c a = true := by
  unfold looseViolated
  simp [h]

theorem score_element_counters (r : Result) (c a : Element)
    (h : r.strict_violations ≤ r.loose_violations) :
    (score_element r c a).2.strict_violations ≤ (score_element r c a).2.loose_violations
    ∧ (score_element r c a).2.loose_violations ≤ r.loose_violations + 1 := by
  rw [score_element_strict_violations, score_element_loose_violations]
  cases hs : strictViolated r.strict_standard c a
  · cases looseViolated r.loose_standard r.strict_standard c a <;> simp <;> omega
  · rw [looseViolated_of_strict _ _ _ _ hs]
    simp
    omega

theorem scoreAll_counters (pairs : List (Element × Element)) :
    ∀ r : Result, r.strict_violations ≤ r.loose_violations →
      (scoreAll r pairs).strict_violations ≤ (scoreAll r pairs).loose_violations
      ∧ (scoreAll r pairs).loose_violations ≤ r.loose_violations + pairs.length := by
  induction pairs with
  | nil => intro r h; exact ⟨h, Nat.le_refl _⟩
  | cons p ps ih =>
    intro r h
    have hc := score_element_counters r p.1 p.2 h
    have hi := ih (score_element r p.1 p.2).2 hc.1
    have e : scoreAll r (p :: ps) = scoreAll (score_element r p.1 p.2).2 ps := rfl
    rw [e]
    refine ⟨hi.1, ?_⟩
    simp only [List.length_cons]
    omega

theorem Scan.counted_compare (sc : Scan) (row col : Nat) (c a : Element) (h : sc.Counted) :
    (sc.compare row col c a).2.Counted := by
  unfold Scan.Counted Scan.compare
  have hc := score_element_counters sc.result c a h.1
  dsimp only
  refine ⟨hc.1, ?_⟩
  simp only [List.length_append, List.length_singleton]
  have := h.2
  omega

theorem Scan.counted_init (r : Result) (h0 : r.strict_violations = 0)
    (h1 : r.loose_violations = 0) :
    Scan.Counted { result := r, calls := [], scored := [], fault := none } := by
  unfold Scan.Counted
  simp [h0, h1]

/-- C19: from a fresh `Result`, after any finite sequence of `score_element` calls
and whatever the two thresholds are, `strict_violations` is at most `loose_violations`,
which is at most the number of calls; and for every input of either `score`, with or
without a callback, the `Result` it holds at its end satisfies the same two bounds,
the number of calls being the number of comparisons made. -/
theorem counters_ordered (loose_standard strict_standard : Element)
    (pairs : List (Element × Element)) (fmt : ElemFormat) (cfg : Config) (uninit : Nat)
    (m_stream : Stream) (calced : Buffer) (lhs_rows lhs_cols rhs_cols pitch : Nat)
    (violation_callback : Bool) :
    ((scoreAll (Result.fresh loose_standard strict_standard) pairs).strict_violations
        ≤ (scoreAll (Result.fresh loose_standard strict_standard) pairs).loose_violations
      ∧ (scoreAll (Result.fresh loose_standard strict_standard) pairs).loose_violations
        ≤ pairs.length)
    ∧ (RegularImpl.score fmt cfg m_stream calced lhs_rows lhs_cols rhs_cols pitch
        violation_callback).scan.Counted
    ∧ (LargeImpl.score fmt cfg uninit m_stream calced lhs_rows lhs_cols rhs_cols pitch
        violation_callback).scan.Counted := by
  refine ⟨?_, ?_, ?_⟩
  · have h := scoreAll_counters pairs (Result.fresh loose_standard strict_standard)
      (Nat.le_refl _)
    refine ⟨h.1, ?_⟩
    have h2 := h.2
    simp only [Result.fresh, Nat.zero_add] at h2
    exact h2
  · exact RegularImpl.score_inv_dense Scan.Counted (fun _ _ h => h) (fun _ _ h => h)
      Scan.counted_compare fmt cfg m_stream calced lhs_rows lhs_cols rhs_cols pitch
      violation_callback (Scan.counted_init _ rfl rfl)
  · exact LargeImpl.score_inv Scan.Counted (fun _ _ h => h) (fun _ _ h => h)
      Scan.counted_compare fmt cfg uninit m_stream calced lhs_rows lhs_cols rhs_cols pitch
      violation_callback (Scan.counted_init _ rfl rfl)
      (fun f => Scan.counted_init _ rfl rfl)

theorem scoreAll_max_difference (pairs : List (Element × Element)) :
    ∀ r : Result, (scoreAll r pairs).max_difference
      = pairs.foldl (fun m p => Element.max (diffOf p.1 p.2) m) r.max_difference := by
  induction pairs with
  | nil => intro r; rfl
  | cons p ps ih =>
    intro r
    have e : scoreAll r (p :: ps) = scoreAll (score_element r p.1 p.2).2 ps := rfl
    rw [e, ih, score_element_max_difference]
    rfl

/-- C16 (defect): starting from a fresh `Result`, whatever the thresholds, the calls
`score_element(5, 0)`, `score_element(NaN, 0)`, `score_element(1, 0)` leave
`max_difference` at 5, then NaN, then 1: the value after the sequence is 1 although
the difference 5 was seen, and 1 is below 5. -/
theorem max_difference_lost_after_nan (loose_standard strict_standard : Element) :
    (scoreAll (Result.fresh loose_standard strict_standard)
        [(f32 5, f32 0)]).max_difference = f32 5
    ∧ (scoreAll (Result.fresh loose_standard strict_standard)
        [(f32 5, f32 0), (Element.nan, f32 0)]).max_difference = Element.nan
    ∧ (scoreAll (Result.fresh loose_standard strict_standard)
        [(f32 5, f32 0), (Element.nan, f32 0), (f32 1, f32 0)]).max_difference = f32 1
    ∧ diffOf (f32 5) (f32 0) = f32 5
    ∧ Element.lt (f32 1) (f32 5) = true := by
  refine ⟨?_, ?_, ?_, by decide, by decide⟩
  · rw [scoreAll_max_difference]
    show List.foldl (fun m p => Element.max (diffOf p.1 p.2) m) Element.zero
      [(f32 5, f32 0)] = f32 5
    decide
  · rw [scoreAll_max_difference]
    show List.foldl (fun m p => Element.max (diffOf p.1 p.2) m) Element.zero
      [(f32 5, f32 0), (Element.nan, f32 0)] = Element.nan
    decide
  · rw [scoreAll_max_difference]
    show List.foldl (fun m p => Element.max (diffOf p.1 p.2) m) Element.zero
      [(f32 5, f32 0), (Element.nan, f32 0), (f32 1, f32 0)] = f32 1
    decide

/-! ## Threshold derivation -/

theorem ElemFormat.ofNat_exact (fmt : ElemFormat) (K : Nat) (hK : K < 2 ^ fmt.digits)
    (hfmt : fmt.digits ≤ fmt.maxExp) :
    fmt.ofNat K = Element.fin (Int.ofNat (K * 2 ^ fmt.minExp)) := by
  have hhi : K * 2 ^ fmt.minExp < 2 ^ (fmt.maxExp + fmt.minExp) := by
    rw [Nat.pow_add]
    exact Nat.mul_lt_mul_of_pos_right
      (Nat.lt_of_lt_of_le hK (Nat.pow_le_pow_right (by decide) hfmt)) (Nat.two_pow_pos _)
  have h := ElemFormat.roundMag_exact fmt K fmt.minExp 0 hK hhi
  rw [Nat.pow_zero, Nat.mul_one] at h
  unfold ElemFormat.ofNat ElemFormat.round
  rw [show (Int.ofNat (K * 2 ^ fmt.minExp)).natAbs = K * 2 ^ fmt.minExp from rfl, h]
  dsimp only
  have hnn : ¬ (Int.ofNat (K * 2 ^ fmt.minExp) < 0) :=
    Int.not_lt.mpr (Int.ofNat_nonneg _)
  rw [if_neg hnn]

theorem ElemFormat.mul_ofNat_exp2 (fmt : ElemFormat) (K : Nat) (x : Int)
    (h : fmt.ExactProduct K x) :
    fmt.mul (fmt.ofNat K) (fmt.exp2 x)
      = Element.fin (Int.ofNat (K * 2 ^ (x + fmt.minExp).toNat)) := by
  obtain ⟨hK, hfmt, hlo, hx, hhi⟩ := h
  have h2 : fmt.exp2 x = Element.fin (Int.ofNat (2 ^ (x + fmt.minExp).toNat)) := by
    unfold ElemFormat.exp2
    rw [if_neg (by omega), if_neg (by omega)]
  rw [ElemFormat.ofNat_exact fmt K hK hfmt, h2]
  have hr := ElemFormat.roundMag_exact fmt K (x + fmt.minExp).toNat fmt.minExp hK hhi
  have hp : Int.ofNat (K * 2 ^ fmt.minExp) * Int.ofNat (2 ^ (x + fmt.minExp).toNat)
      = Int.ofNat (K * 2 ^ (x + fmt.minExp).toNat * 2 ^ fmt.minExp) := by
    simp only [Int.ofNat_eq_coe]
    push_cast
    ring
  show fmt.round (Int.ofNat (K * 2 ^ fmt.minExp) * Int.ofNat (2 ^ (x + fmt.minExp).toNat))
    fmt.minExp = _
  rw [hp]
  unfold ElemFormat.round
  rw [show (Int.ofNat (K * 2 ^ (x + fmt.minExp).toNat * 2 ^ fmt.minExp)).natAbs
    = K * 2 ^ (x + fmt.minExp).toNat * 2 ^ fmt.minExp from rfl, hr]
  dsimp only
  have hnn : ¬ (Int.ofNat (K * 2 ^ (x + fmt.minExp).toNat * 2 ^ fmt.minExp) < 0) :=
    Int.not_lt.mpr (Int.ofNat_nonneg _)
  rw [if_neg hnn]

theorem value_of_units (fmt : ElemFormat) (K : Nat) (x : Int) (h : 0 ≤ x + fmt.minExp) :
    fmt.value (Element.fin (Int.ofNat (K * 2 ^ (x + fmt.minExp).toNat)))
      = some ((K : ℚ) * (2 : ℚ) ^ x) := by
  simp only [ElemFormat.value, Option.some.injEq]
  have h2 : (((2 : Nat) ^ (x + fmt.minExp).toNat : Nat) : ℚ)
      = (2 : ℚ) ^ (x + (fmt.minExp : Int)) := by
    have e : ((x + fmt.minExp).toNat : Int) = x + fmt.minExp := Int.toNat_of_nonneg h
    generalize (x + fmt.minExp).toNat = n at e ⊢
    rw [← e, zpow_natCast]
    simp
  simp only [Int.ofNat_eq_coe]
  push_cast at h2 ⊢
  rw [h2, mul_assoc, ← zpow_add₀ (by norm_num : (2 : ℚ) ≠ 0)]
  simp

theorem Scan.standards_compare (L T : Element) (sc : Scan) (row col : Nat) (c a : Element)
    (h : sc.Standards L T) : (sc.compare row col c a).2.Standards L T := by
  unfold Scan.Standards Scan.compare
  dsimp only
  rw [score_element_loose_standard, score_element_strict_standard]
  exact h

theorem LargeImpl.score_standards (fmt : ElemFormat) (cfg : Config) (uninit : Nat)
    (m_stream : Stream) (calced : Buffer) (lhs_rows lhs_cols rhs_cols pitch : Nat)
    (violation_callback : Bool) :
    (∃ f, (LargeImpl.score fmt cfg uninit m_stream calced lhs_rows lhs_cols rhs_cols pitch
        violation_callback).scan = Scan.faulted f)
    ∨ (LargeImpl.score fmt cfg uninit m_stream calced lhs_rows lhs_cols rhs_cols pitch
        violation_callback).scan.Standards (create_result fmt cfg lhs_cols).loose_standard
          (create_result fmt cfg lhs_cols).strict_standard := by
  unfold LargeImpl.score
  dsimp only
  split
  · split_ifs
    · exact Or.inl ⟨_, rfl⟩
    · exact Or.inl ⟨_, rfl⟩
    · exact Or.inl ⟨_, rfl⟩
    · exact Or.inl ⟨_, rfl⟩
    · exact Or.inr (LargeImpl.scoreWalk_inv
        (Scan.Standards (create_result fmt cfg lhs_cols).loose_standard
          (create_result fmt cfg lhs_cols).strict_standard)
        violation_callback (fun _ _ h => h) (fun _ _ h => h)
        (Scan.standards_compare _ _) uninit calced _ _ _ _ _ _ _ _ _ _ ⟨rfl, rfl⟩)
  · exact Or.inl ⟨_, rfl⟩

theorem leValue_le32 (n : Nat) (h : n < u32Mod) : leValue (le32 n) = n := by
  unfold u32Mod at h
  simp only [le32, leValue]
  omega

theorem construct_from_header (a b c : Nat) (rest : List Nat)
    (ha : a < u32Mod) (hb : b < u32Mod) (hc : c < u32Mod) :
    Reader.construct_from_file (le32 a ++ le32 b ++ le32 c ++ rest)
      = some { m_lhs_rows := a, m_lhs_cols := b, m_rhs_cols := c
               pimpl := if isLarge a b c then Impl.LargeImpl else Impl.RegularImpl
               m_stream := { bytes := le32 a ++ le32 b ++ le32 c ++ rest, pos := 12
                             failed := false } } := by
  have e1 := leValue_le32 a ha
  have e2 := leValue_le32 b hb
  have e3 := leValue_le32 c hc
  simp only [le32] at e1 e2 e3
  simp [Reader.construct_from_file, Stream.ofBytes, Stream.readU32, Stream.read, le32,
    e1, e2, e3]

/-- C13: for a file whose first 12 bytes are the little-endian encodings of the 32-bit
values `a`, `b`, `c`, the constructed reader reports `lhs_rows = a`, `lhs_cols = b`,
`rhs_rows = b`, `rhs_cols = c`; it holds the tiled implementation exactly when
`isLarge a b c` is true and the dense one otherwise; and every call of `get` and of
`score` is the call of that implementation with the dimensions `a`, `b`, `c`. -/
theorem reader_construction (a b c : Nat) (rest : List Nat)
    (ha : a < u32Mod) (hb : b < u32Mod) (hc : c < u32Mod) :
    ∃ rd, Reader.construct_from_file (le32 a ++ le32 b ++ le32 c ++ rest) = some rd
      ∧ rd.lhs_rows = a ∧ rd.lhs_cols = b ∧ rd.rhs_rows = b ∧ rd.rhs_cols = c
      ∧ (rd.pimpl = Impl.LargeImpl ↔ isLarge a b c = true)
      ∧ (rd.pimpl = Impl.RegularImpl ↔ isLarge a b c = false)
      ∧ (∀ (fmt : ElemFormat) (uninit : Nat) (lhs rhs : Buffer) (lhs_pitch rhs_pitch : Nat),
          Reader.get fmt uninit rd lhs rhs lhs_pitch rhs_pitch
            = if isLarge a b c then
                LargeImpl.get fmt uninit rd.m_stream lhs rhs a b c lhs_pitch rhs_pitch
              else RegularImpl.get fmt rd.m_stream lhs rhs a b c lhs_pitch rhs_pitch)
      ∧ (∀ (fmt : ElemFormat) (cfg : Config) (uninit : Nat) (calced : Buffer) (pitch : Nat)
          (violation_callback : Bool),
          Reader.score fmt cfg uninit rd calced pitch violation_callback
            = if isLarge a b c then
                LargeImpl.score fmt cfg uninit rd.m_stream calced a b c pitch
                  violation_callback
              else RegularImpl.score fmt cfg rd.m_stream calced a b c pitch
                  violation_callback) := by
  refine ⟨_, construct_from_header a b c rest ha hb hc, rfl, rfl, rfl, rfl, ?_, ?_, ?_, ?_⟩
  · cases isLarge a b c <;> simp
  · cases isLarge a b c <;> simp
  · intro fmt uninit lhs rhs lhs_pitch rhs_pitch
    unfold Reader.get
    cases isLarge a b c <;> rfl
  · intro fmt cfg uninit calced pitch violation_callback
    unfold Reader.score
    cases isLarge a b c <;> rfl

theorem reader_construction_witness :
    ∃ rd, Reader.construct_from_file (le32 2 ++ le32 2 ++ le32 2 ++ []) = some rd
      ∧ rd.lhs_rows = 2 ∧ rd.rhs_rows = 2 ∧ rd.pimpl = Impl.RegularImpl :=
  match reader_construction 2 2 2 [] (by decide) (by decide) (by decide) with
  | ⟨rd, h1, h2, _, h4, _, _, h7, _, _⟩ => ⟨rd, h1, h2, h4, h7.mpr (by decide)⟩

/-! ## Construction from a directory -/

/-- C14: with a random source that returns a value within the bounds it is given,
constructing a reader from a directory throws `EmptyDirectory` exactly when no entry
is a regular file; when there is a regular file, the constructor opens one of the
regular files of the directory; and when exactly one entry is a regular file, the
result is the result of constructing the reader from that file directly. -/
theorem directory_construction (es : List DirEntry) (device : RandomDevice)
    (hdev : ∀ hi, device.draw hi ≤ hi) :
    (Reader.new (FsPath.directory es) device = Except.error Thrown.EmptyDirectory
        ↔ ∀ e ∈ es, e.is_regular_file = false)
    ∧ ((∃ e ∈ es, e.is_regular_file = true) →
        ∃ e ∈ es, e.is_regular_file = true
          ∧ Reader.new (FsPath.directory es) device
              = Except.ok (Reader.construct_from_file e.bytes))
    ∧ (∀ f, es.filter (fun entry => entry.is_regular_file) = [f] →
        Reader.new (FsPath.directory es) device = Reader.new (FsPath.file f.bytes) device) := by
  have hget : ∀ l : List DirEntry, l ≠ [] → ∃ e, l.get? (device.draw (l.length - 1)) = some e := by
    intro l hl
    have hpos : 0 < l.length := List.length_pos.mpr hl
    have hlt : device.draw (l.length - 1) < l.length := by
      have := hdev (l.length - 1)
      omega
    exact ⟨l.get ⟨_, hlt⟩, List.get?_eq_get hlt⟩
  refine ⟨?_, ?_, ?_⟩
  · unfold Reader.new
    dsimp only
    constructor
    · intro h e he
      by_cases hemp : (es.filter (fun entry => entry.is_regular_file)).isEmpty = true
      · have hnil : es.filter (fun entry => entry.is_regular_file) = [] :=
          List.isEmpty_iff.mp hemp
        cases hr : e.is_regular_file
        · rfl
        · have : e ∈ es.filter (fun entry => entry.is_regular_file) :=
            List.mem_filter.mpr ⟨he, hr⟩
          rw [hnil] at this
          simp at this
      · rw [if_neg hemp] at h
        obtain ⟨x, hx⟩ := hget (es.filter (fun entry => entry.is_regular_file))
          (fun hn => hemp (List.isEmpty_iff.mpr hn))
        rw [hx] at h
        simp at h
    · intro h
      have hnil : es.filter (fun entry => entry.is_regular_file) = [] := by
        rw [List.filter_eq_nil_iff]
        intro e he
        simp [h e he]
      rw [hnil]
      rfl
  · rintro ⟨e, he, hr⟩
    have hne : es.filter (fun entry => entry.is_regular_file) ≠ [] := by
      intro hn
      have : e ∈ es.filter (fun entry => entry.is_regular_file) :=
        List.mem_filter.mpr ⟨he, hr⟩
      rw [hn] at this
      simp at this
    obtain ⟨x, hx⟩ := hget _ hne
    have hxm : x ∈ es.filter (fun entry => entry.is_regular_file) :=
      List.get?_mem hx
    refine ⟨x, (List.mem_filter.mp hxm).1, (List.mem_filter.mp hxm).2, ?_⟩
    unfold Reader.new
    dsimp only
    rw [if_neg (by simpa [List.isEmpty_iff] using hne), hx]
  · intro f hf
    have h0 : device.draw 0 = 0 := Nat.le_zero.mp (hdev 0)
    unfold Reader.new
    dsimp only
    rw [hf]
    simp [h0]

theorem directory_construction_witness :
    Reader.new (FsPath.directory [⟨false, []⟩, ⟨true, fileC7⟩]) ⟨fun _ => 0⟩
        = Reader.new (FsPath.file fileC7) ⟨fun _ => 0⟩
    ∧ Reader.new (FsPath.directory [⟨false, []⟩]) ⟨fun _ => 0⟩
        = Except.error Thrown.EmptyDirectory :=
  ⟨(directory_construction [⟨false, []⟩, ⟨true, fileC7⟩] ⟨fun _ => 0⟩
      (fun _ => Nat.zero_le _)).2.2 ⟨true, fileC7⟩ (by decide),
   (directory_construction [⟨false, []⟩] ⟨fun _ => 0⟩ (fun _ => Nat.zero_le _)).1.mpr
      (by decide)⟩

/-! ## The comparisons made do not depend on the threshold constants -/

theorem RegularImpl.scoreBody_sameTrace (sc sc' : Scan) (row col : Nat) (calced_elem : Element)
    (answer_elem : Option Element) (h : sc.SameTrace sc') :
    (RegularImpl.scoreBody true sc row col calced_elem answer_elem).SameTrace
      (RegularImpl.scoreBody true sc' row col calced_elem answer_elem) := by
  obtain ⟨h1, h2⟩ := h
  rcases hf : sc.fault with _ | f
  · have hf' : sc'.fault = none := by rw [← h1, hf]
    rcases answer_elem with _ | a
    · unfold RegularImpl.scoreBody
      rw [hf, hf']
      exact ⟨rfl, h2⟩
    · rw [RegularImpl.scoreBody_some sc row col calced_elem a hf,
        RegularImpl.scoreBody_some sc' row col calced_elem a hf']
      exact ⟨rfl, by dsimp only; rw [h2]⟩
  · have hf' : sc'.fault = some f := by rw [← h1, hf]
    unfold RegularImpl.scoreBody
    rw [hf, hf']
    exact ⟨by rw [hf, hf'], h2⟩

theorem LargeImpl.scoreRow_sameTrace (uninit : Nat) (calced : Buffer)
    (block pad_right : Block) (k line rows cols pitch repeat_cols : Nat) (sc sc' : Scan)
    (h : sc.SameTrace sc') :
    (LargeImpl.scoreRow uninit true calced block pad_right k line rows cols pitch
      repeat_cols sc).SameTrace
    (LargeImpl.scoreRow uninit true calced block pad_right k line rows cols pitch
      repeat_cols sc') := by
  unfold LargeImpl.scoreRow
  rcases strideLoop_rel Scan.SameTrace (fun (c : Scan) => c.fault.isSome) repeat_cols cols
    (fun col c =>
      (countFrom uninit repeat_cols).foldl (fun c col_in_repetition =>
        LargeImpl.scoreBody true c line ((col + col_in_repetition) % u32Mod)
          (calced (line * pitch + (col + col_in_repetition) % u32Mod))
          (block.get? (k * rows + col_in_repetition))) c)
    (fun col c =>
      (countFrom uninit repeat_cols).foldl (fun c col_in_repetition =>
        LargeImpl.scoreBody true c line ((col + col_in_repetition) % u32Mod)
          (calced (line * pitch + (col + col_in_repetition) % u32Mod))
          (block.get? (k * rows + col_in_repetition))) c)
    (fun s s' hR => by dsimp only; rw [hR.1])
    (fun i s s' hR => by
      dsimp only
      refine foldl_rel Scan.SameTrace _ _ ?_ _ s s' hR
      intro s s' x hx
      rw [LargeImpl.scoreBody_true, LargeImpl.scoreBody_true]
      exact RegularImpl.scoreBody_sameTrace s s' _ _ _ _ hx)
    loopFuel 0 sc sc' h with ⟨e1, e2⟩ | ⟨c, t, t', e1, e2, hR⟩
  · rw [e1, e2]
    exact ⟨rfl, h.2⟩
  · rw [e1, e2]
    dsimp only
    refine foldl_rel Scan.SameTrace _ _ ?_ _ t t' hR
    intro s s' x hx
    rw [LargeImpl.scoreBody_true, LargeImpl.scoreBody_true]
    exact RegularImpl.scoreBody_sameTrace s s' _ _ _ _ hx

theorem LargeImpl.scoreWalk_sameTrace (uninit : Nat) (calced : Buffer)
    (rep pad_bottom pad_right : Block) (rows cols pitch repeat_rows repeat_cols pad_rows : Nat)
    (sc sc' : Scan) (h : sc.SameTrace sc') :
    (LargeImpl.scoreWalk uninit true calced rep pad_bottom pad_right rows cols pitch
      repeat_rows repeat_cols pad_rows sc).SameTrace
    (LargeImpl.scoreWalk uninit true calced rep pad_bottom pad_right rows cols pitch
      repeat_rows repeat_cols pad_rows sc') := by
  unfold LargeImpl.scoreWalk
  rcases strideLoop_rel Scan.SameTrace (fun (c : Scan) => c.fault.isSome) repeat_rows rows
    (fun row c =>
      (countFrom uninit repeat_rows).foldl (fun c row_in_repetition =>
        LargeImpl.scoreRow uninit true calced rep pad_right
          row_in_repetition ((row + row_in_repetition) % u32Mod) rows cols pitch
          repeat_cols c) c)
    (fun row c =>
      (countFrom uninit repeat_rows).foldl (fun c row_in_repetition =>
        LargeImpl.scoreRow uninit true calced rep pad_right
          row_in_repetition ((row + row_in_repetition) % u32Mod) rows cols pitch
          repeat_cols c) c)
    (fun s s' hR => by dsimp only; rw [hR.1])
    (fun i s s' hR => by
      dsimp only
      refine foldl_rel Scan.SameTrace _ _ ?_ _ s s' hR
      intro s s' x hx
      exact LargeImpl.scoreRow_sameTrace uninit calced _ _ _ _ _ _ _ _ s s' hx)
    loopFuel 0 sc sc' h with ⟨e1, e2⟩ | ⟨c, t, t', e1, e2, hR⟩
  · rw [e1, e2]
    exact ⟨rfl, h.2⟩
  · rw [e1, e2]
    dsimp only
    refine foldl_rel Scan.SameTrace _ _ ?_ _ t t' hR
    intro s s' x hx
    exact LargeImpl.scoreRow_sameTrace uninit calced _ _ _ _ _ _ _ _ s s' hx

theorem LargeImpl.score_sameTrace (fmt : ElemFormat) (cfg cfg' : Config) (uninit : Nat)
    (m_stream : Stream) (calced : Buffer) (lhs_rows lhs_cols rhs_cols pitch : Nat) :
    (LargeImpl.score fmt cfg uninit m_stream calced lhs_rows lhs_cols rhs_cols pitch
        true).scan.SameTrace
      (LargeImpl.score fmt cfg' uninit m_stream calced lhs_rows lhs_cols rhs_cols pitch
        true).scan := by
  unfold LargeImpl.score
  dsimp only
  split
  · split
    · exact ⟨rfl, rfl⟩
    · split
      · exact ⟨rfl, rfl⟩
      · split
        · exact ⟨rfl, rfl⟩
        · split
          · exact ⟨rfl, rfl⟩
          · exact LargeImpl.scoreWalk_sameTrace uninit calced _ _ _ _ _ _ _ _ _ _ _
              ⟨rfl, rfl⟩
  · exact ⟨rfl, rfl⟩

theorem RegularImpl.score_sameTrace_dense (fmt : ElemFormat) (cfg cfg' : Config)
    (m_stream : Stream) (calced : Buffer) (lhs_rows lhs_cols rhs_cols pitch : Nat) :
    (RegularImpl.score fmt cfg m_stream calced lhs_rows lhs_cols rhs_cols pitch
        true).scan.SameTrace
      (RegularImpl.score fmt cfg' m_stream calced lhs_rows lhs_cols rhs_cols pitch
        true).scan := by
  unfold RegularImpl.score
  dsimp only
  refine foldl_rel Scan.SameTrace _ _ ?_ _ _ _ ⟨rfl, rfl⟩
  intro s s' row hR
  refine foldl_rel Scan.SameTrace _ _ ?_ _ s s' hR
  intro s s' col hx
  exact RegularImpl.scoreBody_sameTrace s s' _ _ _ _ hx

/-! ## Bounds of the dense answer index -/

/-- C20 (defect): on the dense file `fileC20` with header `(2, 1, 1)` the answer array
holds `2 * 1 = 2` elements and the candidate equals the stored answer.  At
`(row, col) = (1, 0)` the scan reads the answer at index `1 * 2 + 0 = 2`, outside the
array: for every choice of the threshold constants the scan ends there, after the
single comparison at `(0, 0)`, and no `Result` is returned. -/
theorem dense_answer_index_out_of_range (cfg : Config) :
    Reader.construct_from_file fileC20 = some readerC20
    ∧ readerC20.pimpl = Impl.RegularImpl
    ∧ (∀ row < 2, ∀ col < 1,
        candC20 (row * 1 + col) = specDenseAnswer float32 fileC20 2 1 1 row col)
    ∧ ¬ (1 * 2 + 0 < 2 * 1)
    ∧ (Reader.score float32 cfg 0 readerC20 candC20 1 true).returned
        = Except.error Fault.outOfBounds
    ∧ (Reader.score float32 cfg 0 readerC20 candC20 1 true).scan.scored
        = [⟨0, 0, f32 3, f32 3⟩] := by
  have h := RegularImpl.score_sameTrace_dense float32 cfg ⟨0, 0, 0⟩ readerC20.m_stream candC20
    2 1 1 1
  have hf : (Reader.score float32 cfg 0 readerC20 candC20 1 true).scan.fault
      = some Fault.outOfBounds := by
    refine h.1.trans ?_
    decide
  refine ⟨by decide, rfl, by decide, by decide, ?_, ?_⟩
  · unfold ScoreOutcome.returned
    rw [hf]
  · refine h.2.trans ?_
    decide

/-! ## Stream positions of the tiled codec -/

/-- C17 (defect): on the valid tiled file `fileC2` the LHS blocks hold 4, 2, 2 and 1
elements of 4 bytes, 36 bytes from byte 40 to byte 76.  The reader lambda consumes
`16 + 2 + 2 + 1 = 21` bytes and leaves the stream at byte 61; the whole of `get` ends
at byte 70, while the RHS section ends at byte 88.  The `pad_bottom` array, stored as
`2.0, 2.0`, holds `0.0, 0.0` after its read of 2 bytes. -/
theorem tiled_padding_reads_count_bytes :
    LargeImpl.readFields readerC2.m_stream = (some fieldsC2, ⟨fileC2, 40, false⟩)
    ∧ 40 + float32.size * (2 * 2 + 1 * 2 + 2 * 1 + 1 * 1) = 76
    ∧ (LargeImpl.reader float32 0 ⟨fileC2, 40, false⟩ zeros 1 1 1 2 2 1 1).2
        = ⟨fileC2, 61, false⟩
    ∧ (Reader.get float32 0 readerC2 zeros zeros 1 6291456).stream = ⟨fileC2, 70, false⟩
    ∧ 76 + float32.size * (2 * 1 + 1 * 1 + 2 * 0 + 1 * 0) = 88
    ∧ specTiled float32 fileC2 40 2 2 2 2 1 0 1 0 = f32 2
    ∧ specTiled float32 fileC2 40 2 2 2 2 1 0 1 1 = f32 2
    ∧ (readArray float32 (readArray float32 ⟨fileC2, 40, false⟩ (2 * 2)
          (float32.size * 2 * 2)).2 (1 * 2) (1 * 2)).1.elems 0 = Element.fin 0
    ∧ (readArray float32 (readArray float32 ⟨fileC2, 40, false⟩ (2 * 2)
          (float32.size * 2 * 2)).2 (1 * 2) (1 * 2)).1.elems 1 = Element.fin 0 := by
  decide

theorem LargeImpl.score_stream_cfg (fmt : ElemFormat) (cfg cfg' : Config) (uninit : Nat)
    (m_stream : Stream) (calced : Buffer) (lhs_rows lhs_cols rhs_cols pitch : Nat)
    (violation_callback : Bool) :
    (LargeImpl.score fmt cfg uninit m_stream calced lhs_rows lhs_cols rhs_cols pitch
        violation_callback).stream
      = (LargeImpl.score fmt cfg' uninit m_stream calced lhs_rows lhs_cols rhs_cols pitch
        violation_callback).stream := by
  unfold LargeImpl.score
  dsimp only
  split
  · split_ifs <;> rfl
  · rfl

/-- C18 (defect): on the valid tiled file `fileC2` the answer section starts at byte
88, after the tiled LHS and RHS sections, and `get` stops at byte 70.  The call of
`score` seeks from byte 40 by the dense operand sizes
`4 * 1 * 1 + 4 * 1 * 6291456 = 25165828` bytes, to byte 25165868, beyond the 100 bytes
of the file, so its four reads deliver nothing and leave the stream failed, whatever
the threshold constants are. -/
theorem tiled_score_seeks_by_dense_sizes (cfg : Config) :
    fileC2.length = 100
    ∧ (Reader.get float32 0 readerC2 zeros zeros 1 6291456).stream.pos = 70
    ∧ 40 + float32.size * (2 * 2 + 1 * 2 + 2 * 1 + 1 * 1)
        + float32.size * (2 * 1 + 1 * 1 + 2 * 0 + 1 * 0) = 88
    ∧ 40 + (float32.size * 1 * 1 + float32.size * 1 * 6291456) = 25165868
    ∧ (Reader.score float32 cfg 0 readerC2 zeros 6291456 true).stream
        = ⟨fileC2, 25165868, true⟩ := by
  refine ⟨by decide, by decide, by decide, by decide, ?_⟩
  have h : (Reader.score float32 cfg 0 readerC2 zeros 6291456 true).stream
      = (Reader.score float32 ⟨0, 0, 0⟩ 0 readerC2 zeros 6291456 true).stream :=
    LargeImpl.score_stream_cfg float32 cfg ⟨0, 0, 0⟩ 0 readerC2.m_stream zeros 1 1 6291456
      6291456 true
  rw [h]
  decide

/-! ## The tiled scoring walk -/

theorem LargeImpl.scoreRow_skip (uninit : Nat) (violation_callback : Bool) (calced : Buffer)
    (block pad_right : Block) (k line rows cols pitch repeat_cols : Nat) (sc : Scan)
    (hu : repeat_cols ≤ uninit) (hC : 0 < repeat_cols) (hw : cols + repeat_cols < u32Mod) :
    LargeImpl.scoreRow uninit violation_callback calced block pad_right k line rows cols
      pitch repeat_cols sc = sc := by
  unfold LargeImpl.scoreRow
  simp only [countFrom_nil hu, List.foldl_nil]
  obtain ⟨c, st', e, hP⟩ := strideLoop_terminates (fun (c : Scan) => c = sc)
    (fun (c : Scan) => c.fault.isSome) repeat_cols cols (fun _ c => c) hC hw
    (fun _ _ h => h) loopFuel 0 sc (Nat.zero_le _)
    (by unfold loopFuel u32Mod at *; omega) rfl
  rw [e]
  exact hP

theorem LargeImpl.scoreWalk_skip (uninit : Nat) (violation_callback : Bool) (calced : Buffer)
    (rep pad_bottom pad_right : Block) (rows cols pitch repeat_rows repeat_cols pad_rows : Nat)
    (sc : Scan) (hu : repeat_cols ≤ uninit) (hC : 0 < repeat_cols)
    (hw : cols + repeat_cols < u32Mod) (hR : 0 < repeat_rows)
    (hwr : rows + repeat_rows < u32Mod) :
    LargeImpl.scoreWalk uninit violation_callback calced rep pad_bottom pad_right rows cols
      pitch repeat_rows repeat_cols pad_rows sc = sc := by
  unfold LargeImpl.scoreWalk
  have hrow : ∀ (block : Block) (l : List Nat) (row : Nat) (st : Scan), st = sc →
      l.foldl (fun c k =>
        LargeImpl.scoreRow uninit violation_callback calced block pad_right k
          ((row + k) % u32Mod) rows cols pitch repeat_cols c) st = sc := by
    intro block l row st hst
    refine foldl_inv (fun (c : Scan) => c = sc) _ ?_ l st hst
    intro st x hx
    rw [LargeImpl.scoreRow_skip uninit violation_callback calced _ _ _ _ _ _ _ _ st hu hC hw]
    exact hx
  obtain ⟨c, st', e, hP⟩ := strideLoop_terminates (fun (c : Scan) => c = sc)
    (fun (c : Scan) => c.fault.isSome) repeat_rows rows
    (fun row c =>
      (countFrom uninit repeat_rows).foldl (fun c row_in_repetition =>
        LargeImpl.scoreRow uninit violation_callback calced rep pad_right
          row_in_repetition ((row + row_in_repetition) % u32Mod) rows cols pitch
          repeat_cols c) c)
    hR hwr (fun i st hst => hrow rep _ i st hst) loopFuel 0 sc (Nat.zero_le _)
    (by unfold loopFuel u32Mod at *; omega) rfl
  rw [e]
  exact hrow pad_bottom _ c st' hP

theorem LargeImpl.score_scan_of_valid (fmt : ElemFormat) (cfg : Config) (uninit : Nat)
    (m_stream : Stream) (calced : Buffer) (lhs_rows lhs_cols rhs_cols pitch : Nat)
    (violation_callback : Bool) (a : AnswerFields) (t : Stream)
    (ha : LargeImpl.readAnswerFields m_stream = (some a, t)) (h4 : 0 < a.repeat_rows)
    (h5 : 0 < a.repeat_cols) (hinv : answerInvariant a lhs_rows rhs_cols) :
    ∃ rep pad_bottom pad_right : Block,
      (LargeImpl.score fmt cfg uninit m_stream calced lhs_rows lhs_cols rhs_cols pitch
          violation_callback).scan
        = LargeImpl.scoreWalk uninit violation_callback calced rep pad_bottom pad_right
            lhs_rows rhs_cols pitch a.repeat_rows a.repeat_cols a.pad_rows
            { result := create_result fmt cfg lhs_cols, calls := [], scored := []
              fault := none } := by
  unfold LargeImpl.score
  rw [ha]
  dsimp only
  rw [if_neg (by omega), if_neg (not_not.mpr hinv.1), if_neg (by omega),
    if_neg (not_not.mpr hinv.2)]
  exact ⟨_, _, _, rfl⟩

theorem specTiled_fileC11 (r : Nat) (hr : r < 6291456) :
    specTiled float32 fileC11 52 6291456 1 2 1 0 0 r 0 = candC11 (r * 1 + 0) := by
  have hc : candC11 (r * 1 + 0) = if r % 2 = 0 then f32 3 else f32 6 := by
    unfold candC11
    simp
  rw [hc]
  unfold specTiled
  have hr' : r < 6291456 - 0 := hr
  rcases Nat.mod_two_eq_zero_or_one r with h | h
  · simp only [h]
    rw [if_pos hr']
    decide
  · simp only [h]
    rw [if_pos hr']
    decide

/-- C11 (defect): `fileC11` is a valid tiled file with the large header
`(6291456, 1, 1)`; its answer is the column `3, 6, 3, 6, ...` of 6291456 elements,
which the candidate `candC11` equals at every position.  For every choice of the
threshold constants, the call of `score` compares the candidate only at `(0, 0)`, and
there against 0.0, not the stored 3.0; it then reads `pad_right[0]` of an empty array
for the position `(0, 1)` outside the matrix and returns no `Result`.  When the
uninitialised counters start at `uninit + 1`, that is at 1 or more, it compares
nothing at all. -/
theorem tiled_score_walk_misses_matrix (cfg : Config) (uninit : Nat) :
    isLarge 6291456 1 1 = true
    ∧ Reader.construct_from_file fileC11 = some readerC11
    ∧ LargeImpl.readAnswerFields readerC11.m_stream
        = (some answerFieldsC11, ⟨fileC11, 40, false⟩)
    ∧ answerInvariant answerFieldsC11 6291456 1
    ∧ (∀ r < 6291456,
        candC11 (r * 1 + 0) = specTiled float32 fileC11 52 6291456 1 2 1 0 0 r 0)
    ∧ (Reader.score float32 cfg 0 readerC11 candC11 1 true).scan.fault
        = some Fault.outOfBounds
    ∧ (Reader.score float32 cfg 0 readerC11 candC11 1 true).scan.scored
        = [⟨0, 0, f32 3, Element.fin 0⟩]
    ∧ (Reader.score float32 cfg (uninit + 1) readerC11 candC11 1 true).scan.fault = none
    ∧ (Reader.score float32 cfg (uninit + 1) readerC11 candC11 1 true).scan.scored = [] := by
  have h := LargeImpl.score_sameTrace float32 cfg ⟨0, 0, 0⟩ 0 readerC11.m_stream candC11
    6291456 1 1 1
  have ha : LargeImpl.readAnswerFields readerC11.m_stream
      = (some answerFieldsC11, ⟨fileC11, 40, false⟩) := by decide
  have hinv : answerInvariant answerFieldsC11 6291456 1 := by
    unfold answerInvariant; decide
  refine ⟨by decide, by decide, ha, hinv, fun r hr => (specTiled_fileC11 r hr).symm, ?_, ?_, ?_⟩
  · refine h.1.trans ?_
    decide
  · refine h.2.trans ?_
    decide
  · obtain ⟨rep, pb, pr, e⟩ := LargeImpl.score_scan_of_valid float32 cfg (uninit + 1)
      readerC11.m_stream candC11 6291456 1 1 1 true answerFieldsC11 _ ha (by decide)
      (by decide) hinv
    have e' : (Reader.score float32 cfg (uninit + 1) readerC11 candC11 1 true).scan = _ := e
    rw [e', LargeImpl.scoreWalk_skip (uninit + 1) true candC11 rep pb pr 6291456 1 1
      answerFieldsC11.repeat_rows answerFieldsC11.repeat_cols answerFieldsC11.pad_rows _
      (Nat.le_add_left 1 uninit) (by decide) (by decide) (by decide) (by decide)]
    exact ⟨rfl, rfl⟩

/-! ## Dense `get` -/

theorem Stream.read_ok (s : Stream) (n : Nat) (hf : s.failed = false)
    (hlen : s.pos + n ≤ s.bytes.length) :
    s.read n = ((s.bytes.drop s.pos).take n, ⟨s.bytes, s.pos + n, false⟩) := by
  have hl : ((s.bytes.drop s.pos).take n).length = n := by
    rw [List.length_take, List.length_drop]
    omega
  unfold Stream.read
  simp [hf, hl]

theorem take_drop_take_drop (l : List Nat) (p n k m : Nat) (h : k + m ≤ n) :
    (((l.drop p).take n).drop k).take m = (l.drop (p + k)).take m := by
  rw [List.drop_take, List.take_take, List.drop_drop]
  have e : min m (n - k) = m := by omega
  rw [e]

theorem succ_mul_le_iff (a b s : Nat) (hs : 0 < s) : (a + 1) * s ≤ s * b ↔ a < b := by
  rw [Nat.mul_comm s b]
  constructor
  · intro h
    exact Nat.lt_of_succ_le (Nat.le_of_mul_le_mul_right h hs)
  · intro h
    exact Nat.mul_le_mul_right s h

theorem RegularImpl.readRow_spec (fmt : ElemFormat) (s : Stream) (dist : Buffer)
    (start cols : Nat) (hs : 0 < fmt.size) (hf : s.failed = false)
    (hlen : s.pos + fmt.size * cols ≤ s.bytes.length) :
    (RegularImpl.readRow fmt s dist start cols).2 = ⟨s.bytes, s.pos + fmt.size * cols, false⟩
    ∧ (∀ c < cols, (RegularImpl.readRow fmt s dist start cols).1 (start + c)
        = fmt.decode ((s.bytes.drop (s.pos + c * fmt.size)).take fmt.size))
    ∧ (∀ i, (i < start ∨ start + cols ≤ i) →
        (RegularImpl.readRow fmt s dist start cols).1 i = dist i) := by
  unfold RegularImpl.readRow
  rw [Stream.read_ok s _ hf hlen]
  dsimp only
  have hl : ((s.bytes.drop s.pos).take (fmt.size * cols)).length = fmt.size * cols := by
    rw [List.length_take, List.length_drop]
    omega
  refine ⟨rfl, ?_, ?_⟩
  · intro c hc
    have e : start + c - start = c := by omega
    rw [e, hl, if_pos ⟨by omega, (succ_mul_le_iff c cols fmt.size hs).mpr hc⟩]
    rw [take_drop_take_drop]
    have := (succ_mul_le_iff c cols fmt.size hs).mpr hc
    rw [Nat.add_mul, Nat.one_mul] at this
    exact this
  · intro i hi
    rw [hl]
    rw [if_neg]
    rintro ⟨h1, h2⟩
    have := (succ_mul_le_iff (i - start) cols fmt.size hs).mp h2
    omega

theorem RegularImpl.readRows_succ (fmt : ElemFormat) (s : Stream) (dist : Buffer)
    (n cols pitch : Nat) :
    RegularImpl.readRows fmt s dist (n + 1) cols pitch
      = RegularImpl.readRow fmt (RegularImpl.readRows fmt s dist n cols pitch).2
          (RegularImpl.readRows fmt s dist n cols pitch).1 (n * pitch) cols := by
  unfold RegularImpl.readRows
  rw [List.range_succ, List.foldl_append]
  rfl

theorem cell_lt_row_start {r n c cols pitch : Nat} (hr : r < n) (hc : c < cols)
    (hp : cols ≤ pitch) : r * pitch + c < n * pitch := by
  have h1 : (r + 1) * pitch ≤ n * pitch := Nat.mul_le_mul_right pitch hr
  rw [Nat.add_mul, Nat.one_mul] at h1
  omega

theorem RegularImpl.readRows_spec (fmt : ElemFormat) (s : Stream) (dist : Buffer)
    (cols pitch : Nat) (hs : 0 < fmt.size) (hf : s.failed = false) (hp : cols ≤ pitch) :
    ∀ n, s.pos + fmt.size * (n * cols) ≤ s.bytes.length →
      (RegularImpl.readRows fmt s dist n cols pitch).2
        = ⟨s.bytes, s.pos + fmt.size * (n * cols), false⟩
      ∧ (∀ r < n, ∀ c < cols, (RegularImpl.readRows fmt s dist n cols pitch).1 (r * pitch + c)
          = fmt.decode ((s.bytes.drop (s.pos + fmt.size * (r * cols + c))).take fmt.size))
      ∧ (∀ i, (∀ r < n, ∀ c < cols, i ≠ r * pitch + c) →
          (RegularImpl.readRows fmt s dist n cols pitch).1 i = dist i) := by
  intro n
  induction n with
  | zero =>
    intro _
    refine ⟨?_, ?_, ?_⟩
    · show (dist, s).2 = _
      cases s
      simp at hf ⊢
      exact hf
    · intro r hr; omega
    · intro i _; rfl
  | succ n ih =>
    intro hlen
    have hmul : fmt.size * ((n + 1) * cols) = fmt.size * (n * cols) + fmt.size * cols := by
      rw [Nat.add_mul, Nat.one_mul, Nat.mul_add]
    have hlen' : s.pos + fmt.size * (n * cols) ≤ s.bytes.length := by omega
    obtain ⟨i1, i2, i3⟩ := ih hlen'
    rw [RegularImpl.readRows_succ]
    have hrow := RegularImpl.readRow_spec fmt (RegularImpl.readRows fmt s dist n cols pitch).2
      (RegularImpl.readRows fmt s dist n cols pitch).1 (n * pitch) cols hs
      (by rw [i1]) (by rw [i1]; dsimp only; omega)
    obtain ⟨j1, j2, j3⟩ := hrow
    refine ⟨?_, ?_, ?_⟩
    · rw [j1, i1]
      dsimp only
      rw [hmul, Nat.add_assoc]
    · intro r hr c hc
      by_cases hrn : r < n
      · rw [j3 _ (Or.inl (cell_lt_row_start hrn hc hp))]
        exact i2 r hrn c hc
      · have hrn' : r = n := by omega
        subst hrn'
        rw [j2 c hc, i1]
        dsimp only
        have e : s.pos + fmt.size * (r * cols) + c * fmt.size
            = s.pos + fmt.size * (r * cols + c) := by
          rw [Nat.mul_add, Nat.mul_comm c fmt.size, Nat.add_assoc]
        rw [e]
    · intro i hi
      have hnot : i < n * pitch ∨ n * pitch + cols ≤ i := by
        by_contra hcon
        have h1 : n * pitch ≤ i := by omega
        have h2 : i < n * pitch + cols := by omega
        exact hi n (Nat.lt_succ_self n) (i - n * pitch) (by omega) (by omega)
      rw [j3 i hnot]
      exact i3 i (fun r hr c hc => hi r (Nat.lt_succ_of_lt hr) c hc)

theorem RegularImpl.get_eq_readRows (fmt : ElemFormat) (m_stream : Stream) (lhs rhs : Buffer)
    (lhs_rows lhs_cols rhs_cols lhs_pitch rhs_pitch : Nat) :
    RegularImpl.get fmt m_stream lhs rhs lhs_rows lhs_cols rhs_cols lhs_pitch rhs_pitch
      = { lhs := (RegularImpl.readRows fmt (m_stream.seekg (4 * 3)) lhs lhs_rows lhs_cols
            lhs_pitch).1
          rhs := (RegularImpl.readRows fmt
            (RegularImpl.readRows fmt (m_stream.seekg (4 * 3)) lhs lhs_rows lhs_cols
              lhs_pitch).2 rhs lhs_cols rhs_cols rhs_pitch).1
          stream := (RegularImpl.readRows fmt
            (RegularImpl.readRows fmt (m_stream.seekg (4 * 3)) lhs lhs_rows lhs_cols
              lhs_pitch).2 rhs lhs_cols rhs_cols rhs_pitch).2
          fault := none } := rfl

theorem gap_not_cell {r c pitch cols : Nat} (hc : cols ≤ c) (hcp : c < pitch) :
    ∀ r', ∀ c' < cols, r * pitch + c ≠ r' * pitch + c' := by
  intro r' c' hc' h
  have h1 : (r * pitch + c) % pitch = c := by
    rw [Nat.add_comm, Nat.add_mul_mod_self_right]
    exact Nat.mod_eq_of_lt hcp
  have h2 : (r' * pitch + c') % pitch = c' := by
    rw [Nat.add_comm, Nat.add_mul_mod_self_right]
    exact Nat.mod_eq_of_lt (by omega)
  rw [h] at h1
  omega

/-- C12: for a dense file that holds the header and both operands, a stream in good
state and pitches `lhs_pitch >= lhs_cols`, `rhs_pitch >= rhs_cols`, the dense `get`
completes and leaves in `lhs[r * lhs_pitch + c]` the LHS element `(r, c)` of the file
(decoded at byte `12 + sizeof(Element) * (r * lhs_cols + c)`) for all `r < lhs_rows`,
`c < lhs_cols`, and in `rhs[r * rhs_pitch + c]` the RHS element `(r, c)` (stored right
after the LHS block) for all `r < lhs_cols`, `c < rhs_cols`; the slots of the pitch gap,
with column index from `cols` up to `pitch`, keep their content. -/
theorem dense_get_fills_buffers (fmt : ElemFormat) (m_stream : Stream) (lhs rhs : Buffer)
    (lhs_rows lhs_cols rhs_cols lhs_pitch rhs_pitch : Nat) (hs : 0 < fmt.size)
    (hf : m_stream.failed = false)
    (hlen : 12 + fmt.size * (lhs_rows * lhs_cols) + fmt.size * (lhs_cols * rhs_cols)
      ≤ m_stream.bytes.length)
    (hlp : lhs_cols ≤ lhs_pitch) (hrp : rhs_cols ≤ rhs_pitch) :
    (RegularImpl.get fmt m_stream lhs rhs lhs_rows lhs_cols rhs_cols lhs_pitch
        rhs_pitch).fault = none
    ∧ (∀ r < lhs_rows, ∀ c < lhs_cols,
        (RegularImpl.get fmt m_stream lhs rhs lhs_rows lhs_cols rhs_cols lhs_pitch
          rhs_pitch).lhs (r * lhs_pitch + c)
          = specDenseLhs fmt m_stream.bytes lhs_cols r c)
    ∧ (∀ r < lhs_cols, ∀ c < rhs_cols,
        (RegularImpl.get fmt m_stream lhs rhs lhs_rows lhs_cols rhs_cols lhs_pitch
          rhs_pitch).rhs (r * rhs_pitch + c)
          = specDenseRhs fmt m_stream.bytes lhs_rows lhs_cols rhs_cols r c)
    ∧ (∀ r < lhs_rows, ∀ c, lhs_cols ≤ c → c < lhs_pitch →
        (RegularImpl.get fmt m_stream lhs rhs lhs_rows lhs_cols rhs_cols lhs_pitch
          rhs_pitch).lhs (r * lhs_pitch + c) = lhs (r * lhs_pitch + c))
    ∧ (∀ r < lhs_cols, ∀ c, rhs_cols ≤ c → c < rhs_pitch →
        (RegularImpl.get fmt m_stream lhs rhs lhs_rows lhs_cols rhs_cols lhs_pitch
          rhs_pitch).rhs (r * rhs_pitch + c) = rhs (r * rhs_pitch + c)) := by
  have hseek : m_stream.seekg (4 * 3) = ⟨m_stream.bytes, 12, false⟩ := by
    unfold Stream.seekg
    simp [hf]
  obtain ⟨l1, l2, l3⟩ := RegularImpl.readRows_spec fmt ⟨m_stream.bytes, 12, false⟩ lhs
    lhs_cols lhs_pitch hs rfl hlp lhs_rows (by dsimp only; omega)
  dsimp only at l1 l2 l3
  obtain ⟨r1, r2, r3⟩ := RegularImpl.readRows_spec fmt
    ⟨m_stream.bytes, 12 + fmt.size * (lhs_rows * lhs_cols), false⟩ rhs
    rhs_cols rhs_pitch hs rfl hrp lhs_cols (by dsimp only; omega)
  dsimp only at r1 r2 r3
  rw [RegularImpl.get_eq_readRows, hseek, l1]
  refine ⟨rfl, ?_, ?_, ?_, ?_⟩
  · intro r hr c hc
    exact l2 r hr c hc
  · intro r hr c hc
    exact r2 r hr c hc
  · intro r _ c hc hcp
    exact l3 _ (fun r' _ c' hc' => gap_not_cell hc hcp r' c' hc')
  · intro r _ c hc hcp
    exact r3 _ (fun r' _ c' hc' => gap_not_cell hc hcp r' c' hc')

theorem dense_get_fills_buffers_witness :
    (RegularImpl.get float32 readerC7.m_stream zeros zeros 2 2 2 3 2).lhs (1 * 3 + 0)
        = specDenseLhs float32 fileC7 2 1 0
    ∧ specDenseLhs float32 fileC7 2 1 0 = f32 3
    ∧ (RegularImpl.get float32 readerC7.m_stream zeros zeros 2 2 2 3 2).rhs (1 * 2 + 1)
        = specDenseRhs float32 fileC7 2 2 2 1 1
    ∧ (RegularImpl.get float32 readerC7.m_stream zeros zeros 2 2 2 3 2).lhs (1 * 3 + 2)
        = zeros (1 * 3 + 2) :=
  ⟨(dense_get_fills_buffers float32 readerC7.m_stream zeros zeros 2 2 2 3 2 (by decide)
      (by decide) (by decide) (by decide) (by decide)).2.1 1 (by decide) 0 (by decide),
   by decide,
   (dense_get_fills_buffers float32 readerC7.m_stream zeros zeros 2 2 2 3 2 (by decide)
      (by decide) (by decide) (by decide) (by decide)).2.2.1 1 (by decide) 1 (by decide),
   (dense_get_fills_buffers float32 readerC7.m_stream zeros zeros 2 2 2 3 2 (by decide)
      (by decide) (by decide) (by decide) (by decide)).2.2.2.1 1 (by decide) 2 (by decide)
      (by decide)⟩

end MM.Problem
